import Mathlib

/-! Devtron control-plane core: artifact ingestion, fan-out and chart versions

A shallow embedding of the Go sources

* `pkg/pipeline/WebhookService.go` (build-success webhook, downstream fan-out),
* `internal/sql/repository/CiArtifactRepository.go` (artifact store),
* `pkg/chart/ChartService.go` (chart version store),
* `pkg/pipeline/history/DeploymentTemplateHistoryService.go` (history recorder),

together with the properties of these functions.

Conventions.  Go `int` values are `Int`; a Go `error` is `Option GoError`
(`none` is `nil`); database tables are lists of rows in insertion order; the
collaborators that the services only call through an interface (the downstream
trigger executor, JSON library routines, storage faults) are fields of a
dependency record that every function takes as its first argument.
-/

namespace Devtron

/-! ## Go errors -/

/-- A Go error value.  `ErrNoRows` is `pg.ErrNoRows`; every other error is
identified by its message. -/
inductive GoError where
  | ErrNoRows
  | other (msg : String)
  /-- A run-time panic (index out of range) unwinding the call. -/
  | panic (msg : String)
  /-- The error type `util2.ApiError`, with its fields `Code`, `HttpStatusCode`
  and `UserMessage`. -/
  | apiError (Code : String) (HttpStatusCode : Int) (UserMessage : String)
  deriving DecidableEq, Repr

deriving instance DecidableEq for Except

/-- The Go type `error`: `none` is `nil`. -/
abbrev error := Option GoError

/-- The function `util2.IsErrNoRows`. -/
def IsErrNoRows (err : error) : Bool :=
  err == some GoError.ErrNoRows

/-! ## Artifact store (`CiArtifactRepository.go`) -/

/-- The struct `time.Time` as Go's `==` and map keys see it. Go compares two
`time.Time` values field by field: the wall and monotonic clock readings (the
fields `wall` and `ext`) and the location pointer (`loc`). `instant` is the
instant read from the wall clock, in clock ticks; `mono` is the monotonic
reading, when the value carries one; `loc` identifies the location the pointer
refers to. Two values of the same instant differ when they were read in
different locations. A numeral stands for the instant without monotonic
reading in location `0`. -/
structure Time where
  instant : Nat := 0
  mono : Option Int := none
  loc : Nat := 0
  deriving DecidableEq, Repr

instance : OfNat Time n := ⟨{ instant := n }⟩

/-- The embedded struct `sql.AuditLog`; times are clock ticks, `0` is the zero time. -/
structure AuditLog where
  CreatedOn : Nat := 0
  CreatedBy : Int := 0
  UpdatedOn : Nat := 0
  UpdatedBy : Int := 0
  deriving DecidableEq, Repr

/-- The row type `repository.CiArtifact`: the persisted columns, followed by the
fields `DeployedTime`, `Deployed`, `Latest` and `RunningOnParent`, which are
not stored (`sql:"-"`) and are filled in by the listing queries. -/
structure CiArtifact where
  Id : Int := 0
  PipelineId : Int := 0
  Image : String := ""
  ImageDigest : String := ""
  MaterialInfo : String := ""
  DataSource : String := ""
  WorkflowId : Option Int := none
  ParentCiArtifact : Int := 0
  ScanEnabled : Bool := false
  Scanned : Bool := false
  ExternalCiPipelineId : Int := 0
  IsArtifactUploaded : Bool := false
  Audit : AuditLog := {}
  DeployedTime : Nat := 0
  Deployed : Bool := false
  Latest : Bool := false
  RunningOnParent : Bool := false
  deriving DecidableEq, Repr

/-- The row type `pipelineConfig.CiPipeline`, restricted to the columns the
webhook service reads. -/
structure CiPipeline where
  Id : Int := 0
  Name : String := ""
  AppId : Int := 0
  ParentCiPipeline : Int := 0
  ScanEnabled : Bool := false
  deriving DecidableEq, Repr

/-- The row type `pipelineConfig.CiWorkflow`, restricted to scalar columns. -/
structure CiWorkflow where
  Id : Int := 0
  Name : String := ""
  Status : String := ""
  CiPipelineId : Int := 0
  TriggeredBy : Int := 0
  deriving DecidableEq, Repr

/-- The request body `CiArtifactWebhookRequest`. -/
structure CiArtifactWebhookRequest where
  Image : String := ""
  ImageDigest : String := ""
  MaterialInfo : String := ""
  DataSource : String := ""
  PipelineName : String := ""
  WorkflowId : Option Int := none
  UserId : Int := 0
  IsArtifactUploaded : Bool := false
  FailureReason : String := ""
  deriving DecidableEq, Repr

/-- The tables the webhook service reads and writes. -/
structure Db where
  ciArtifacts : List CiArtifact := []
  ciWorkflows : List CiWorkflow := []
  ciPipelines : List CiPipeline := []
  deriving DecidableEq, Repr

/-- Modelled from the spec: the row type `pipelineConfig.ExternalCiPipeline`, an
external-CI registration (the type is outside the sources at hand). -/
structure ExternalCiPipeline where
  Id : Int := 0
  AppId : Int := 0
  Active : Bool := false
  AccessToken : String := ""
  deriving DecidableEq, Repr

/-- The notification built by `WriteCIStepFailedEvent` (lines 350-363): the
fields of `client.Event` the method sets. -/
structure FailedEvent where
  PipelineId : Int := 0
  AppId : Int := 0
  CiWorkflowRunnerId : Int := 0
  UserId : Int := 0
  CiArtifactId : Int := 0
  Image : String := ""
  FailureReason : String := ""
  deriving DecidableEq, Repr

/-- One invocation of `workflowDagExecutor.HandleCiSuccessEvent`, with its
four arguments. -/
structure TriggerCall where
  artifact : CiArtifact
  isManual : Bool
  async : Bool
  userId : Int
  deriving DecidableEq, Repr

/-- The collaborators of `WebhookServiceImpl`. -/
structure WebhookDeps where
  /-- Outcome of inserting the given row into `ci_artifact`. -/
  insertErr : CiArtifact → error := fun _ => none
  /-- Outcome of `ciWorkflowRepository.UpdateWorkFlow` on the given row. -/
  updateWorkflowErr : CiWorkflow → error := fun _ => none
  /-- Storage fault reported by `FindByParentCiPipelineId` for a parent id. -/
  findChildrenErr : Int → error := fun _ => none
  /-- The library routine `json.Compact`. -/
  jsonCompact : String → Except GoError String := fun s => Except.ok s
  /-- Outcome of `workflowDagExecutor.HandleCiSuccessEvent` for one call. -/
  trigger : TriggerCall → error := fun _ => none
  /-- The order in which the goroutines of one batch run, given the indices
  launched in that batch. -/
  order : List Nat → List Nat := fun l => l
  /-- The setting `ciConfig.CIAutoTriggerBatchSize`. -/
  CIAutoTriggerBatchSize : Int := 1
  /-- The reading of `time.Now()`. -/
  now : Nat := 0
  /-- Outcome of deleting the given row from `ci_artifact`. -/
  deleteErr : CiArtifact → error := fun _ => none
  /-- The method `ciPipelineRepository.FindExternalCiById`: the registration with
  the given id, or a zero record with `ErrNoRows`, or a storage fault. -/
  FindExternalCiById : Int → ExternalCiPipeline × error :=
    fun id => ({ Id := id, Active := true }, none)
  /-- The query at lines 146-151 of `GetArtifactsByCDPipeline`: the artifacts of
  an external-CI parent, newest id first, for a parent id and a limit. -/
  selectByExternalCi : Int → Int → List CiArtifact × error := fun _ _ => ([], none)
  /-- The query at lines 164-171 of `GetArtifactsByCDPipeline`: the artifacts of
  the CI pipeline feeding a deployment pipeline, newest id first, for a
  deployment pipeline id and a limit. -/
  selectByCdPipeline : Int → Int → List CiArtifact × error := fun _ _ => ([], none)
  /-- The query at lines 184-191 of `GetArtifactsByCDPipeline`: one row per
  deployment record of the pipeline, carrying the artifact id and the record's
  `created_on`, for a deployment pipeline id and a limit. -/
  selectDeployed : Int → Int → List CiArtifact × error := fun _ _ => ([], none)
  /-- The method `ciPipelineRepository.FindExternalCiByCiPipelineId`: the
  registration with the given id, or a zero record with `ErrNoRows`. -/
  FindExternalCiByCiPipelineId : Int → ExternalCiPipeline × error :=
    fun _ => ({}, some GoError.ErrNoRows)
  /-- Outcome of `eventClient.WriteNotificationEvent` for a failure notification. -/
  WriteNotificationEvent : FailedEvent → error := fun _ => none
  /-- The method `workflowDagExecutor.HandleWebhookExternalCiEvent`, with its
  four arguments: whether any downstream pipeline was triggered, and an error. -/
  HandleWebhookExternalCiEvent :
    CiArtifact → Int → Int → (String → String → String → Bool) → Bool × error :=
    fun _ _ _ _ => (true, none)

/-- The primary key the database assigns to a row inserted with `Id = 0`. -/
def nextArtifactId (rows : List CiArtifact) : Int :=
  (rows.map (fun r => r.Id)).foldl max 0 + 1

/-- One `INSERT` into `ci_artifact`: fails as the fault oracle says, otherwise
appends the row, the key being assigned by the database when it is zero.
Returns the row as written back into the caller's struct. -/
def insertArtifact (deps : WebhookDeps) (rows : List CiArtifact) (a : CiArtifact) :
    Except GoError (List CiArtifact × CiArtifact) :=
  match deps.insertErr a with
  | some e => Except.error e
  | none =>
    let a1 := if a.Id = 0 then { a with Id := nextArtifactId rows } else a
    Except.ok (rows ++ [a1], a1)

/-- The method `CiArtifactRepositoryImpl.Save`. -/
def CiArtifactRepository.Save (deps : WebhookDeps) (db : Db) (artifact : CiArtifact) :
    error × Db × CiArtifact :=
  match insertArtifact deps db.ciArtifacts artifact with
  | Except.error e => (some e, db, artifact)
  | Except.ok (rows, a1) => (none, { db with ciArtifacts := rows }, a1)

/-- The body of the transaction in `SaveAll`: insert the rows one after the
other, stopping at the first failure. -/
def saveAllTx (deps : WebhookDeps) :
    List CiArtifact → List CiArtifact → Except GoError (List CiArtifact × List CiArtifact)
  | [], rows => Except.ok (rows, [])
  | a :: rest, rows =>
    match insertArtifact deps rows a with
    | Except.error e => Except.error e
    | Except.ok (rows1, a1) =>
      match saveAllTx deps rest rows1 with
      | Except.error e => Except.error e
      | Except.ok (rows2, saved) => Except.ok (rows2, a1 :: saved)

/-- The caller's structs after the inserts of a batch that fails: every insert
before the failing one has written the key it was given into its struct, and
the roll-back does not take the keys out again. -/
def writtenBack (deps : WebhookDeps) : List CiArtifact → List CiArtifact → List CiArtifact
  | [], _ => []
  | a :: rest, rows =>
    match insertArtifact deps rows a with
    | Except.error _ => a :: rest
    | Except.ok (rows1, a1) => a1 :: writtenBack deps rest rows1

/-- The method `CiArtifactRepositoryImpl.SaveAll`: `RunInTransaction` commits the
inserts when the body returns `nil` and rolls all of them back otherwise. The
third component is the batch as the call leaves it in the caller's structs. -/
def CiArtifactRepository.SaveAll (deps : WebhookDeps) (db : Db) (artifacts : List CiArtifact) :
    error × Db × List CiArtifact :=
  match saveAllTx deps artifacts db.ciArtifacts with
  | Except.error e => (some e, db, writtenBack deps artifacts db.ciArtifacts)
  | Except.ok (rows, saved) => (none, { db with ciArtifacts := rows }, saved)

/-- The method `CiArtifactRepositoryImpl.Delete`: delete by primary key; the
client returns `ErrNoRows` when no row has the key. -/
def CiArtifactRepository.Delete (deps : WebhookDeps) (db : Db) (artifact : CiArtifact) :
    error × Db :=
  match deps.deleteErr artifact with
  | some e => (some e, db)
  | none =>
    if db.ciArtifacts.any (fun r => r.Id == artifact.Id) then
      (none, { db with ciArtifacts := db.ciArtifacts.filter (fun r => r.Id != artifact.Id) })
    else (some GoError.ErrNoRows, db)

/-- The method `CiArtifactRepositoryImpl.Get`: select by primary key into a
struct that carries the id. -/
def CiArtifactRepository.Get (db : Db) (id : Int) : CiArtifact × error :=
  match db.ciArtifacts.find? (fun r => r.Id == id) with
  | some r => (r, none)
  | none => ({ Id := id }, some GoError.ErrNoRows)

/-- The struct `GitConfiguration`. -/
structure GitConfiguration where
  URL : String := ""
  deriving DecidableEq, Repr

/-- The struct `ScmConfiguration`. -/
structure ScmConfiguration where
  URL : String := ""
  deriving DecidableEq, Repr

/-- The struct `Material`. -/
structure Material where
  PluginID : String := ""
  GitConfiguration : GitConfiguration := {}
  ScmConfiguration : ScmConfiguration := {}
  /-- The field `Type` (a reserved word here). -/
  Type_ : String := ""
  deriving DecidableEq, Repr

/-- The struct `Modification`, with its scalar fields. -/
structure Modification where
  Revision : String := ""
  ModifiedTime : String := ""
  Author : String := ""
  Message : String := ""
  Branch : String := ""
  Tag : String := ""
  deriving DecidableEq, Repr

/-- The struct `CiMaterialInfo`. -/
structure CiMaterialInfo where
  Material : Material := {}
  Changed : Bool := false
  Modifications : List Modification := []
  deriving DecidableEq, Repr

/-- The white-space characters of `unicode.IsSpace`. -/
def isSpace (c : Char) : Bool :=
  let n := c.toNat
  (9 ≤ n && n ≤ 13) || n = 32 || n = 133 || n = 160 || n = 5760 || (8192 ≤ n && n ≤ 8202) ||
    n = 8232 || n = 8233 || n = 8239 || n = 8287 || n = 12288

/-- The call `strings.TrimSpace(s)`. -/
def TrimSpace (s : String) : String :=
  String.mk ((s.data.dropWhile isSpace).reverse.dropWhile isSpace).reverse

/-- The loop at lines 378-390 of `ParseMaterialInfo`; the map `scmMap` is the
list of its assignments, latest first.  A nil element of the slice and a
material without modifications make the body panic. -/
def parseMaterials :
    List (Option CiMaterialInfo) → List (String × String) →
      Except GoError (List (String × String))
  | [], scmMap => Except.ok scmMap
  | none :: _, _ =>
    Except.error (GoError.panic "invalid memory address or nil pointer dereference")
  | some material :: rest, scmMap =>
    let url : Except GoError String :=
      if material.Material.Type_ = "git" then Except.ok material.Material.GitConfiguration.URL
      else if material.Material.Type_ = "scm" then
        Except.ok material.Material.ScmConfiguration.URL
      else Except.error
        (GoError.other ("unknown material type:" ++ material.Material.Type_ ++ " "))
    match url with
    | Except.error e => Except.error e
    | Except.ok url =>
      match material.Modifications with
      | [] => Except.error (GoError.panic "index out of range [0] with length 0")
      | first :: _ => parseMaterials rest ((TrimSpace url, first.Revision) :: scmMap)

/-- The method `CiArtifact.ParseMaterialInfo`; `Unmarshal` is the library call
`json.Unmarshal` into a `[]*CiMaterialInfo`, giving the slice it filled and
its error. -/
def ParseMaterialInfo (Unmarshal : String → List (Option CiMaterialInfo) × error)
    (info : CiArtifact) : Option (List (String × String)) × error :=
  if info.DataSource ≠ "GOCD" ∧ info.DataSource ≠ "CI-RUNNER" ∧ info.DataSource ≠ "EXTERNAL" then
    (none, some (GoError.other ("datasource: " ++ info.DataSource ++ " not supported")))
  else
    let decoded := Unmarshal info.MaterialInfo
    match parseMaterials decoded.1 [] with
    | Except.error e => (none, some e)
    | Except.ok scmMap => (some scmMap, decoded.2)

/-- Modelled from the spec: the type `bean.WorkflowType` (package `bean` is
outside the sources at hand). -/
abbrev WorkflowType := String

/-- Modelled from the spec: the constant `bean.WEBHOOK_WORKFLOW_TYPE`. -/
def WEBHOOK_WORKFLOW_TYPE : WorkflowType := "WEBHOOK"

/-- Modelled from the spec: the constant `bean.CI_WORKFLOW_TYPE`. -/
def CI_WORKFLOW_TYPE : WorkflowType := "CI"

/-- Lines 202-214 of `GetArtifactsByCDPipeline` ("find latest deployed entry"):
the loop over the deployment records that keeps an artifact id and a time,
starting from id 0 and the time of the first record. -/
def lastDeployedArtifactId (artifactsDeployed : List CiArtifact) : Int :=
  match artifactsDeployed with
  | [] => 0
  | first :: _ =>
    (artifactsDeployed.foldl
      (fun (st : Int × Nat) artifact =>
        if st.2 > artifact.Audit.CreatedOn then (artifact.Id, artifact.Audit.CreatedOn) else st)
      (0, first.Audit.CreatedOn)).1

/-- Lines 225-228 of `GetArtifactsByCDPipeline`: the map from artifact id to
`created_on`, as the list of its assignments, latest first. -/
def deployedTimes (artifactsDeployed : List CiArtifact) : List (Int × Nat) :=
  artifactsDeployed.foldl (fun m a => (a.Id, a.Audit.CreatedOn) :: m) []

/-- Lines 229-238 of `GetArtifactsByCDPipeline`: mark the fetched artifacts that
have a deployment record, and among them the one with the id found by
`lastDeployedArtifactId`. -/
def markDeployed (mapData2 : List (Int × Nat)) (lastDeployed : Int)
    (artifacts : List CiArtifact) : List CiArtifact :=
  artifacts.map (fun a =>
    match mapData2.find? (fun p => p.1 == a.Id) with
    | some p =>
      let a := { a with Deployed := true, DeployedTime := p.2 }
      if lastDeployed = a.Id then { a with Latest := true } else a
    | none => a)

/-- The method `CiArtifactRepositoryImpl.GetArtifactsByCDPipeline`; with a
negative `limit` the allocation `make([]*CiArtifact, 0, limit)` of line 143
panics. -/
def GetArtifactsByCDPipeline (deps : WebhookDeps) (cdPipelineId limit parentId : Int)
    (parentType : WorkflowType) : List CiArtifact × error :=
  if limit < 0 then ([], some (GoError.panic "makeslice: cap out of range"))
  else
    let fetched : List CiArtifact × error :=
      if parentType = WEBHOOK_WORKFLOW_TYPE then deps.selectByExternalCi parentId limit
      else if parentType = CI_WORKFLOW_TYPE then deps.selectByCdPipeline cdPipelineId limit
      else ([], none)
    match fetched with
    | (_, some e) => ([], some e)
    | (artifacts, none) =>
      match deps.selectDeployed cdPipelineId limit with
      | (_, some e) => ([], some e)
      | (artifactsDeployed, none) =>
        (markDeployed (deployedTimes artifactsDeployed) (lastDeployedArtifactId artifactsDeployed)
          artifacts, none)

/-- The method `CiWorkflowRepositoryImpl.FindById`: the row with the given key,
or `ErrNoRows` together with a zero row. -/
def CiWorkflowRepository.FindById (db : Db) (id : Int) : CiWorkflow × error :=
  match db.ciWorkflows.find? (fun w => w.Id == id) with
  | some w => (w, none)
  | none => ({}, some GoError.ErrNoRows)

/-- The method `CiWorkflowRepositoryImpl.UpdateWorkFlow`: update by primary key. -/
def CiWorkflowRepository.UpdateWorkFlow (deps : WebhookDeps) (db : Db) (wf : CiWorkflow) :
    error × Db :=
  match deps.updateWorkflowErr wf with
  | some e => (some e, db)
  | none =>
    (none, { db with ciWorkflows := db.ciWorkflows.map (fun w => if w.Id = wf.Id then wf else w) })

/-- Modelled from the spec: `ciPipelineRepository.FindByCiAndAppDetailsById`
(the repository is outside the sources at hand), "resolve pipeline-by-id". -/
def CiPipelineRepository.FindByCiAndAppDetailsById (db : Db) (id : Int) : CiPipeline × error :=
  match db.ciPipelines.find? (fun p => p.Id == id) with
  | some p => (p, none)
  | none => ({}, some GoError.ErrNoRows)

/-- Modelled from the spec: `ciPipelineRepository.FindByParentCiPipelineId`,
"resolve-child-pipelines-by-parent-id": the pipelines declaring the given
pipeline as parent, in table order, or a storage fault. -/
def CiPipelineRepository.FindByParentCiPipelineId (deps : WebhookDeps) (db : Db) (id : Int) :
    List CiPipeline × error :=
  match deps.findChildrenErr id with
  | some e => ([], some e)
  | none => (db.ciPipelines.filter (fun p => p.ParentCiPipeline == id), none)

/-! ## Webhook ingestion and fan-out (`WebhookService.go`) -/

/-- The method `json.RawMessage.MarshalJSON`: a nil message encodes as `null`. -/
def MarshalJSON (m : String) : String :=
  if m = "" then "null" else m

/-- The state of the batch loop of `HandleCiSuccessEvent`: the loop variable
`i`, the current `batchSize`, the shared variable `err`, and a trace of what
has been launched and run so far. -/
structure FanOutState where
  i : Nat
  batchSize : Nat
  err : error
  /-- The executor calls made so far, in the order they ran. -/
  calls : List TriggerCall
  /-- The indices launched by each finished batch, oldest batch first. -/
  batches : List (List Nat)
  deriving DecidableEq, Repr

/-- The body of one goroutine of a batch (lines 275-283): read
`ciArtifactArr[index]`, call the executor, store its result in the shared
`err`.  A goroutine runs as one step. -/
def runGoroutine (deps : WebhookDeps) (ciArtifactArr : List CiArtifact) (isCiManual async : Bool)
    (userId : Int) (st : error × List TriggerCall) (index : Nat) : error × List TriggerCall :=
  match ciArtifactArr[index]? with
  | none => st
  | some ciArtifact =>
    let call : TriggerCall := { artifact := ciArtifact, isManual := isCiManual, async := async, userId := userId }
    (deps.trigger call, st.2 ++ [call])

/-- The batch loop (lines 265-287), one iteration per unit of fuel: clamp the
batch size to what remains, launch one goroutine per index of the batch, wait
for all of them (`wg.Wait`), advance `i`. -/
def fanOutLoop (deps : WebhookDeps) (ciArtifactArr : List CiArtifact) (isCiManual async : Bool)
    (userId : Int) : Nat → FanOutState → FanOutState
  | 0, st => st
  | fuel + 1, st =>
    if st.i < ciArtifactArr.length then
      let remainingBatch := ciArtifactArr.length - st.i
      let batchSize := if remainingBatch < st.batchSize then remainingBatch else st.batchSize
      let launched := (List.range batchSize).map (fun j => st.i + j)
      let ran := (deps.order launched).foldl
        (runGoroutine deps ciArtifactArr isCiManual async userId) (st.err, st.calls)
      fanOutLoop deps ciArtifactArr isCiManual async userId fuel
        { i := st.i + batchSize, batchSize := batchSize, err := ran.1, calls := ran.2,
          batches := st.batches ++ [launched] }
    else st

/-- The batch size the loop starts with (lines 258-262): the configured value,
or 1 when that is not positive. -/
def effectiveBatchSize (configured : Int) : Nat :=
  if configured ≤ 0 then 1 else configured.toNat

/-- Lines 247-288 of `HandleCiSuccessEvent`: derive the trigger mode from the
acting user and run the batch loop from `i = 0`.  Every iteration advances `i`
by at least one, so `len(ciArtifactArr)` iterations are enough fuel. -/
def autoTrigger (deps : WebhookDeps) (ciArtifactArr : List CiArtifact) (userId : Int)
    (err : error) : FanOutState :=
  let isCiManual := if userId = 1 then false else true
  let async := false
  fanOutLoop deps ciArtifactArr isCiManual async userId ciArtifactArr.length
    { i := 0, batchSize := effectiveBatchSize deps.CIAutoTriggerBatchSize, err := err,
      calls := [], batches := [] }

/-- What a call of `HandleCiSuccessEvent` returns and leaves behind. -/
structure CiSuccessResult where
  id : Int
  err : error
  db : Db
  /-- The slice `ciArtifactArr` handed to the batch loop. -/
  ciArtifactArr : List CiArtifact := []
  /-- The executor calls made, in the order they ran. -/
  calls : List TriggerCall := []
  /-- The indices launched by each batch. -/
  batches : List (List Nat) := []
  /-- Whether the `WriteCISuccessEvent` goroutine was started. -/
  notified : Bool := false
  deriving DecidableEq, Repr

/-- Lines 148-161: when the request names a workflow, load it, set its status
to `Succeeded` and write it back. -/
def markWorkflowSucceeded (deps : WebhookDeps) (db : Db) (request : CiArtifactWebhookRequest) :
    error × Db :=
  match request.WorkflowId with
  | none => (none, db)
  | some workflowId =>
    match CiWorkflowRepository.FindById db workflowId with
    | (_, some e) => (some e, db)
    | (savedWorkflow, none) =>
      CiWorkflowRepository.UpdateWorkFlow deps db { savedWorkflow with Status := "Succeeded" }

/-- Lines 164-169: the defaults written into the request. -/
def fillDefaults (request : CiArtifactWebhookRequest) (pipeline : CiPipeline) :
    CiArtifactWebhookRequest :=
  let request := if request.PipelineName = "" then { request with PipelineName := pipeline.Name } else request
  if request.DataSource = "" then { request with DataSource := "EXTERNAL" } else request

/-- Lines 190-204: the artifact of the pipeline itself. -/
def ownArtifact (deps : WebhookDeps) (pipeline : CiPipeline) (request : CiArtifactWebhookRequest)
    (materialJson : String) (imagePushedAt : Nat) : CiArtifact :=
  let createdOn := if imagePushedAt ≠ 0 then imagePushedAt else deps.now
  let artifact : CiArtifact :=
    { Image := request.Image, ImageDigest := request.ImageDigest, MaterialInfo := materialJson,
      DataSource := request.DataSource, PipelineId := pipeline.Id, WorkflowId := request.WorkflowId,
      ScanEnabled := pipeline.ScanEnabled, Scanned := false,
      IsArtifactUploaded := request.IsArtifactUploaded,
      Audit := { CreatedBy := request.UserId, UpdatedBy := request.UserId,
                 CreatedOn := createdOn, UpdatedOn := deps.now } }
  if pipeline.ScanEnabled then { artifact with Scanned := true } else artifact

/-- Lines 218-232: the clone made for one child pipeline. -/
def cloneArtifact (deps : WebhookDeps) (ci : CiPipeline) (request : CiArtifactWebhookRequest)
    (materialJson : String) (artifact : CiArtifact) : CiArtifact :=
  let ciArtifact : CiArtifact :=
    { Image := request.Image, ImageDigest := request.ImageDigest, MaterialInfo := materialJson,
      DataSource := request.DataSource, PipelineId := ci.Id, ParentCiArtifact := artifact.Id,
      ScanEnabled := ci.ScanEnabled, Scanned := false,
      IsArtifactUploaded := request.IsArtifactUploaded,
      Audit := { CreatedBy := request.UserId, UpdatedBy := request.UserId,
                 CreatedOn := deps.now, UpdatedOn := deps.now } }
  if ci.ScanEnabled then { ciArtifact with Scanned := true } else ciArtifact

/-- Lines 244-289 of `HandleCiSuccessEvent`: append the own artifact to the
clones, start the notification goroutine, run the batch loop and return the
own artifact's id with the final value of `err`. -/
def triggerAndReturn (deps : WebhookDeps) (db : Db) (request : CiArtifactWebhookRequest)
    (artifact : CiArtifact) (clones : List CiArtifact) (err : error) : CiSuccessResult :=
  let ciArtifactArr := clones ++ [artifact]
  let st := autoTrigger deps ciArtifactArr request.UserId err
  { id := artifact.Id, err := st.err, db := db, ciArtifactArr := ciArtifactArr,
    calls := st.calls, batches := st.batches, notified := true }

/-- The method `WebhookServiceImpl.HandleCiSuccessEvent`. -/
def HandleCiSuccessEvent (deps : WebhookDeps) (db : Db) (ciPipelineId : Int)
    (request : CiArtifactWebhookRequest) (imagePushedAt : Nat) : CiSuccessResult :=
  match markWorkflowSucceeded deps db request with
  | (some e, db1) => { id := 0, err := some e, db := db1 }
  | (none, db1) =>
    let found := CiPipelineRepository.FindByCiAndAppDetailsById db1 ciPipelineId
    let pipeline := found.1
    let request := fillDefaults request pipeline
    match found.2 with
    | some e => { id := 0, err := some e, db := db1 }
    | none =>
      match deps.jsonCompact (MarshalJSON request.MaterialInfo) with
      | Except.error e => { id := 0, err := some e, db := db1 }
      | Except.ok materialJson =>
        match CiArtifactRepository.Save deps db1 (ownArtifact deps pipeline request materialJson imagePushedAt) with
        | (some e, db2, _) => { id := 0, err := some e, db := db2 }
        | (none, db2, artifact) =>
          let children := CiPipelineRepository.FindByParentCiPipelineId deps db2 ciPipelineId
          if children.2.isSome && !IsErrNoRows children.2 then
            { id := 0, err := children.2, db := db2 }
          else
            let clones := children.1.map (fun ci => cloneArtifact deps ci request materialJson artifact)
            if clones.length > 0 then
              match CiArtifactRepository.SaveAll deps db2 clones with
              | (some e, db3, _) => { id := 0, err := some e, db := db3 }
              | (none, db3, saved) => triggerAndReturn deps db3 request artifact saved none
            else
              triggerAndReturn deps db2 request artifact clones children.2

/-- What a call of `HandleCiStepFailedEvent` returns and leaves behind. -/
structure StepFailedResult where
  err : error
  db : Db
  /-- The notification handed to the `WriteCIStepFailedEvent` goroutine, with the
  outcome of its delivery (which the goroutine only logs). -/
  notification : Option (FailedEvent × error) := none
  deriving DecidableEq, Repr

/-- The method `WebhookServiceImpl.WriteCIStepFailedEvent`: build the failure
notification and hand it to the event client; a delivery error is logged. -/
def WriteCIStepFailedEvent (deps : WebhookDeps) (pipeline : CiPipeline)
    (request : CiArtifactWebhookRequest) (ciWorkflow : CiWorkflow) : FailedEvent × error :=
  let event : FailedEvent :=
    { PipelineId := pipeline.Id, AppId := pipeline.AppId, CiWorkflowRunnerId := ciWorkflow.Id,
      UserId := ciWorkflow.TriggeredBy, Image := request.Image, CiArtifactId := 0,
      FailureReason := request.FailureReason }
  (event, deps.WriteNotificationEvent event)

/-- The method `WebhookServiceImpl.HandleCiStepFailedEvent`; dereferencing a nil
`request.WorkflowId` panics. -/
def HandleCiStepFailedEvent (deps : WebhookDeps) (db : Db) (ciPipelineId : Int)
    (request : CiArtifactWebhookRequest) : StepFailedResult :=
  match request.WorkflowId with
  | none =>
    { err := some (GoError.panic "invalid memory address or nil pointer dereference"), db := db }
  | some workflowId =>
    match CiWorkflowRepository.FindById db workflowId with
    | (_, some e) => { err := some e, db := db }
    | (savedWorkflow, none) =>
      match CiPipelineRepository.FindByCiAndAppDetailsById db ciPipelineId with
      | (_, some e) => { err := some e, db := db }
      | (pipeline, none) =>
        { err := none, db := db,
          notification := some (WriteCIStepFailedEvent deps pipeline request savedWorkflow) }

/-- What a call of `HandleExternalCiWebhook` returns and leaves behind. -/
structure ExternalCiResult where
  id : Int
  err : error
  db : Db
  /-- The calls of `HandleWebhookExternalCiEvent` made: artifact, user id and
  external-CI id. -/
  fanOutCalls : List (CiArtifact × Int × Int) := []
  /-- The calls of `ciArtifactRepository.Delete` made. -/
  deleteCalls : List CiArtifact := []
  deriving DecidableEq, Repr

/-- Lines 319-330 of `HandleExternalCiWebhook`: the artifact of an external
build. -/
def externalArtifact (deps : WebhookDeps) (externalCiId : Int)
    (request : CiArtifactWebhookRequest) (materialJson : String) : CiArtifact :=
  { Image := request.Image, ImageDigest := request.ImageDigest, MaterialInfo := materialJson,
    DataSource := request.DataSource, WorkflowId := request.WorkflowId,
    ExternalCiPipelineId := externalCiId, ScanEnabled := false, Scanned := false,
    IsArtifactUploaded := request.IsArtifactUploaded,
    Audit := { CreatedBy := request.UserId, UpdatedBy := request.UserId,
               CreatedOn := deps.now, UpdatedOn := deps.now } }

/-- Lines 336-347 of `HandleExternalCiWebhook`: run the fan-out on the stored
artifact; when it reports an error and nothing triggered, delete the artifact. -/
def fanOutOrRollback (deps : WebhookDeps) (db : Db) (externalCiId : Int)
    (request : CiArtifactWebhookRequest) (auth : String → String → String → Bool)
    (artifact : CiArtifact) : ExternalCiResult :=
  let fanOutCalls := [(artifact, request.UserId, externalCiId)]
  match deps.HandleWebhookExternalCiEvent artifact request.UserId externalCiId auth with
  | (hasAnyTriggered, some e) =>
    if !hasAnyTriggered then
      match CiArtifactRepository.Delete deps db artifact with
      | (some err1, db1) =>
        { id := 0, err := some err1, db := db1, fanOutCalls := fanOutCalls,
          deleteCalls := [artifact] }
      | (none, db1) =>
        { id := artifact.Id, err := some e, db := db1, fanOutCalls := fanOutCalls,
          deleteCalls := [artifact] }
    else { id := artifact.Id, err := some e, db := db, fanOutCalls := fanOutCalls }
  | (_, none) => { id := artifact.Id, err := none, db := db, fanOutCalls := fanOutCalls }

/-- The method `WebhookServiceImpl.HandleExternalCiWebhook`. -/
def HandleExternalCiWebhook (deps : WebhookDeps) (db : Db) (externalCiId : Int)
    (request : CiArtifactWebhookRequest) (auth : String → String → String → Bool) :
    ExternalCiResult :=
  let found := deps.FindExternalCiById externalCiId
  if found.2.isSome && found.2 != some GoError.ErrNoRows then
    { id := 0, err := found.2, db := db }
  else if found.1.Id = 0 then
    { id := 0, err := some (GoError.apiError "400" 400 "invalid external ci id"), db := db }
  else
    let request := if request.DataSource = "" then { request with DataSource := "EXTERNAL" }
      else request
    match deps.jsonCompact (MarshalJSON request.MaterialInfo) with
    | Except.error e => { id := 0, err := some e, db := db }
    | Except.ok materialJson =>
      match CiArtifactRepository.Save deps db
          (externalArtifact deps externalCiId request materialJson) with
      | (some e, db1, _) => { id := 0, err := some e, db := db1 }
      | (none, db1, artifact) => fanOutOrRollback deps db1 externalCiId request auth artifact

/-! ## Chart version store: data (`ChartService.go`) -/

/-- The row type `chartRepoRepository.Chart`. -/
structure Chart where
  Id : Int := 0
  AppId : Int := 0
  ChartRepoId : Int := 0
  ChartName : String := ""
  ChartRepo : String := ""
  ChartRepoUrl : String := ""
  Values : String := ""
  GlobalOverride : String := ""
  ReleaseOverride : String := ""
  PipelineOverride : String := ""
  Status : String := ""
  Active : Bool := false
  GitRepoUrl : String := ""
  ChartLocation : String := ""
  ReferenceTemplate : String := ""
  ImageDescriptorTemplate : String := ""
  ChartRefId : Int := 0
  Latest : Bool := false
  Previous : Bool := false
  ChartVersion : String := ""
  IsBasicViewLocked : Bool := false
  CurrentViewEditor : String := ""
  Audit : AuditLog := {}
  deriving DecidableEq, Repr

/-- The row type `chartRepoRepository.ChartRef` (a reference chart template). -/
structure ChartRef where
  Id : Int := 0
  Location : String := ""
  Version : String := ""
  Name : String := ""
  UserUploaded : Bool := false
  IsAppMetricsSupported : Bool := false
  DeploymentStrategyPath : String := ""
  ChartData : String := ""
  deriving DecidableEq, Repr

/-- The row type `chartRepoRepository.ChartRepo`. -/
structure ChartRepo where
  Id : Int := 0
  Name : String := ""
  Url : String := ""
  deriving DecidableEq, Repr

/-- The result type `util.ChartValues` of `FetchValuesFromReferenceChart`. -/
structure ChartValues where
  Values : String := ""
  ReleaseOverrides : String := ""
  PipelineOverrides : String := ""
  ImageDescriptorTemplate : String := ""
  deriving DecidableEq, Repr

/-- The request and response bean `TemplateRequest`, with the fields the
service reads and writes. -/
structure TemplateRequest where
  Id : Int := 0
  AppId : Int := 0
  RefChartTemplate : String := ""
  RefChartTemplateVersion : String := ""
  ChartRepositoryId : Int := 0
  ValuesOverride : String := ""
  DefaultAppOverride : String := ""
  ChartRefId : Int := 0
  Latest : Bool := false
  IsAppMetricsEnabled : Bool := false
  IsBasicViewLocked : Bool := false
  CurrentViewEditor : String := ""
  UserId : Int := 0
  deriving DecidableEq, Repr

/-- The row type `repository3.AppLevelMetrics`. -/
structure AppLevelMetrics where
  Id : Int := 0
  AppId : Int := 0
  AppMetrics : Bool := false
  InfraMetrics : Bool := false
  Audit : AuditLog := {}
  deriving DecidableEq, Repr

/-- The request `AppMetricEnableDisableRequest`. -/
structure AppMetricEnableDisableRequest where
  AppId : Int := 0
  EnvironmentId : Int := 0
  IsAppMetricsEnabled : Bool := false
  UserId : Int := 0
  deriving DecidableEq, Repr

/-- The row type `pipelineConfig.Pipeline` (a deployment pipeline), restricted
to the columns the history recorder reads. -/
structure Pipeline where
  Id : Int := 0
  AppId : Int := 0
  EnvironmentId : Int := 0
  deriving DecidableEq, Repr

/-- The row type `repository.DeploymentTemplateHistory`. -/
structure DeploymentTemplateHistory where
  Id : Int := 0
  PipelineId : Int := 0
  AppId : Int := 0
  ImageDescriptorTemplate : String := ""
  Template : String := ""
  TargetEnvironment : Int := 0
  TemplateName : String := ""
  TemplateVersion : String := ""
  IsAppMetricsEnabled : Bool := false
  Deployed : Bool := false
  DeployedOn : Time := 0
  DeployedBy : Int := 0
  Audit : AuditLog := {}
  deriving DecidableEq, Repr

/-- Modelled from the spec: the row type `chartConfig.EnvConfigOverride`, the
environment-level override of a chart, with the chart it belongs to (the type
is outside the sources at hand). -/
structure EnvConfigOverride where
  Id : Int := 0
  ChartId : Int := 0
  TargetEnvironment : Int := 0
  EnvOverrideValues : String := ""
  IsOverride : Bool := false
  Chart : Chart := {}
  Audit : AuditLog := {}
  Status : String := ""
  ManualReviewed : Bool := false
  Active : Bool := false
  Namespace : String := ""
  Latest : Bool := false
  Previous : Bool := false
  IsBasicViewLocked : Bool := false
  CurrentViewEditor : String := ""
  deriving DecidableEq, Repr

/-- Modelled from the spec: the row type `repository2.EnvLevelAppMetrics`; the
column `AppMetrics` is read through a pointer. -/
structure EnvLevelAppMetrics where
  Id : Int := 0
  AppId : Int := 0
  EnvId : Int := 0
  AppMetrics : Option Bool := some false
  deriving DecidableEq, Repr

/-- Modelled from the spec: the row type `pipelineConfig.CdWorkflowRunner`, a
workflow-run record, with the columns the history service reads (the type is
outside the sources at hand). -/
structure CdWorkflowRunner where
  Id : Int := 0
  Status : String := ""
  StartedOn : Time := 0
  WorkflowType : String := ""
  deriving DecidableEq, Repr

/-- The bean `DeploymentTemplateHistoryDto`, with the fields that
`GetDeploymentDetailsForDeployedTemplateHistory` sets. -/
structure DeploymentTemplateHistoryDto where
  Id : Int := 0
  AppId : Int := 0
  PipelineId : Int := 0
  Deployed : Bool := false
  DeployedOn : Time := 0
  DeployedBy : Int := 0
  EmailId : String := ""
  DeploymentStatus : String := ""
  WfrId : Int := 0
  WorkflowType : String := ""
  deriving DecidableEq, Repr

/-- The tables the chart service and the history recorder write. -/
structure ChartDb where
  charts : List Chart := []
  history : List DeploymentTemplateHistory := []
  appLevelMetrics : List AppLevelMetrics := []
  envOverrides : List EnvConfigOverride := []
  envLevelAppMetrics : List EnvLevelAppMetrics := []
  deriving DecidableEq, Repr

/-- The collaborators of `ChartServiceImpl` and of
`DeploymentTemplateHistoryServiceImpl`: repositories other than the chart
table, the file system, library routines, and storage faults of the writes. -/
structure ChartDeps where
  /-- The method `chartRefRepository.FindById`. -/
  chartRefFindById : Int → Except GoError ChartRef :=
    fun id => Except.ok { Id := id, Location := "reference-chart", Version := "1.2.0" }
  /-- The method `chartRefRepository.GetDefault`. -/
  chartRefGetDefault : Except GoError ChartRef :=
    Except.ok { Id := 1, Location := "reference-chart", Version := "1.2.0" }
  /-- The directory `impl.refChartDir`. -/
  refChartDir : String := "charts"
  /-- Whether `os.Stat` reports that the path does not exist. -/
  statNotExist : String → Bool := fun _ => false
  /-- Outcome of `ExtractChartIfMissing` for a reference chart. -/
  extractChartIfMissing : ChartRef → error := fun _ => none
  /-- The routine `chartutil.IsChartDir`. -/
  isChartDir : String → Bool × error := fun _ => (true, none)
  /-- The method `pipelineGroupRepository.FindById`: the application's name. -/
  appFindById : Int → String × error := fun _ => ("app", none)
  /-- The method `repoRepository.GetDefault`. -/
  chartRepoGetDefault : Except GoError ChartRepo := Except.ok { Id := 1, Name := "repo" }
  /-- The method `repoRepository.FindById`. -/
  chartRepoFindById : Int → Except GoError ChartRepo := fun id => Except.ok { Id := id, Name := "repo" }
  /-- The method `chartTemplateService.GetChartVersion`: the version written in
  the reference chart at the given location. -/
  GetChartVersion : String → Except GoError String := fun _ => Except.ok "1.2.0"
  /-- The method `chartTemplateService.FetchValuesFromReferenceChart`. -/
  FetchValuesFromReferenceChart : String → String → String → Except GoError ChartValues :=
    fun _ _ _ => Except.ok {}
  /-- The routine `yaml.YAMLToJSON`. -/
  YAMLToJSON : String → Except GoError String := fun s => Except.ok s
  /-- The method `mergeUtil.JsonPatch`. -/
  JsonPatch : String → String → Except GoError String := fun _ p => Except.ok p
  /-- The library routine `json.Compact`. -/
  jsonCompact : String → Except GoError String := fun s => Except.ok s
  /-- Storage fault of `chartRepository.Update` on the given row. -/
  chartUpdateErr : Chart → error := fun _ => none
  /-- Storage fault of `chartRepository.Save` on the given row. -/
  chartSaveErr : Chart → error := fun _ => none
  /-- The method `pipelineRepository.FindAllPipelinesByChartsOverrideAndAppIdAndChartId`
  with first argument `false`: the pipelines of the application that do not
  override the chart. -/
  pipelinesNotOverriding : Int → Int → List Pipeline × error := fun _ _ => ([], none)
  /-- Storage fault of `deploymentTemplateHistoryRepository.CreateHistory`. -/
  createHistoryErr : DeploymentTemplateHistory → error := fun _ => none
  /-- The method `variableTemplateParser.ExtractVariables`. -/
  ExtractVariables : String → Except GoError (List String) := fun _ => Except.ok []
  /-- The method `variableEntityMappingService.UpdateVariablesForEntity`. -/
  UpdateVariablesForEntity : List String → Int → Int → error := fun _ _ _ => none
  /-- Storage fault of `appLevelMetricsRepository.Update`. -/
  appLevelMetricsUpdateErr : AppLevelMetrics → error := fun _ => none
  /-- Storage fault of `appLevelMetricsRepository.Save`. -/
  appLevelMetricsSaveErr : AppLevelMetrics → error := fun _ => none
  /-- The reading of `time.Now()`. -/
  now : Nat := 0
  /-- The method `pipelineRepository.GetByEnvOverrideIdAndEnvId`: the pipeline
  bound to an environment override and an environment, or a zero record with
  `ErrNoRows`, or a storage fault. -/
  GetByEnvOverrideIdAndEnvId : Int → Int → Pipeline × error :=
    fun _ _ => ({}, some GoError.ErrNoRows)
  /-- The method `deploymentTemplateHistoryRepository.GetDeploymentDetailsForDeployedTemplateHistory`:
  the history entries fetched for a pipeline, an offset and a limit. -/
  fetchDeployedHistories : Int → Int → Int → List DeploymentTemplateHistory × error :=
    fun _ _ _ => ([], none)
  /-- The method `cdWorkflowRepository.FindCdWorkflowMetaByPipelineId`: the
  workflow-run records fetched for a pipeline, an offset and a limit. -/
  FindCdWorkflowMetaByPipelineId : Int → Int → Int → List CdWorkflowRunner × error :=
    fun _ _ _ => ([], none)
  /-- The method `userService.GetById`: the e-mail id of a user. -/
  userGetById : Int → Except GoError String := fun _ => Except.ok "user@example.com"
  /-- The method `environmentRepository.FindById`: the namespace of an
  environment. -/
  environmentFindById : Int → Except GoError String := fun _ => Except.ok "default"
  /-- Storage fault of `envOverrideRepository.Save` on the given row. -/
  envOverrideSaveErr : EnvConfigOverride → error := fun _ => none
  /-- Storage fault of `envOverrideRepository.GetEnvConfigByChartId`. -/
  envOverrideFindErr : Int → error := fun _ => none
  /-- Storage fault of `envLevelAppMetricsRepository.FindByAppIdAndEnvId`. -/
  envLevelAppMetricsFindErr : Int → Int → error := fun _ _ => none
  /-- Storage fault of `appLevelMetricsRepository.FindByAppId`. -/
  appLevelMetricsFindErr : Int → error := fun _ => none

/-! ## Go library routines on strings -/

/-- The components of a string of characters between dots. -/
def splitOnDot : List Char → List (List Char)
  | [] => [[]]
  | c :: cs =>
    if c = '.' then [] :: splitOnDot cs
    else
      match splitOnDot cs with
      | [] => [[c]]
      | h :: t => (c :: h) :: t

/-- The call `strings.Split(s, ".")`. -/
def Split (s : String) : List String :=
  (splitOnDot s.data).map String.mk

/-- The value of a string of decimal digits; `none` when the string is empty or
holds another character. -/
def parseDigits : List Char → Option Nat
  | [] => none
  | cs => cs.foldl (fun acc c =>
      match acc with
      | none => none
      | some n => if c.isDigit then some (10 * n + (c.toNat - '0'.toNat)) else none) (some 0)

/-- The call `strconv.ParseInt(s, 10, 32)`: an optional sign followed by decimal
digits; a syntax error otherwise, a range error outside `[-2^31, 2^31 - 1]`. -/
def ParseInt32 (s : String) : Except GoError Int :=
  match s.data with
  | [] => Except.error (GoError.other "strconv.ParseInt: invalid syntax")
  | c :: cs =>
    let neg := c = '-'
    let digits := if c = '+' ∨ c = '-' then cs else c :: cs
    match parseDigits digits with
    | none => Except.error (GoError.other "strconv.ParseInt: invalid syntax")
    | some un =>
      if ¬ neg ∧ un ≥ 2 ^ 31 then
        Except.error (GoError.other "strconv.ParseInt: value out of range")
      else if neg ∧ un > 2 ^ 31 then
        Except.error (GoError.other "strconv.ParseInt: value out of range")
      else Except.ok (if neg then - (un : Int) else (un : Int))

/-- The call `strconv.FormatInt(i, 10)`. -/
def FormatInt (i : Int) : String :=
  toString i

/-- The call `filepath.Join(a, b)` on two clean path elements. -/
def filepathJoin (a b : String) : String :=
  if a = "" then b else if b = "" then a else a ++ "/" ++ b

/-- The value of a character of the standard base64 alphabet. -/
def base64Index (c : Char) : Option Nat :=
  let n := c.toNat
  if 65 ≤ n ∧ n ≤ 90 then some (n - 65)
  else if 97 ≤ n ∧ n ≤ 122 then some (n - 97 + 26)
  else if 48 ≤ n ∧ n ≤ 57 then some (n - 48 + 52)
  else if c = '+' then some 62
  else if c = '/' then some 63
  else none

/-- The bytes encoded by groups of four base64 characters; only the last group
may be padded with `=`. -/
def decodeQuads : List Char → Option (List Nat)
  | [] => some []
  | a :: b :: c :: d :: rest =>
    match rest with
    | [] =>
      match base64Index a, base64Index b with
      | some x, some y =>
        if c = '=' ∧ d = '=' then some [(x * 4 + y / 16) % 256]
        else
          match base64Index c with
          | none => none
          | some z =>
            if d = '=' then some [(x * 4 + y / 16) % 256, (y * 16 + z / 4) % 256]
            else
              match base64Index d with
              | none => none
              | some w =>
                some [(x * 4 + y / 16) % 256, (y * 16 + z / 4) % 256, (z * 64 + w) % 256]
      | _, _ => none
    | _ =>
      match base64Index a, base64Index b, base64Index c, base64Index d, decodeQuads rest with
      | some x, some y, some z, some w, some bytes =>
        some ((x * 4 + y / 16) % 256 :: (y * 16 + z / 4) % 256 :: (z * 64 + w) % 256 :: bytes)
      | _, _, _, _, _ => none
  | _ => none

/-- The call `base64.StdEncoding.DecodeString(s)` followed by the conversion of
the bytes to a string (bytes below 128 are the characters they encode); line
breaks in the input are skipped. -/
def DecodeString (s : String) : Except GoError String :=
  match decodeQuads (s.data.filter (fun c => c.toNat != 10 && c.toNat != 13)) with
  | some bytes => Except.ok (String.mk (bytes.map Char.ofNat))
  | none => Except.error (GoError.other "illegal base64 data")

/-- The call `strconv.Atoi(s)`: an optional sign followed by decimal digits; a
syntax error otherwise, a range error outside `[-2^63, 2^63 - 1]`. -/
def Atoi (s : String) : Except GoError Int :=
  match s.data with
  | [] => Except.error (GoError.other "strconv.Atoi: invalid syntax")
  | c :: cs =>
    let neg := c = '-'
    let digits := if c = '+' ∨ c = '-' then cs else c :: cs
    match parseDigits digits with
    | none => Except.error (GoError.other "strconv.Atoi: invalid syntax")
    | some un =>
      if ¬ neg ∧ un ≥ 2 ^ 63 then
        Except.error (GoError.other "strconv.Atoi: value out of range")
      else if neg ∧ un > 2 ^ 63 then
        Except.error (GoError.other "strconv.Atoi: value out of range")
      else Except.ok (if neg then - (un : Int) else (un : Int))

/-- The method `WebhookServiceImpl.AuthenticateExternalCiWebhook`. -/
def AuthenticateExternalCiWebhook (deps : WebhookDeps) (apiKey : String) : Int × error :=
  match Split apiKey with
  | [encodedCiPipelineId, sha] =>
    match DecodeString encodedCiPipelineId with
    | Except.error _ => (0, some (GoError.other "invalid ci pipeline"))
    | Except.ok ciPipelineId =>
      match Atoi ciPipelineId with
      | Except.error _ => (0, some (GoError.other "invalid ci pipeline"))
      | Except.ok id =>
        let externalCiPipeline := (deps.FindExternalCiByCiPipelineId id).1
        if externalCiPipeline.AccessToken ≠ sha then
          (0, some (GoError.other "invalid key, auth failed"))
        else (id, none)
  | _ => (0, some (GoError.other "invalid key"))

/-- The method `ChartServiceImpl.FlaggerCanaryEnabled`; `Unmarshal` is the
library call `json.Unmarshal` into a `map[string]json.RawMessage`, giving the
members of the object with their raw values, latest first. -/
def FlaggerCanaryEnabled (Unmarshal : String → Except GoError (List (String × String)))
    (values : String) : Bool × error :=
  match Unmarshal values with
  | Except.error e => (false, some e)
  | Except.ok jsonMap =>
    match jsonMap.find? (fun p => p.1 == "flaggerCanary") with
    | none => (false, none)
    | some flaggerCanary =>
      match Unmarshal flaggerCanary.2 with
      | Except.error e => (false, some e)
      | Except.ok flaggerCanaryUnmarshalled =>
        match flaggerCanaryUnmarshalled.find? (fun p => p.1 == "enabled") with
        | none =>
          (true, some (GoError.other
            "flagger canary enabled field must be set and be equal to false"))
        | some enabled => (enabled.2 == "true", none)

/-! ## Chart repository -/

/-- Modelled from the spec: the primary key the chart table assigns to a row
inserted with `Id = 0` (the repository `chartRepoRepository.ChartRepository`
is outside the sources at hand). -/
def nextChartId (rows : List Chart) : Int :=
  (rows.map (fun r => r.Id)).foldl max 0 + 1

/-- Modelled from the spec: `chartRepository.FindById`, the row with the given
key, or `ErrNoRows` with a zero row. -/
def ChartRepository.FindById (charts : List Chart) (id : Int) : Chart × error :=
  match charts.find? (fun c => c.Id == id) with
  | some c => (c, none)
  | none => ({}, some GoError.ErrNoRows)

/-- Modelled from the spec: `chartRepository.FindLatestChartForAppByAppId`, the
row of the application with `Latest = true`, or `ErrNoRows` with a zero row. -/
def ChartRepository.FindLatestChartForAppByAppId (charts : List Chart) (appId : Int) :
    Chart × error :=
  match charts.find? (fun c => c.AppId == appId && c.Latest) with
  | some c => (c, none)
  | none => ({}, some GoError.ErrNoRows)

/-- Modelled from the spec: `chartRepository.FindNoLatestChartForAppByAppId`,
the rows of the application with `Latest = false`. -/
def ChartRepository.FindNoLatestChartForAppByAppId (charts : List Chart) (appId : Int) :
    List Chart :=
  charts.filter (fun c => c.AppId == appId && !c.Latest)

/-- Modelled from the spec: `chartRepository.FindChartByAppIdAndRefId`, the
chart of the application bound to the reference template, or `ErrNoRows`
with a zero row. -/
def ChartRepository.FindChartByAppIdAndRefId (charts : List Chart) (appId chartRefId : Int) :
    Chart × error :=
  match charts.find? (fun c => c.AppId == appId && c.ChartRefId == chartRefId) with
  | some c => (c, none)
  | none => ({}, some GoError.ErrNoRows)

/-- The `major.minor` part of a version string. -/
def majorMinor (version : String) : String :=
  match Split version with
  | a :: b :: _ => a ++ "." ++ b
  | _ => version

/-- Modelled from the spec: `chartRepository.FindCurrentChartVersion`, the
version of the most recently created chart of the bucket
(repo, chart-name, major.minor), or `ErrNoRows`. -/
def ChartRepository.FindCurrentChartVersion (charts : List Chart)
    (chartRepo chartName chartVersionPattern : String) : String × error :=
  match (charts.filter (fun c => c.ChartName == chartName && c.ChartRepo == chartRepo &&
      majorMinor c.ChartVersion == chartVersionPattern)).getLast? with
  | some c => (c.ChartVersion, none)
  | none => ("", some GoError.ErrNoRows)

/-- Modelled from the spec: `chartRepository.Update`, which writes all columns of
the row with the chart's primary key. -/
def ChartRepository.Update (deps : ChartDeps) (charts : List Chart) (chart : Chart) :
    error × List Chart :=
  match deps.chartUpdateErr chart with
  | some e => (some e, charts)
  | none => (none, charts.map (fun r => if r.Id = chart.Id then chart else r))

/-- Modelled from the spec: `chartRepository.Save`, which inserts the row, the
key being assigned by the database when it is zero. -/
def ChartRepository.Save (deps : ChartDeps) (charts : List Chart) (chart : Chart) :
    error × List Chart × Chart :=
  match deps.chartSaveErr chart with
  | some e => (some e, charts, chart)
  | none =>
    let saved := if chart.Id = 0 then { chart with Id := nextChartId charts } else chart
    (none, charts ++ [saved], saved)

/-! ## Deployment-template history and app metrics -/

/-- Modelled from the spec: `deploymentTemplateHistoryRepository.CreateHistory`,
an append to the history table with the key assigned by the database. -/
def CreateHistory (deps : ChartDeps) (history : List DeploymentTemplateHistory)
    (model : DeploymentTemplateHistory) : error × List DeploymentTemplateHistory :=
  match deps.createHistoryErr model with
  | some e => (some e, history)
  | none =>
    (none, history ++ [{ model with Id := (history.map (fun h => h.Id)).foldl max 0 + 1 }])

/-- The loop at lines 110-137 of `CreateDeploymentTemplateHistoryFromGlobalTemplate`:
one entry per pipeline, stopping at the first failed insert. -/
def createPipelineHistories (deps : ChartDeps) (chart : Chart) (chartRef : ChartRef)
    (IsAppMetricsEnabled : Bool) :
    List Pipeline → List DeploymentTemplateHistory → error × List DeploymentTemplateHistory
  | [], history => (none, history)
  | pipeline :: rest, history =>
    let historyModel : DeploymentTemplateHistory :=
      { AppId := chart.AppId, PipelineId := pipeline.Id,
        ImageDescriptorTemplate := chart.ImageDescriptorTemplate,
        Template := chart.GlobalOverride, Deployed := false,
        TemplateName := chartRef.Name, TemplateVersion := chartRef.Version,
        IsAppMetricsEnabled := IsAppMetricsEnabled, Audit := chart.Audit }
    match CreateHistory deps history historyModel with
    | (some e, history1) => (some e, history1)
    | (none, history1) =>
      createPipelineHistories deps chart chartRef IsAppMetricsEnabled rest history1

/-- The method `CreateDeploymentTemplateHistoryFromGlobalTemplate`, called
without a transaction (`tx == nil`). -/
def CreateDeploymentTemplateHistoryFromGlobalTemplate (deps : ChartDeps)
    (history : List DeploymentTemplateHistory) (chart : Chart) (IsAppMetricsEnabled : Bool) :
    error × List DeploymentTemplateHistory :=
  let found := deps.pipelinesNotOverriding chart.AppId chart.Id
  if found.2.isSome && found.2 != some GoError.ErrNoRows then (found.2, history)
  else
    match deps.chartRefFindById chart.ChartRefId with
    | Except.error e => (some e, history)
    | Except.ok chartRef0 =>
      let chartRef := if chartRef0.Name.length = 0 then
        { chartRef0 with Name := "Rollout Deployment" } else chartRef0
      let historyModel : DeploymentTemplateHistory :=
        { AppId := chart.AppId, ImageDescriptorTemplate := chart.ImageDescriptorTemplate,
          Template := chart.GlobalOverride, Deployed := false,
          TemplateName := chartRef.Name, TemplateVersion := chartRef.Version,
          IsAppMetricsEnabled := IsAppMetricsEnabled, Audit := chart.Audit }
      match CreateHistory deps history historyModel with
      | (some e, history1) => (some e, history1)
      | (none, history1) =>
        createPipelineHistories deps chart chartRef IsAppMetricsEnabled found.1 history1

/-- The method `CreateDeploymentTemplateHistoryFromEnvOverrideTemplate`; `tx`
tells whether the caller passed a transaction, in which case the entry is
written through `CreateHistoryWithTxn`, the same insert issued on the
transaction. -/
def CreateDeploymentTemplateHistoryFromEnvOverrideTemplate (deps : ChartDeps)
    (charts : List Chart) (history : List DeploymentTemplateHistory)
    (envOverride : EnvConfigOverride) (tx : Bool) (IsAppMetricsEnabled : Bool)
    (pipelineId : Int) : error × List DeploymentTemplateHistory :=
  match ChartRepository.FindById charts envOverride.ChartId with
  | (_, some e) => (some e, history)
  | (chart, none) =>
    match deps.chartRefFindById chart.ChartRefId with
    | Except.error e => (some e, history)
    | Except.ok chartRef0 =>
      let chartRef := if chartRef0.Name.length = 0 then
        { chartRef0 with Name := "Rollout Deployment" } else chartRef0
      let resolved : Except GoError Int :=
        if pipelineId = 0 then
          let found := deps.GetByEnvOverrideIdAndEnvId envOverride.Id envOverride.TargetEnvironment
          if found.2.isSome && found.2 != some GoError.ErrNoRows then
            Except.error (found.2.getD GoError.ErrNoRows)
          else Except.ok found.1.Id
        else Except.ok pipelineId
      match resolved with
      | Except.error e => (some e, history)
      | Except.ok pipelineId =>
        let historyModel : DeploymentTemplateHistory :=
          { AppId := chart.AppId, PipelineId := pipelineId,
            ImageDescriptorTemplate := chart.ImageDescriptorTemplate,
            TargetEnvironment := envOverride.TargetEnvironment, Deployed := false,
            TemplateName := chartRef.Name, TemplateVersion := chartRef.Version,
            IsAppMetricsEnabled := IsAppMetricsEnabled, Audit := envOverride.Audit }
        let historyModel :=
          if envOverride.IsOverride then
            { historyModel with Template := envOverride.EnvOverrideValues }
          else { historyModel with Template := chart.GlobalOverride }
        if tx then CreateHistory deps history historyModel
        else CreateHistory deps history historyModel

/-- Modelled from the spec: `envLevelAppMetricsRepository.FindByAppIdAndEnvId`,
the row of the application and environment, or `ErrNoRows` with a zero row,
or a storage fault. -/
def EnvLevelAppMetricsRepository.FindByAppIdAndEnvId (deps : ChartDeps)
    (rows : List EnvLevelAppMetrics) (appId envId : Int) : EnvLevelAppMetrics × error :=
  match deps.envLevelAppMetricsFindErr appId envId with
  | some e => ({}, some e)
  | none =>
    match rows.find? (fun m => m.AppId == appId && m.EnvId == envId) with
    | some m => (m, none)
    | none => ({}, some GoError.ErrNoRows)

/-- Modelled from the spec: `appLevelMetricsRepository.FindByAppId`, the row of
the application, or `ErrNoRows` with a zero row, or a storage fault. -/
def AppLevelMetricsRepository.FindByAppId (deps : ChartDeps) (rows : List AppLevelMetrics)
    (appId : Int) : AppLevelMetrics × error :=
  match deps.appLevelMetricsFindErr appId with
  | some e => ({}, some e)
  | none =>
    match rows.find? (fun m => m.AppId == appId) with
    | some m => (m, none)
    | none => ({}, some GoError.ErrNoRows)

/-- Lines 207-222 of `CreateDeploymentTemplateHistoryForDeploymentTrigger`: the
app-metrics flag in force for the pipeline, or the error returned. -/
def resolveAppMetrics (deps : ChartDeps) (envLevel : List EnvLevelAppMetrics)
    (appLevel : List AppLevelMetrics) (pipeline : Pipeline) : Except GoError Bool :=
  let isAppMetricsEnabled := false
  match EnvLevelAppMetricsRepository.FindByAppIdAndEnvId deps envLevel pipeline.AppId
      pipeline.EnvironmentId with
  | (envLevelAppMetrics, none) =>
    match envLevelAppMetrics.AppMetrics with
    | some v => Except.ok v
    | none => Except.error (GoError.panic "invalid memory address or nil pointer dereference")
  | (_, some err) =>
    if err ≠ GoError.ErrNoRows then Except.error err
    else
      match AppLevelMetricsRepository.FindByAppId deps appLevel pipeline.AppId with
      | (appLevelAppMetrics, none) => Except.ok appLevelAppMetrics.AppMetrics
      | (_, some err) =>
        if err ≠ GoError.ErrNoRows then Except.error err else Except.ok isAppMetricsEnabled

/-- The method `CreateDeploymentTemplateHistoryForDeploymentTrigger`. -/
def CreateDeploymentTemplateHistoryForDeploymentTrigger (deps : ChartDeps)
    (history : List DeploymentTemplateHistory) (envLevel : List EnvLevelAppMetrics)
    (appLevel : List AppLevelMetrics) (pipeline : Pipeline) (envOverride : EnvConfigOverride)
    (renderedImageTemplate : String) (deployedOn : Time) (deployedBy : Int) :
    Option DeploymentTemplateHistory × error × List DeploymentTemplateHistory :=
  match deps.chartRefFindById envOverride.Chart.ChartRefId with
  | Except.error e => (none, some e, history)
  | Except.ok chartRef0 =>
    let chartRef := if chartRef0.Name.length = 0 then
      { chartRef0 with Name := "Rollout Deployment" } else chartRef0
    match resolveAppMetrics deps envLevel appLevel pipeline with
    | Except.error e => (none, some e, history)
    | Except.ok isAppMetricsEnabled =>
      let historyModel : DeploymentTemplateHistory :=
        { AppId := pipeline.AppId, PipelineId := pipeline.Id,
          TargetEnvironment := pipeline.EnvironmentId,
          ImageDescriptorTemplate := renderedImageTemplate, Deployed := true,
          DeployedBy := deployedBy, DeployedOn := deployedOn,
          TemplateName := chartRef.Name, TemplateVersion := chartRef.Version,
          IsAppMetricsEnabled := isAppMetricsEnabled,
          Audit := { CreatedOn := deployedOn.instant, CreatedBy := deployedBy,
                     UpdatedOn := deployedOn.instant, UpdatedBy := deployedBy } }
      let historyModel :=
        if envOverride.IsOverride then
          { historyModel with Template := envOverride.EnvOverrideValues }
        else { historyModel with Template := envOverride.Chart.GlobalOverride }
      match CreateHistory deps history historyModel with
      | (some e, history1) => (none, some e, history1)
      | (none, history1) => (history1.getLast?, none, history1)

/-- The loop at lines 267-269 of `GetDeploymentDetailsForDeployedTemplateHistory`:
`deploymentTimeStatusMap[wfr.StartedOn] = index`; the `map[time.Time]int` is the
list of its assignments, latest first, and its keys are compared as Go compares
`time.Time` values with `==`. -/
def indexByStartedOn : List CdWorkflowRunner → Nat → List (Time × Nat) → List (Time × Nat)
  | [], _, m => m
  | wfr :: rest, index, m => indexByStartedOn rest (index + 1) ((wfr.StartedOn, index) :: m)

/-- A lookup in the map built by `indexByStartedOn`: the latest assignment to
the key. -/
def lookupStartedOn (m : List (Time × Nat)) (key : Time) : Option Nat :=
  (m.find? (fun p => p.1 == key)).map (fun p => p.2)

/-- The loop at lines 271-291 of `GetDeploymentDetailsForDeployedTemplateHistory`:
one item per history entry whose `DeployedOn` is a key of the map; a failed
user lookup ends the call. -/
def historiesToDto (deps : ChartDeps) (wfrList : List CdWorkflowRunner)
    (deploymentTimeStatusMap : List (Time × Nat)) :
    List DeploymentTemplateHistory → Except GoError (List DeploymentTemplateHistoryDto)
  | [] => Except.ok []
  | history :: rest =>
    match lookupStartedOn deploymentTimeStatusMap history.DeployedOn with
    | some wfrIndex =>
      match deps.userGetById history.DeployedBy with
      | Except.error e => Except.error e
      | Except.ok emailId =>
        match wfrList[wfrIndex]? with
        | none => Except.error (GoError.panic "index out of range")
        | some wfr =>
          let historyDto : DeploymentTemplateHistoryDto :=
            { Id := history.Id, AppId := history.AppId, PipelineId := history.PipelineId,
              Deployed := history.Deployed, DeployedOn := history.DeployedOn,
              DeployedBy := history.DeployedBy, EmailId := emailId,
              DeploymentStatus := wfr.Status, WfrId := wfr.Id,
              WorkflowType := wfr.WorkflowType }
          match historiesToDto deps wfrList deploymentTimeStatusMap rest with
          | Except.error e => Except.error e
          | Except.ok historiesDto => Except.ok (historyDto :: historiesDto)
    | none => historiesToDto deps wfrList deploymentTimeStatusMap rest

/-- The method `GetDeploymentDetailsForDeployedTemplateHistory`. -/
def GetDeploymentDetailsForDeployedTemplateHistory (deps : ChartDeps)
    (pipelineId offset limit : Int) : Except GoError (List DeploymentTemplateHistoryDto) :=
  match deps.fetchDeployedHistories pipelineId offset limit with
  | (_, some e) => Except.error e
  | (histories, none) =>
    let fetched := deps.FindCdWorkflowMetaByPipelineId pipelineId offset limit
    if fetched.2.isSome && fetched.2 != some GoError.ErrNoRows then
      Except.error (fetched.2.getD GoError.ErrNoRows)
    else
      let wfrList := fetched.1
      let deploymentTimeStatusMap := indexByStartedOn wfrList 0 []
      historiesToDto deps wfrList deploymentTimeStatusMap histories

/-- The method `ChartServiceImpl.extractAndMapVariables`. -/
def extractAndMapVariables (deps : ChartDeps) (template : String) (entityId userId : Int) :
    error :=
  match deps.ExtractVariables template with
  | Except.error e => some e
  | Except.ok usedVariables => deps.UpdateVariablesForEntity usedVariables entityId userId

/-- The method `ChartServiceImpl.CheckIsAppMetricsSupported`. -/
def CheckIsAppMetricsSupported (deps : ChartDeps) (chartRefId : Int) : Bool × error :=
  match deps.chartRefFindById chartRefId with
  | Except.error _ => (false, none)
  | Except.ok chartRefValue => (chartRefValue.IsAppMetricsSupported, none)

/-- The method `ChartServiceImpl.updateAppLevelMetrics`. -/
def updateAppLevelMetrics (deps : ChartDeps) (rows : List AppLevelMetrics)
    (appMetricRequest : AppMetricEnableDisableRequest) :
    Option AppLevelMetrics × error × List AppLevelMetrics :=
  match AppLevelMetricsRepository.FindByAppId deps rows appMetricRequest.AppId with
  | (found, err) =>
    if err.isSome && !IsErrNoRows err then (none, err, rows)
    else if found.Id ≠ 0 then
      let existingAppLevelMetrics :=
        { found with AppMetrics := appMetricRequest.IsAppMetricsEnabled }
      match deps.appLevelMetricsUpdateErr existingAppLevelMetrics with
      | some e => (none, some e, rows)
      | none =>
        (some existingAppLevelMetrics, none,
          rows.map (fun m =>
            if m.Id = existingAppLevelMetrics.Id then existingAppLevelMetrics else m))
    else
      let appLevelMetricsNew : AppLevelMetrics :=
        { AppId := appMetricRequest.AppId, AppMetrics := appMetricRequest.IsAppMetricsEnabled,
          InfraMetrics := true,
          Audit := { CreatedOn := deps.now, UpdatedOn := deps.now,
                     CreatedBy := appMetricRequest.UserId, UpdatedBy := appMetricRequest.UserId } }
      match deps.appLevelMetricsSaveErr appLevelMetricsNew with
      | some e => (some appLevelMetricsNew, some e, rows)
      | none =>
        let saved := { appLevelMetricsNew with Id := (rows.map (fun m => m.Id)).foldl max 0 + 1 }
        (some saved, none, rows ++ [saved])

/-! ## Chart service (`ChartService.go`) -/

/-- The method `ChartServiceImpl.CheckChartExists`. -/
def CheckChartExists (deps : ChartDeps) (chartRefId : Int) : error :=
  match deps.chartRefFindById chartRefId with
  | Except.error e => some e
  | Except.ok chartRefValue =>
    if deps.statNotExist (filepathJoin deps.refChartDir chartRefValue.Location) then
      deps.extractChartIfMissing chartRefValue
    else none

/-- The method `ChartServiceImpl.getChartMetaData`: the chart name is the
application's name. -/
def getChartMetaData (deps : ChartDeps) (templateRequest : TemplateRequest) : String × error :=
  deps.appFindById templateRequest.AppId

/-- The method `ChartServiceImpl.getChartRepo`. -/
def getChartRepo (deps : ChartDeps) (templateRequest : TemplateRequest) :
    Except GoError ChartRepo :=
  if templateRequest.ChartRepositoryId = 0 then deps.chartRepoGetDefault
  else deps.chartRepoFindById templateRequest.ChartRepositoryId

/-- The method `ChartServiceImpl.getRefChart`; the results are, in order, the
chart's path, the template, the error, the version and the strategy path. -/
def getRefChart (deps : ChartDeps) (templateRequest : TemplateRequest) :
    String × String × error × String × String :=
  let resolved : Except GoError ChartRef :=
    if templateRequest.ChartRefId > 0 then
      match deps.chartRefFindById templateRequest.ChartRefId with
      | Except.error _ => deps.chartRefGetDefault
      | Except.ok chartRef =>
        if chartRef.UserUploaded &&
            deps.statNotExist (filepathJoin deps.refChartDir chartRef.Location) then
          match deps.extractChartIfMissing chartRef with
          | some e => Except.error e
          | none => Except.ok chartRef
        else Except.ok chartRef
    else deps.chartRefGetDefault
  match resolved with
  | Except.error e => ("", "", some e, "", "")
  | Except.ok chartRef =>
    let chartPath := filepathJoin deps.refChartDir chartRef.Location
    let checked := deps.isChartDir chartPath
    if checked.2.isSome || !checked.1 then ("", "", checked.2, "", "")
    else (chartPath, chartRef.Location, none, chartRef.Version, chartRef.DeploymentStrategyPath)

/-- The method `ChartServiceImpl.getParentChartVersion`; it indexes the first
two components of the version. -/
def getParentChartVersion (childVersion : String) : Except GoError String :=
  match Split childVersion with
  | p0 :: p1 :: _ => Except.ok (p0 ++ "." ++ p1 ++ ".0")
  | _ => Except.error (GoError.panic "index out of range [1]")

/-- The method `ChartServiceImpl.getNewVersion`. -/
def getNewVersion (deps : ChartDeps) (charts : List Chart)
    (chartRepo chartName refChartLocation : String) : String × error :=
  match deps.GetChartVersion refChartLocation with
  | Except.error e => ("", some e)
  | Except.ok parentVersion =>
    match Split parentVersion with
    | [p0, p1, _] =>
      match ChartRepository.FindCurrentChartVersion charts chartRepo chartName (p0 ++ "." ++ p1) with
      | (_, some _) => (p0 ++ "." ++ p1 ++ ".1", none)
      | (currentVersion, none) =>
        match (Split currentVersion)[2]? with
        | none => ("", some (GoError.panic "index out of range [2]"))
        | some patch =>
          match ParseInt32 patch with
          | Except.error e => ("", some e)
          | Except.ok count => (p0 ++ "." ++ p1 ++ "." ++ FormatInt (count + 1), none)
    | _ => ("", some (GoError.other ("invalid parent chart version " ++ parentVersion)))

/-- The method `ChartServiceImpl.chartAdaptor` ("converts db object to bean"). -/
def chartAdaptor (chart : Chart) (appLevelMetrics : Option AppLevelMetrics) :
    TemplateRequest × error :=
  if chart.Id = 0 then ({}, some (GoError.apiError "" 0 "no chart found"))
  else
    let appMetrics := match appLevelMetrics with
      | some m => m.AppMetrics
      | none => false
    match getParentChartVersion chart.ChartVersion with
    | Except.error e => ({}, some e)
    | Except.ok parentVersion =>
      ({ RefChartTemplate := chart.ReferenceTemplate, Id := chart.Id, AppId := chart.AppId,
         ChartRepositoryId := chart.ChartRepoId, DefaultAppOverride := chart.GlobalOverride,
         RefChartTemplateVersion := parentVersion, Latest := chart.Latest,
         ChartRefId := chart.ChartRefId, IsAppMetricsEnabled := appMetrics,
         IsBasicViewLocked := chart.IsBasicViewLocked,
         CurrentViewEditor := chart.CurrentViewEditor }, none)

/-- What a method of the chart service returns and leaves behind; `chart` is
`none` for a `nil` result. -/
structure ChartResult where
  chart : Option TemplateRequest
  err : error
  db : ChartDb
  deriving DecidableEq, Repr

/-- The loop at lines 353-363 (and 842-854): every chart of the application that
is not latest, except the one whose id is the request's, gets
`Latest = false, Previous = false`; the loop returns at the first failed write. -/
def demoteOthers (deps : ChartDeps) (templateRequestId : Int) :
    List Chart → List Chart → error × List Chart
  | [], charts => (none, charts)
  | noLatestChart :: rest, charts =>
    if noLatestChart.Id ≠ templateRequestId then
      match ChartRepository.Update deps charts
          { noLatestChart with Latest := false, Previous := false } with
      | (some e, charts1) => (some e, charts1)
      | (none, charts1) => demoteOthers deps templateRequestId rest charts1
    else demoteOthers deps templateRequestId rest charts

/-- Lines 352-373 (and 840-865): clear `Previous` on the other charts, then turn
the current latest chart into the previous one. -/
def retireCurrentLatest (deps : ChartDeps) (charts : List Chart) (appId templateRequestId : Int)
    (currentLatestChart : Chart) : error × List Chart :=
  let noLatestCharts := ChartRepository.FindNoLatestChartForAppByAppId charts appId
  match demoteOthers deps templateRequestId noLatestCharts charts with
  | (some e, charts1) => (some e, charts1)
  | (none, charts1) =>
    ChartRepository.Update deps charts1 { currentLatestChart with Latest := false, Previous := true }

/-- Lines 379-431 of `Create` (and 526-586 of `CreateChartFromEnvOverride`):
derive the version, fetch and merge the values, and build the new row. -/
def buildChart (deps : ChartDeps) (charts : List Chart) (templateRequest : TemplateRequest)
    (chartName : String) (chartRepo : ChartRepo) (refChart templateName pipelineStrategyPath : String)
    (gitRepoUrl : String) (latest : Bool) : Except GoError Chart :=
  match getNewVersion deps charts chartRepo.Name chartName refChart with
  | (_, some e) => Except.error e
  | (version, none) =>
    match deps.FetchValuesFromReferenceChart refChart templateName pipelineStrategyPath with
    | Except.error e => Except.error e
    | Except.ok chartValues =>
      let chartLocation := filepathJoin templateName version
      let override := MarshalJSON templateRequest.ValuesOverride
      match deps.YAMLToJSON chartValues.Values with
      | Except.error e => Except.error e
      | Except.ok valuesJson =>
        match deps.JsonPatch valuesJson templateRequest.ValuesOverride with
        | Except.error e => Except.error e
        | Except.ok merged =>
          match deps.jsonCompact override with
          | Except.error e => Except.error e
          | Except.ok override1 =>
            Except.ok
              { AppId := templateRequest.AppId, ChartRepoId := chartRepo.Id, Values := merged,
                GlobalOverride := override1, ReleaseOverride := chartValues.ReleaseOverrides,
                PipelineOverride := chartValues.PipelineOverrides,
                ImageDescriptorTemplate := chartValues.ImageDescriptorTemplate,
                ChartName := chartName, ChartRepo := chartRepo.Name, ChartRepoUrl := chartRepo.Url,
                ChartVersion := version, Status := "CHARTSTATUS_NEW", Active := true,
                ChartLocation := chartLocation, GitRepoUrl := gitRepoUrl,
                ReferenceTemplate := templateName, ChartRefId := templateRequest.ChartRefId,
                Latest := latest, Previous := false,
                IsBasicViewLocked := templateRequest.IsBasicViewLocked,
                CurrentViewEditor := templateRequest.CurrentViewEditor,
                Audit := { CreatedBy := templateRequest.UserId, CreatedOn := deps.now,
                           UpdatedOn := deps.now, UpdatedBy := templateRequest.UserId } }

/-- Lines 440-475 of `Create`: history entry, variable mapping, app metrics, and
the conversion of the stored chart to the response bean. -/
def finishCreate (deps : ChartDeps) (db : ChartDb) (templateRequest : TemplateRequest)
    (chart : Chart) : ChartResult :=
  match CreateDeploymentTemplateHistoryFromGlobalTemplate deps db.history chart
      templateRequest.IsAppMetricsEnabled with
  | (some e, history1) => { chart := none, err := some e, db := { db with history := history1 } }
  | (none, history1) =>
    let db1 := { db with history := history1 }
    match extractAndMapVariables deps chart.GlobalOverride chart.Id chart.Audit.CreatedBy with
    | some e => { chart := none, err := some e, db := db1 }
    | none =>
      let isAppMetricsSupported := (CheckIsAppMetricsSupported deps templateRequest.ChartRefId).1
      let appMetricsRequest : AppMetricEnableDisableRequest :=
        if !isAppMetricsSupported then
          { UserId := templateRequest.UserId, AppId := templateRequest.AppId,
            IsAppMetricsEnabled := false }
        else
          { UserId := templateRequest.UserId, AppId := templateRequest.AppId,
            IsAppMetricsEnabled := templateRequest.IsAppMetricsEnabled }
      match updateAppLevelMetrics deps db1.appLevelMetrics appMetricsRequest with
      | (_, some e, rows) => { chart := none, err := some e, db := { db1 with appLevelMetrics := rows } }
      | (appLevelMetrics, none, rows) =>
        let adapted := chartAdaptor chart appLevelMetrics
        { chart := some adapted.1, err := adapted.2, db := { db1 with appLevelMetrics := rows } }

/-- Lines 377-475 of `Create`: build the new chart with `Latest = true`, save it,
and finish. -/
def saveNewLatest (deps : ChartDeps) (db1 : ChartDb) (templateRequest : TemplateRequest)
    (chartName : String) (chartRepo : ChartRepo)
    (refChart templateName pipelineStrategyPath gitRepoUrl : String) : ChartResult :=
  match buildChart deps db1.charts templateRequest chartName chartRepo refChart templateName
      pipelineStrategyPath gitRepoUrl true with
  | Except.error e => { chart := none, err := some e, db := db1 }
  | Except.ok chart0 =>
    match ChartRepository.Save deps db1.charts chart0 with
    | (some e, _, _) => { chart := none, err := some e, db := db1 }
    | (none, charts2, chart) =>
      finishCreate deps { db1 with charts := charts2 } templateRequest chart

/-- The method `ChartServiceImpl.Create`. -/
def Create (deps : ChartDeps) (db : ChartDb) (templateRequest : TemplateRequest) : ChartResult :=
  match CheckChartExists deps templateRequest.ChartRefId with
  | some e => { chart := none, err := some e, db := db }
  | none =>
    match getChartMetaData deps templateRequest with
    | (_, some e) => { chart := none, err := some e, db := db }
    | (chartName, none) =>
      match getChartRepo deps templateRequest with
      | Except.error e => { chart := none, err := some e, db := db }
      | Except.ok chartRepo =>
        match getRefChart deps templateRequest with
        | (_, _, some e, _, _) => { chart := none, err := some e, db := db }
        | (refChart, templateName, none, _, pipelineStrategyPath) =>
          let existingChart := (ChartRepository.FindChartByAppIdAndRefId db.charts
            templateRequest.AppId templateRequest.ChartRefId).1
          if existingChart.Id > 0 then
            { chart := none, db := db,
              err := some (GoError.other ("this reference chart already has added to appId " ++
                toString templateRequest.AppId ++ " refId " ++ toString templateRequest.Id)) }
          else
            let latest := ChartRepository.FindLatestChartForAppByAppId db.charts templateRequest.AppId
            if latest.2.isSome && latest.2 != some GoError.ErrNoRows then
              { chart := none, err := latest.2, db := db }
            else
              let currentLatestChart := latest.1
              let retired : error × List Chart × String :=
                if currentLatestChart.Id > 0 then
                  match retireCurrentLatest deps db.charts templateRequest.AppId templateRequest.Id
                      currentLatestChart with
                  | (some e, charts1) => (some e, charts1, "")
                  | (none, charts1) => (none, charts1, currentLatestChart.GitRepoUrl)
                else (none, db.charts, "")
              match retired with
              | (some e, charts1, _) => { chart := none, err := some e, db := { db with charts := charts1 } }
              | (none, charts1, gitRepoUrl) =>
                saveNewLatest deps { db with charts := charts1 } templateRequest chartName chartRepo
                  refChart templateName pipelineStrategyPath gitRepoUrl

/-- The method `ChartServiceImpl.CreateChartFromEnvOverride`. -/
def CreateChartFromEnvOverride (deps : ChartDeps) (db : ChartDb)
    (templateRequest : TemplateRequest) : ChartResult :=
  match CheckChartExists deps templateRequest.ChartRefId with
  | some e => { chart := none, err := some e, db := db }
  | none =>
    match getChartMetaData deps templateRequest with
    | (_, some e) => { chart := none, err := some e, db := db }
    | (chartName, none) =>
      match getChartRepo deps templateRequest with
      | Except.error e => { chart := none, err := some e, db := db }
      | Except.ok chartRepo =>
        match getRefChart deps templateRequest with
        | (_, _, some e, _, _) => { chart := none, err := some e, db := db }
        | (refChart, templateName, none, _, pipelineStrategyPath) =>
          let latest := ChartRepository.FindLatestChartForAppByAppId db.charts templateRequest.AppId
          let gitRepoUrl := if latest.1.Id > 0 then latest.1.GitRepoUrl else ""
          match buildChart deps db.charts templateRequest chartName chartRepo refChart templateName
              pipelineStrategyPath gitRepoUrl false with
          | Except.error e => { chart := none, err := some e, db := db }
          | Except.ok chart0 =>
            match ChartRepository.Save deps db.charts chart0 with
            | (some e, _, _) => { chart := none, err := some e, db := db }
            | (none, charts2, chart) =>
              let db2 := { db with charts := charts2 }
              match CreateDeploymentTemplateHistoryFromGlobalTemplate deps db2.history chart
                  templateRequest.IsAppMetricsEnabled with
              | (some e, history1) =>
                { chart := none, err := some e, db := { db2 with history := history1 } }
              | (none, history1) =>
                let db3 := { db2 with history := history1 }
                match extractAndMapVariables deps chart.GlobalOverride chart.Id
                    chart.Audit.CreatedBy with
                | some e => { chart := none, err := some e, db := db3 }
                | none =>
                  let adapted := chartAdaptor chart none
                  { chart := some adapted.1, err := adapted.2, db := db3 }

/-- Lines 892-930 of `UpdateAppOverride`: app metrics, history entry and
variable mapping after the chart has been written. -/
def finishUpdate (deps : ChartDeps) (db : ChartDb) (templateRequest : TemplateRequest)
    (template : Chart) : ChartResult :=
  let appMetrics := templateRequest.IsAppMetricsEnabled
  let isAppMetricsSupported := (CheckIsAppMetricsSupported deps templateRequest.ChartRefId).1
  let appMetricRequest : AppMetricEnableDisableRequest :=
    if appMetrics && !isAppMetricsSupported then
      { UserId := templateRequest.UserId, AppId := templateRequest.AppId,
        IsAppMetricsEnabled := false }
    else
      { UserId := templateRequest.UserId, AppId := templateRequest.AppId,
        IsAppMetricsEnabled := templateRequest.IsAppMetricsEnabled }
  match updateAppLevelMetrics deps db.appLevelMetrics appMetricRequest with
  | (_, some e, rows) => { chart := none, err := some e, db := { db with appLevelMetrics := rows } }
  | (_, none, rows) =>
    let db1 := { db with appLevelMetrics := rows }
    match CreateDeploymentTemplateHistoryFromGlobalTemplate deps db1.history template
        templateRequest.IsAppMetricsEnabled with
    | (some e, history1) => { chart := none, err := some e, db := { db1 with history := history1 } }
    | (none, history1) =>
      let db2 := { db1 with history := history1 }
      match extractAndMapVariables deps template.GlobalOverride template.Id
          template.Audit.CreatedBy with
      | some e => { chart := none, err := some e, db := db2 }
      | none => { chart := some templateRequest, err := none, db := db2 }

/-- Lines 872-930 of `UpdateAppOverride`: merge the override into the values,
write the chart as the latest one, and finish. -/
def writeAsLatest (deps : ChartDeps) (db1 : ChartDb) (templateRequest : TemplateRequest)
    (template : Chart) : ChartResult :=
  match deps.JsonPatch template.Values templateRequest.ValuesOverride with
  | Except.error e => { chart := none, err := some e, db := db1 }
  | Except.ok values =>
    let template1 : Chart :=
      { template with
        Values := values,
        Audit := { template.Audit with UpdatedOn := deps.now, UpdatedBy := templateRequest.UserId },
        GlobalOverride := templateRequest.ValuesOverride,
        Latest := true, Previous := false,
        IsBasicViewLocked := templateRequest.IsBasicViewLocked,
        CurrentViewEditor := templateRequest.CurrentViewEditor }
    match ChartRepository.Update deps db1.charts template1 with
    | (some e, charts2) => { chart := none, err := some e, db := { db1 with charts := charts2 } }
    | (none, charts2) =>
      finishUpdate deps { db1 with charts := charts2 } templateRequest template1

/-- The method `ChartServiceImpl.UpdateAppOverride`. -/
def UpdateAppOverride (deps : ChartDeps) (db : ChartDb) (templateRequest : TemplateRequest) :
    ChartResult :=
  match ChartRepository.FindById db.charts templateRequest.Id with
  | (_, some e) => { chart := none, err := some e, db := db }
  | (template, none) =>
    match ChartRepository.FindLatestChartForAppByAppId db.charts templateRequest.AppId with
    | (_, some e) => { chart := none, err := some e, db := db }
    | (currentLatestChart, none) =>
      let retired : Option (error × List Chart) :=
        if currentLatestChart.Id > 0 && currentLatestChart.Id == templateRequest.Id then
          some (none, db.charts)
        else if currentLatestChart.Id ≠ templateRequest.Id then
          some (retireCurrentLatest deps db.charts templateRequest.AppId templateRequest.Id
            currentLatestChart)
        else none
      match retired with
      | none => { chart := none, err := none, db := db }
      | some (some e, charts1) => { chart := none, err := some e, db := { db with charts := charts1 } }
      | some (none, charts1) =>
        writeAsLatest deps { db with charts := charts1 } templateRequest template

/-- The method `ChartServiceImpl.FindLatestChartForAppByAppId`. -/
def FindLatestChartForAppByAppId (deps : ChartDeps) (db : ChartDb) (appId : Int) :
    Option TemplateRequest × error :=
  match ChartRepository.FindLatestChartForAppByAppId db.charts appId with
  | (_, some e) => (none, some e)
  | (chart, none) =>
    match AppLevelMetricsRepository.FindByAppId deps db.appLevelMetrics appId with
    | (appMetrics, err) =>
      if err.isSome && !IsErrNoRows err then (none, err)
      else
        let adapted := chartAdaptor chart (some appMetrics)
        (some adapted.1, adapted.2)

/-- Modelled from the spec: `envOverrideRepository.GetEnvConfigByChartId`, the
override rows of a chart, in table order (the repository is outside the
sources at hand). -/
def EnvConfigOverrideRepository.GetEnvConfigByChartId (deps : ChartDeps)
    (rows : List EnvConfigOverride) (chartId : Int) : List EnvConfigOverride × error :=
  match deps.envOverrideFindErr chartId with
  | some e => ([], some e)
  | none => (rows.filter (fun o => o.ChartId == chartId), none)

/-- Modelled from the spec: `envOverrideRepository.Save`, an insert with the key
assigned by the database. -/
def EnvConfigOverrideRepository.Save (deps : ChartDeps) (rows : List EnvConfigOverride)
    (override : EnvConfigOverride) : error × List EnvConfigOverride × EnvConfigOverride :=
  match deps.envOverrideSaveErr override with
  | some e => (some e, rows, override)
  | none =>
    let saved := { override with Id := (rows.map (fun o => o.Id)).foldl max 0 + 1 }
    (none, rows ++ [saved], saved)

/-- Lines 1216-1230 of `UpgradeForApp`: the override row created for the new
chart from an override row of the previous chart. -/
def envOverrideNew (deps : ChartDeps) (envOverride : EnvConfigOverride) (updatedChart : Chart)
    (userId : Int) (envNamespace : String) : EnvConfigOverride :=
  { Active := true, ManualReviewed := true, Status := "CHARTSTATUS_SUCCESS",
    EnvOverrideValues := envOverride.EnvOverrideValues,
    TargetEnvironment := envOverride.TargetEnvironment, ChartId := updatedChart.Id,
    Audit := { UpdatedBy := userId, UpdatedOn := deps.now, CreatedOn := deps.now,
               CreatedBy := userId },
    Namespace := envNamespace, Latest := true, Previous := false,
    IsBasicViewLocked := envOverride.IsBasicViewLocked,
    CurrentViewEditor := envOverride.CurrentViewEditor }

/-- The loop at lines 1211-1262 of `UpgradeForApp`: for every override row of the
previous chart, save a row for the new chart, record it in the history and map
its variables; the loop returns at the first failure.  The app-metrics flag is
resolved by the steps of `resolveAppMetrics`, for the application and the
row's environment. -/
def upgradeEnvOverrides (deps : ChartDeps) (appId : Int) (userId : Int) (updatedChart : Chart) :
    List EnvConfigOverride → ChartDb → error × ChartDb
  | [], db => (none, db)
  | envOverride :: rest, db =>
    match deps.environmentFindById envOverride.TargetEnvironment with
    | Except.error e => (some e, db)
    | Except.ok envNamespace =>
      match EnvConfigOverrideRepository.Save deps db.envOverrides
          (envOverrideNew deps envOverride updatedChart userId envNamespace) with
      | (some e, _, _) => (some e, db)
      | (none, rows, saved) =>
        let db1 := { db with envOverrides := rows }
        match resolveAppMetrics deps db1.envLevelAppMetrics db1.appLevelMetrics
            { AppId := appId, EnvironmentId := saved.TargetEnvironment } with
        | Except.error e => (some e, db1)
        | Except.ok isAppMetricsEnabled =>
          match CreateDeploymentTemplateHistoryFromEnvOverrideTemplate deps db1.charts
              db1.history saved false isAppMetricsEnabled 0 with
          | (some e, history1) => (some e, { db1 with history := history1 })
          | (none, history1) =>
            let db2 := { db1 with history := history1 }
            match extractAndMapVariables deps saved.EnvOverrideValues saved.Id
                saved.Audit.CreatedBy with
            | some e => (some e, db2)
            | none => upgradeEnvOverrides deps appId userId updatedChart rest db2

/-- What a call of `UpgradeForApp` returns and leaves behind. -/
structure UpgradeResult where
  ok : Bool
  err : error
  db : ChartDb
  deriving DecidableEq, Repr

/-- Lines 1197-1265 of `UpgradeForApp`: after the new chart has been created,
load it, fetch the override rows of the previous chart and upgrade them. -/
def upgradeEnvironments (deps : ChartDeps) (db : ChartDb) (appId userId : Int)
    (currentChart upgradedChartReq : TemplateRequest) : UpgradeResult :=
  match ChartRepository.FindById db.charts upgradedChartReq.Id with
  | (_, some e) => { ok := false, err := some e, db := db }
  | (updatedChart, none) =>
    let fetched := EnvConfigOverrideRepository.GetEnvConfigByChartId deps db.envOverrides
      currentChart.Id
    if fetched.2.isSome && fetched.1.isEmpty then { ok := false, err := fetched.2, db := db }
    else
      match upgradeEnvOverrides deps appId userId updatedChart fetched.1 db with
      | (some e, db1) => { ok := false, err := some e, db := db1 }
      | (none, db1) => { ok := true, err := none, db := db1 }

/-- The method `ChartServiceImpl.UpgradeForApp`; `defaultAppOverride` is the entry
`newAppOverride["defaultAppOverride"]` when it is a `json.RawMessage`, and the
type assertion panics when it is not. -/
def UpgradeForApp (deps : ChartDeps) (db : ChartDb) (appId chartRefId : Int)
    (defaultAppOverride : Option String) (userId : Int) : UpgradeResult :=
  match FindLatestChartForAppByAppId deps db appId with
  | (_, some e) =>
    if e ≠ GoError.ErrNoRows then { ok := false, err := some e, db := db }
    else
      { ok := false, db := db,
        err := some (GoError.other "no chart configured for this app, skip it for upgrade") }
  | (current, none) =>
    let currentChart := current.getD {}
    match defaultAppOverride with
    | none =>
      { ok := false, db := db,
        err := some (GoError.panic "interface conversion: interface is nil, not json.RawMessage") }
    | some newDefaultAppOverride =>
      let templateRequest : TemplateRequest :=
        { ChartRefId := chartRefId, AppId := appId,
          ChartRepositoryId := currentChart.ChartRepositoryId,
          DefaultAppOverride := newDefaultAppOverride,
          ValuesOverride := currentChart.DefaultAppOverride, UserId := userId,
          IsBasicViewLocked := currentChart.IsBasicViewLocked,
          CurrentViewEditor := currentChart.CurrentViewEditor }
      let created := Create deps db templateRequest
      match created.err with
      | some e => { ok := false, err := some e, db := created.db }
      | none =>
        match created.chart with
        | none =>
          { ok := false, db := created.db,
            err := some (GoError.other
              "unable to upgrade app, got no error on creating chart but unable to complete") }
        | some upgradedChartReq =>
          if upgradedChartReq.Id = 0 then
            { ok := false, db := created.db,
              err := some (GoError.other
                "unable to upgrade app, got no error on creating chart but unable to complete") }
          else upgradeEnvironments deps created.db appId userId currentChart upgradedChartReq

/-! ## Auxiliary definitions used in the statements -/

/-- The executor call made for one artifact. -/
def mkCall (isCiManual async : Bool) (userId : Int) (a : CiArtifact) : TriggerCall :=
  { artifact := a, isManual := isCiManual, async := async, userId := userId }

/-- The calls made by goroutines run on the given indices, in that order. -/
def callsAt (ciArtifactArr : List CiArtifact) (isCiManual async : Bool) (userId : Int)
    (idxs : List Nat) : List TriggerCall :=
  idxs.filterMap (fun i => (ciArtifactArr[i]?).map (mkCall isCiManual async userId))

/-- The own artifact as stored: the row built at lines 190-204 with the key
the database assigns. -/
def savedOwn (deps : WebhookDeps) (db : Db) (pipeline : CiPipeline)
    (request : CiArtifactWebhookRequest) (materialJson : String) (imagePushedAt : Nat) :
    CiArtifact :=
  { ownArtifact deps pipeline request materialJson imagePushedAt with
    Id := nextArtifactId db.ciArtifacts }

/-- The scenario of the specification: pipeline `P` (id 1, scanning disabled)
with one child `C` (id 2, scanning enabled). -/
def scenarioDb : Db :=
  { ciPipelines := [{ Id := 1, Name := "P" },
                    { Id := 2, Name := "C", ParentCiPipeline := 1, ScanEnabled := true }] }

/-- The build-success event of the scenario. -/
def scenarioRequest : CiArtifactWebhookRequest :=
  { Image := "repo/app:1.0", ImageDigest := "sha256:abc", UserId := 1 }

/-- A pipeline (id 1) with four children (ids 2 to 5): its build-success event
fans out to five artifacts. -/
def fiveDb : Db :=
  { ciPipelines := [{ Id := 1, Name := "P" }, { Id := 2, ParentCiPipeline := 1 },
                    { Id := 3, ParentCiPipeline := 1 }, { Id := 4, ParentCiPipeline := 1 },
                    { Id := 5, ParentCiPipeline := 1 }] }

/-- Collaborators for which exactly the trigger of the third artifact of the
fan-out of `fiveDb` (the clone for pipeline 4) fails; batches of two. -/
def thirdFails : WebhookDeps :=
  { trigger := fun c => if c.artifact.PipelineId = 4 then some (GoError.other "trigger failed") else none,
    CIAutoTriggerBatchSize := 2 }

/-- Collaborators for which the triggers of the third and of the fifth artifact
of the fan-out of `fiveDb` fail, with different errors; batches of two. -/
def thirdAndFifthFail : WebhookDeps :=
  { trigger := fun c =>
      if c.artifact.PipelineId = 4 then some (GoError.other "trigger 3 failed")
      else if c.artifact.PipelineId = 1 then some (GoError.other "trigger 5 failed")
      else none,
    CIAutoTriggerBatchSize := 2 }

/-- Collaborators whose goroutines finish in the reverse of their launch order. -/
def reversedOrder : WebhookDeps :=
  { order := List.reverse, CIAutoTriggerBatchSize := 2 }

/-- A chart table in which the bucket (`repo`, `app`, `1.2`) holds the current
version `1.2.3`. -/
def bucketAt3 : List Chart :=
  [{ Id := 1, AppId := 7, ChartRefId := 10, ChartName := "app", ChartRepo := "repo",
     ChartVersion := "1.2.3", Latest := true }]

/-- A chart table in which the bucket (`repo`, `app`, `1.2`) holds the current
version `1.2.2147483648`. -/
def bucketAtTwoPow31 : List Chart :=
  [{ Id := 1, AppId := 7, ChartRefId := 10, ChartName := "app", ChartRepo := "repo",
     ChartVersion := "1.2.2147483648", Latest := true }]

/-- A chart store in which application 7 has two chart versions: `1.2.1`
(reference template 10, now the previous one) and `1.2.2` (reference
template 11, the latest). -/
def twoVersions : ChartDb :=
  { charts :=
      [{ Id := 1, AppId := 7, ChartRefId := 10, ChartName := "app", ChartRepo := "repo",
         ChartVersion := "1.2.1", Previous := true },
       { Id := 2, AppId := 7, ChartRefId := 11, ChartName := "app", ChartRepo := "repo",
         ChartVersion := "1.2.2", Latest := true }] }

/-- The number of chart rows of an application that have `Latest = true`. -/
def latestCount (charts : List Chart) (appId : Int) : Nat :=
  (charts.filter (fun c => c.AppId == appId && c.Latest)).length

/-- One call of `Create`, `UpdateAppOverride` or `CreateChartFromEnvOverride`,
with the collaborators it runs against and its request. -/
inductive ChartOp where
  | create (deps : ChartDeps) (templateRequest : TemplateRequest)
  | updateAppOverride (deps : ChartDeps) (templateRequest : TemplateRequest)
  | createChartFromEnvOverride (deps : ChartDeps) (templateRequest : TemplateRequest)

/-- The store a call leaves behind, whatever it returns. -/
def ChartOp.run : ChartOp → ChartDb → ChartDb
  | ChartOp.create deps templateRequest, db => (Create deps db templateRequest).db
  | ChartOp.updateAppOverride deps templateRequest, db =>
    (UpdateAppOverride deps db templateRequest).db
  | ChartOp.createChartFromEnvOverride deps templateRequest, db =>
    (CreateChartFromEnvOverride deps db templateRequest).db

/-- A serialized sequence of calls. -/
def runOps : List ChartOp → ChartDb → ChartDb
  | [], db => db
  | op :: rest, db => runOps rest (op.run db)

/-- The request of an `UpdateAppOverride` call names, in `AppId`, the application
that owns the chart named by its `Id`. -/
def ChartOp.consistent : ChartOp → ChartDb → Bool
  | ChartOp.updateAppOverride _ templateRequest, db =>
    db.charts.all (fun c => c.Id != templateRequest.Id || c.AppId == templateRequest.AppId)
  | _, _ => true

/-- Every `UpdateAppOverride` call of the sequence is consistent with the store
it runs against. -/
def consistentOps : List ChartOp → ChartDb → Bool
  | [], _ => true
  | op :: rest, db => op.consistent db && consistentOps rest (op.run db)

/-- Collaborators whose reference chart carries the malformed version `1.2`. -/
def malformedVersion : ChartDeps :=
  { GetChartVersion := fun _ => Except.ok "1.2" }

/-- A chart store with two applications: chart 1 is the latest of application 7,
charts 2 and 3 belong to application 8 and chart 3 is its latest. -/
def twoApps : ChartDb :=
  { charts :=
      [{ Id := 1, AppId := 7, ChartRefId := 10, ChartVersion := "1.2.1", Latest := true },
       { Id := 2, AppId := 8, ChartRefId := 10, ChartVersion := "1.2.2" },
       { Id := 3, AppId := 8, ChartRefId := 11, ChartVersion := "1.2.3", Latest := true }] }

/-- A serialized sequence of calls on `twoApps`: a new version for application 8,
an override update that makes chart 2 the latest of application 8, a first
chart from an environment override for application 9, and a `Create` for
application 7 that fails after the flags were reassigned. -/
def fourCalls : List ChartOp :=
  [ChartOp.create {} { AppId := 8, ChartRefId := 12 },
   ChartOp.updateAppOverride {} { Id := 2, AppId := 8 },
   ChartOp.createChartFromEnvOverride {} { AppId := 9, ChartRefId := 10 },
   ChartOp.create malformedVersion { AppId := 7, ChartRefId := 12 }]

/-- The working form of the invariant of the chart table: primary keys are
distinct and positive, and two latest rows of one application have the same
key. -/
def ChartInv (rows : List Chart) : Prop :=
  (rows.map (fun r => r.Id)).Nodup ∧ (∀ c ∈ rows, 0 < c.Id) ∧
  (∀ a ∈ rows, ∀ b ∈ rows, a.AppId = b.AppId → a.Latest = true → b.Latest = true → a.Id = b.Id)

/-- Collaborators for which the insert of every artifact with image `bad` fails. -/
def badImageFails : WebhookDeps :=
  { insertErr := fun a => if a.Image = "bad" then some (GoError.other "insert failed") else none }

/-- A store that already holds one artifact. -/
def oneArtifactDb : Db :=
  { ciArtifacts := [{ Id := 1, PipelineId := 1, Image := "old" }] }

/-- The artifact of an external build as stored: the row built at lines 319-330
with the key the database assigns. -/
def savedExternal (deps : WebhookDeps) (db : Db) (externalCiId : Int)
    (request : CiArtifactWebhookRequest) (materialJson : String) : CiArtifact :=
  { externalArtifact deps externalCiId request materialJson with
    Id := nextArtifactId db.ciArtifacts }

/-- An authorization predicate that denies every target. -/
def denyAll : String → String → String → Bool :=
  fun _ _ _ => false

/-- Collaborators whose fan-out triggers nothing and reports no error. -/
def nothingTriggered : WebhookDeps :=
  { HandleWebhookExternalCiEvent := fun _ _ _ _ => (false, none) }

/-- Collaborators whose fan-out triggers nothing and reports an error. -/
def nothingTriggeredWithError : WebhookDeps :=
  { HandleWebhookExternalCiEvent := fun _ _ _ _ => (false, some (GoError.other "unauthorized")) }

/-- Collaborators whose fan-out triggers something and reports an error. -/
def partlyTriggered : WebhookDeps :=
  { HandleWebhookExternalCiEvent := fun _ _ _ _ => (true, some (GoError.other "trigger failed")) }

/-- Collaborators that know no external-CI registration. -/
def unknownExternalCi : WebhookDeps :=
  { FindExternalCiById := fun _ => ({}, some GoError.ErrNoRows) }

/-- The artifact that `HandleExternalCiWebhook` stores in `oneArtifactDb` for the
external-CI registration 3 and a request with image `img`. -/
def externalImg : CiArtifact :=
  { Id := 2, Image := "img", MaterialInfo := "null", DataSource := "EXTERNAL",
    ExternalCiPipelineId := 3 }

/-- A store with pipeline `P` (id 1) and its build workflow 5, still running. -/
def runningWorkflowDb : Db :=
  { ciWorkflows := [{ Id := 5, Name := "build", Status := "Running", CiPipelineId := 1 }],
    ciPipelines := [{ Id := 1, Name := "P" }] }

/-- Collaborators for which the application has two pipelines, 4 and 6, that do
not override the chart. -/
def twoPipelines : ChartDeps :=
  { pipelinesNotOverriding := fun _ _ => ([{ Id := 4, AppId := 7, EnvironmentId := 1 },
                                           { Id := 6, AppId := 7, EnvironmentId := 2 }], none) }

/-- Collaborators for which pipeline 9 is bound to every environment override. -/
def boundToNine : ChartDeps :=
  { GetByEnvOverrideIdAndEnvId := fun _ envId => ({ Id := 9, AppId := 7, EnvironmentId := envId }, none) }

/-- The chart of application 7 used in the history scenarios. -/
def chartSeven : Chart :=
  { Id := 1, AppId := 7, ChartRefId := 10, GlobalOverride := "global",
    ImageDescriptorTemplate := "image", Latest := true }

/-- An environment override of `chartSeven` for environment 2 that overrides the
template. -/
def overrideEnvTwo : EnvConfigOverride :=
  { Id := 3, ChartId := 1, TargetEnvironment := 2, EnvOverrideValues := "override",
    IsOverride := true, Chart := chartSeven }

/-- The deployment pipeline 4 of application 7 into environment 2. -/
def pipelineFour : Pipeline :=
  { Id := 4, AppId := 7, EnvironmentId := 2 }

/-- The history entry written when `pipelineFour` is deployed with
`overrideEnvTwo` and the rendered image template `rendered` at time 10 by user
3, app metrics being enabled for it. -/
def triggerEntry : DeploymentTemplateHistory :=
  { Id := 1, PipelineId := 4, AppId := 7, ImageDescriptorTemplate := "rendered",
    Template := "override", TargetEnvironment := 2, TemplateName := "Rollout Deployment",
    TemplateVersion := "1.2.0", IsAppMetricsEnabled := true, Deployed := true, DeployedOn := 10,
    DeployedBy := 3,
    Audit := { CreatedOn := 10, CreatedBy := 3, UpdatedOn := 10, UpdatedBy := 3 } }

/-- Collaborators whose event client fails to deliver every notification. -/
def deliveryFails : WebhookDeps :=
  { WriteNotificationEvent := fun _ => some (GoError.other "event client unreachable") }

/-- The chart row that `UpdateAppOverride` writes at lines 876-885: the stored
chart with the merged values, the request's override as `GlobalOverride`, and
`Latest = true`, `Previous = false`. -/
def overriddenChart (deps : ChartDeps) (templateRequest : TemplateRequest) (template : Chart)
    (values : String) : Chart :=
  { template with
    Values := values,
    Audit := { template.Audit with UpdatedOn := deps.now, UpdatedBy := templateRequest.UserId },
    GlobalOverride := templateRequest.ValuesOverride,
    Latest := true, Previous := false,
    IsBasicViewLocked := templateRequest.IsBasicViewLocked,
    CurrentViewEditor := templateRequest.CurrentViewEditor }

/-- Collaborators whose `JsonPatch` merges the object with member `b` into the
object with member `a` the way a JSON merge patch does. -/
def mergingPatch : ChartDeps :=
  { JsonPatch := fun target patch =>
      if target = "\x7b\"a\":1\x7d" ∧ patch = "\x7b\"b\":2\x7d" then
        Except.ok "\x7b\"a\":1,\"b\":2\x7d"
      else Except.ok patch }

/-- A chart store whose one chart, the latest of application 7, has the object
with member `a` as `Values` and as `GlobalOverride`. -/
def objectA : ChartDb :=
  { charts := [{ Id := 1, AppId := 7, ChartRefId := 10, ChartVersion := "1.2.1",
                 Values := "\x7b\"a\":1\x7d", GlobalOverride := "\x7b\"a\":1\x7d",
                 Latest := true }] }

/-- Collaborators of the history listing: three deployed entries of pipeline 4,
deployed at times 10, 20 and 30, and two workflow runs, started at times 10
and 30. -/
def threeHistories : ChartDeps :=
  { fetchDeployedHistories := fun _ _ _ =>
      ([{ Id := 1, PipelineId := 4, AppId := 7, Deployed := true, DeployedOn := 10, DeployedBy := 3 },
        { Id := 2, PipelineId := 4, AppId := 7, Deployed := true, DeployedOn := 20, DeployedBy := 3 },
        { Id := 3, PipelineId := 4, AppId := 7, Deployed := true, DeployedOn := 30, DeployedBy := 3 }],
       none),
    FindCdWorkflowMetaByPipelineId := fun _ _ _ =>
      ([{ Id := 100, Status := "Healthy", StartedOn := 10, WorkflowType := "DEPLOY" },
        { Id := 101, Status := "Failed", StartedOn := 30, WorkflowType := "DEPLOY" }], none) }

/-- The list that the history listing returns for `threeHistories`. -/
def matchedDtos : List DeploymentTemplateHistoryDto :=
  [{ Id := 1, AppId := 7, PipelineId := 4, Deployed := true, DeployedOn := 10,
     DeployedBy := 3, EmailId := "user@example.com", DeploymentStatus := "Healthy",
     WfrId := 100, WorkflowType := "DEPLOY" },
   { Id := 3, AppId := 7, PipelineId := 4, Deployed := true, DeployedOn := 30,
     DeployedBy := 3, EmailId := "user@example.com", DeploymentStatus := "Failed",
     WfrId := 101, WorkflowType := "DEPLOY" }]

/-- Collaborators of the artifact listing: artifacts 5 and 4 are fetched, and
artifact 5 has the pipeline's only deployment record, created at time 10. -/
def oneDeployment : WebhookDeps :=
  { selectByCdPipeline := fun _ _ => ([{ Id := 5, Image := "img5" }, { Id := 4, Image := "img4" }], none),
    selectDeployed := fun _ _ => ([{ Id := 5, Audit := { CreatedOn := 10 } }], none) }

/-- Collaborators of the artifact listing: artifacts 5, 4 and 3 are fetched and
have one deployment record each, created at times 30, 20 and 10. -/
def threeDeployments : WebhookDeps :=
  { selectByCdPipeline := fun _ _ =>
      ([{ Id := 5, Image := "img5" }, { Id := 4, Image := "img4" }, { Id := 3, Image := "img3" }],
       none),
    selectDeployed := fun _ _ =>
      ([{ Id := 5, Audit := { CreatedOn := 30 } }, { Id := 4, Audit := { CreatedOn := 20 } },
        { Id := 3, Audit := { CreatedOn := 10 } }], none) }

/-- The URL that `ParseMaterialInfo` reads from a material of type `git` or `scm`. -/
def materialUrl (m : CiMaterialInfo) : String :=
  if m.Material.Type_ = "git" then m.Material.GitConfiguration.URL
  else m.Material.ScmConfiguration.URL

/-- The revision of the first modification of a material. -/
def firstRevision (m : CiMaterialInfo) : String :=
  match m.Modifications with
  | [] => ""
  | first :: _ => first.Revision

/-- The value of a key in a map given as the list of its assignments, latest
first. -/
def lookupScm (scmMap : List (String × String)) (url : String) : Option String :=
  (scmMap.find? (fun p => p.1 == url)).map (fun p => p.2)

/-- A material is of type `git` or `scm` and has a first modification. -/
def wellFormedMaterial (m : CiMaterialInfo) : Prop :=
  (m.Material.Type_ = "git" ∨ m.Material.Type_ = "scm") ∧ m.Modifications ≠ []

/-- Two materials, a `git` one whose URL has surrounding blanks and an `scm` one. -/
def twoMaterials : List CiMaterialInfo :=
  [{ Material := { Type_ := "git", GitConfiguration := { URL := " https://example.com/a.git " } },
     Modifications := [{ Revision := "abc" }, { Revision := "old" }] },
   { Material := { Type_ := "scm", ScmConfiguration := { URL := "https://example.com/b" } },
     Modifications := [{ Revision := "def" }] }]

/-- A decoder that, for the text `materials`, fills the slice with `twoMaterials`. -/
def decodeTwoMaterials (s : String) : List (Option CiMaterialInfo) × error :=
  if s = "materials" then (twoMaterials.map some, none)
  else ([], some (GoError.other "unexpected end of JSON input"))

/-- The library call `json.Unmarshal` into a `map[string]json.RawMessage` on six
texts: the object whose `flaggerCanary` member is the empty object, the object
whose `flaggerCanary` member is `null`, the object whose `flaggerCanary` member
has `enabled` set to `true`, that member itself, the empty object, and `null`,
which the library decodes without error, leaving the map without keys; every
other text is rejected. -/
def decodeSample (s : String) : Except GoError (List (String × String)) :=
  if s = "\x7b\"flaggerCanary\":\x7b\x7d\x7d" then Except.ok [("flaggerCanary", "\x7b\x7d")]
  else if s = "\x7b\"flaggerCanary\":null\x7d" then Except.ok [("flaggerCanary", "null")]
  else if s = "null" then Except.ok []
  else if s = "\x7b\"flaggerCanary\":\x7b\"enabled\":true\x7d\x7d" then
    Except.ok [("flaggerCanary", "\x7b\"enabled\":true\x7d")]
  else if s = "\x7b\"enabled\":true\x7d" then Except.ok [("enabled", "true")]
  else if s = "\x7b\x7d" then Except.ok []
  else Except.error (GoError.other "invalid character")

/-- Collaborators that know the external-CI registration 5 with access token
`secret`. -/
def registrationFive : WebhookDeps :=
  { FindExternalCiByCiPipelineId := fun id =>
      if id = 5 then ({ Id := 5, Active := true, AccessToken := "secret" }, none)
      else ({}, some GoError.ErrNoRows) }

/-- The number of environment override rows with `Latest = true` for an
application and an environment; the application of a row is that of the chart
the row belongs to. -/
def latestOverrideCount (db : ChartDb) (appId envId : Int) : Nat :=
  (db.envOverrides.filter (fun o =>
    o.Latest && o.TargetEnvironment == envId &&
      (ChartRepository.FindById db.charts o.ChartId).1.AppId == appId)).length

/-- A store in which application 7 has the latest chart 1 and, for environment
2, one override row of that chart, with `Latest = true`. -/
def oneOverride : ChartDb :=
  { charts := [{ Id := 1, AppId := 7, ChartRefId := 10, ChartName := "app", ChartRepo := "repo",
                 ChartVersion := "1.2.1", Latest := true }],
    envOverrides := [{ Id := 1, ChartId := 1, TargetEnvironment := 2,
                       EnvOverrideValues := "override", IsOverride := true, Latest := true }] }

/-- Collaborators of the history listing: one deployed entry and one run record
at the same instant 10, the entry's time read in location 1 and the run's in
location 2. -/
def otherLocation : ChartDeps :=
  { fetchDeployedHistories := fun _ _ _ =>
      ([{ Id := 1, PipelineId := 4, AppId := 7, Deployed := true,
          DeployedOn := { instant := 10, loc := 1 }, DeployedBy := 3 }], none),
    FindCdWorkflowMetaByPipelineId := fun _ _ _ =>
      ([{ Id := 100, Status := "Healthy", StartedOn := { instant := 10, loc := 2 },
          WorkflowType := "DEPLOY" }], none) }

/-! # Theorems -/

/-! ## Properties of the fan-out loop -/

theorem foldl_runGoroutine (deps : WebhookDeps) (arr : List CiArtifact) (man async : Bool)
    (uid : Int) (idxs : List Nat) (st : error × List TriggerCall) :
    idxs.foldl (runGoroutine deps arr man async uid) st =
      (match (callsAt arr man async uid idxs).getLast? with
        | none => st.1
        | some c => deps.trigger c,
       st.2 ++ callsAt arr man async uid idxs) := by
  induction idxs generalizing st with
  | nil => simp [callsAt]
  | cons i rest ih =>
    rw [List.foldl_cons, ih]
    unfold runGoroutine
    cases h : arr[i]? with
    | none => simp [callsAt, h]
    | some a =>
      have hc : callsAt arr man async uid (i :: rest)
          = mkCall man async uid a :: callsAt arr man async uid rest := by
        simp [callsAt, h]
      rw [hc]
      cases hr : (callsAt arr man async uid rest).getLast? with
      | none =>
        have : callsAt arr man async uid rest = [] := List.getLast?_eq_none_iff.mp hr
        simp [this, mkCall]
      | some c =>
        have hne : callsAt arr man async uid rest ≠ [] := by
          intro h0; rw [h0] at hr; simp at hr
        obtain ⟨x, l, hl⟩ := List.exists_cons_of_ne_nil hne
        rw [hl] at hr ⊢
        simp [List.getLast?_cons_cons] at hr ⊢
        simp [hr, mkCall]

theorem fanOutLoop_done (deps : WebhookDeps) (arr : List CiArtifact) (man async : Bool)
    (uid : Int) (fuel : Nat) (st : FanOutState) (h : arr.length ≤ st.i) :
    fanOutLoop deps arr man async uid fuel st = st := by
  cases fuel with
  | zero => rfl
  | succ n =>
    unfold fanOutLoop
    rw [if_neg (by omega)]

theorem range_map_add (i n : Nat) :
    (List.range n).map (fun j => i + j) = List.range' i n := by
  rw [List.range_eq_range', List.map_add_range']
  simp

theorem ceilDiv_step (r B : Nat) (hB : 1 ≤ B) (hr : B ≤ r) :
    (r - B + B - 1) / B + 1 = (r + B - 1) / B := by
  have h1 : r - B + B - 1 = r - 1 := by omega
  have h2 : r + B - 1 = (r - 1) + B := by omega
  rw [h1, h2, Nat.add_div_right _ (by omega)]

theorem ceilDiv_last (r B : Nat) (hr : 1 ≤ r) (hB : r < B) :
    (r + B - 1) / B = 1 := by
  have h2 : r + B - 1 = (r - 1) + B := by omega
  rw [h2, Nat.add_div_right _ (by omega), Nat.div_eq_of_lt (by omega)]

theorem ceilDiv_zero (B : Nat) (hB : 1 ≤ B) : (0 + B - 1) / B = 0 := by
  apply Nat.div_eq_of_lt
  omega

/-- The batch loop, started in a state with a positive batch size and enough
fuel, ends with `i = len(ciArtifactArr)`; the batches it adds cut the remaining
indices into consecutive runs, and the goroutines run batch after batch. -/
theorem fanOutLoop_spec (deps : WebhookDeps) (arr : List CiArtifact) (man async : Bool)
    (uid : Int) : ∀ (fuel : Nat) (st : FanOutState),
    arr.length - st.i ≤ fuel → 1 ≤ st.batchSize → st.i ≤ arr.length →
    ∃ new : List (List Nat),
      (fanOutLoop deps arr man async uid fuel st).i = arr.length ∧
      (fanOutLoop deps arr man async uid fuel st).batches = st.batches ++ new ∧
      new.flatten = List.range' st.i (arr.length - st.i) ∧
      new.length = (arr.length - st.i + st.batchSize - 1) / st.batchSize ∧
      (∀ b ∈ new, b ≠ [] ∧ b.length ≤ st.batchSize) ∧
      (∀ b ∈ new.dropLast, b.length = st.batchSize) ∧
      ((fanOutLoop deps arr man async uid fuel st).err,
        (fanOutLoop deps arr man async uid fuel st).calls) =
        (new.map deps.order).flatten.foldl (runGoroutine deps arr man async uid)
          (st.err, st.calls) := by
  intro fuel
  induction fuel with
  | zero =>
    intro st hf hb hi
    have hd : arr.length ≤ st.i := by omega
    refine ⟨[], ?_⟩
    rw [fanOutLoop_done deps arr man async uid 0 st hd]
    have h0 : arr.length - st.i = 0 := by omega
    have hz := ceilDiv_zero st.batchSize hb
    simp [h0]
    constructor
    · omega
    · simpa using hz.symm
  | succ n ih =>
    intro st hf hb hi
    by_cases hlt : st.i < arr.length
    · unfold fanOutLoop
      rw [if_pos hlt]
      simp only []
      generalize hbs : (if arr.length - st.i < st.batchSize then arr.length - st.i
        else st.batchSize) = bs
      have hbs1 : 1 ≤ bs := by rw [← hbs]; split <;> omega
      have hbs2 : bs ≤ arr.length - st.i := by rw [← hbs]; split <;> omega
      have hbs3 : bs ≤ st.batchSize := by rw [← hbs]; split <;> omega
      have hcase : bs = st.batchSize ∨ (bs = arr.length - st.i ∧ bs < st.batchSize) := by
        rw [← hbs]; split <;> omega
      rw [range_map_add]
      obtain ⟨new1, h1, h2, h3, h4, h5, h6, h7⟩ := ih
        { i := st.i + bs, batchSize := bs,
          err := ((deps.order (List.range' st.i bs)).foldl
            (runGoroutine deps arr man async uid) (st.err, st.calls)).1,
          calls := ((deps.order (List.range' st.i bs)).foldl
            (runGoroutine deps arr man async uid) (st.err, st.calls)).2,
          batches := st.batches ++ [List.range' st.i bs] }
        (by simp only []; omega) hbs1 (by simp only []; omega)
      simp only [] at h1 h2 h3 h4 h5 h6 h7
      refine ⟨List.range' st.i bs :: new1, h1, ?_, ?_, ?_, ?_, ?_, ?_⟩
      · rw [h2]; simp
      · rw [List.flatten_cons, h3]
        have := List.range'_append st.i bs (arr.length - (st.i + bs)) 1
        rw [Nat.one_mul] at this
        rw [this]
        congr 1
        omega
      · rw [List.length_cons, h4]
        rcases hcase with hc | ⟨hc, hc2⟩
        · rw [hc]
          have : arr.length - (st.i + st.batchSize) = arr.length - st.i - st.batchSize := by omega
          rw [this]
          exact ceilDiv_step _ _ hb (by omega)
        · have : arr.length - (st.i + bs) = 0 := by omega
          rw [this, ceilDiv_zero bs hbs1, ceilDiv_last _ _ (by omega) (by omega)]
      · intro b hb'
        rcases List.mem_cons.mp hb' with rfl | hm
        · constructor
          · intro h0
            have := congrArg List.length h0
            simp at this
            omega
          · simp; exact hbs3
        · exact ⟨(h5 b hm).1, le_trans (h5 b hm).2 hbs3⟩
      · intro b hb'
        cases new1 with
        | nil => simp at hb'
        | cons x xs =>
          rw [List.dropLast_cons₂] at hb'
          have hbeq : bs = st.batchSize := by
            rcases hcase with hc | ⟨hc, _⟩
            · exact hc
            · exfalso
              have : arr.length - (st.i + bs) = 0 := by omega
              rw [this, ceilDiv_zero bs hbs1] at h4
              simp at h4
          rcases List.mem_cons.mp hb' with rfl | hm
          · simp; exact hbeq
          · rw [← hbeq]; exact h6 b hm
      · rw [h7, List.map_cons, List.flatten_cons, List.foldl_append]
    · have hd : arr.length ≤ st.i := by omega
      refine ⟨[], ?_⟩
      rw [fanOutLoop_done deps arr man async uid (n + 1) st hd]
      have h0 : arr.length - st.i = 0 := by omega
      have hz := ceilDiv_zero st.batchSize hb
      simp [h0]
      constructor
      · omega
      · simpa using hz.symm

theorem isCiManual_eq (userId : Int) :
    (if userId = 1 then false else true) = (userId != 1) := by
  by_cases h : userId = 1 <;> simp [h]

theorem effectiveBatchSize_eq (b : Int) : effectiveBatchSize b = (max 1 b).toNat := by
  unfold effectiveBatchSize
  split <;> omega

theorem effectiveBatchSize_pos (b : Int) : 1 ≤ effectiveBatchSize b := by
  unfold effectiveBatchSize
  split <;> omega

theorem callsAt_range (arr : List CiArtifact) (man async : Bool) (uid : Int) :
    callsAt arr man async uid (List.range arr.length) = arr.map (mkCall man async uid) := by
  induction arr with
  | nil => simp [callsAt]
  | cons a l ih =>
    rw [List.length_cons, List.range_succ_eq_map]
    unfold callsAt at ih ⊢
    rw [List.filterMap_cons, List.filterMap_map]
    simp only [List.getElem?_cons_zero, Option.map_some', List.map_cons]
    congr 1
    rw [← ih]
    apply List.filterMap_congr
    intro x _
    simp

/-- The batch loop of `HandleCiSuccessEvent`, run on any slice, reaches its exit
condition; its batches cut the indices `0 .. n-1` into consecutive runs, and
the executor calls are those of the batches, batch after batch. -/
theorem autoTrigger_spec (deps : WebhookDeps) (arr : List CiArtifact) (uid : Int) (err : error) :
    (autoTrigger deps arr uid err).i = arr.length ∧
    (autoTrigger deps arr uid err).batches.flatten = List.range arr.length ∧
    (autoTrigger deps arr uid err).batches.length =
      (arr.length + effectiveBatchSize deps.CIAutoTriggerBatchSize - 1) /
        effectiveBatchSize deps.CIAutoTriggerBatchSize ∧
    (∀ b ∈ (autoTrigger deps arr uid err).batches,
      b ≠ [] ∧ b.length ≤ effectiveBatchSize deps.CIAutoTriggerBatchSize) ∧
    (∀ b ∈ (autoTrigger deps arr uid err).batches.dropLast,
      b.length = effectiveBatchSize deps.CIAutoTriggerBatchSize) ∧
    (autoTrigger deps arr uid err).calls =
      callsAt arr (uid != 1) false uid
        (((autoTrigger deps arr uid err).batches.map deps.order).flatten) ∧
    (autoTrigger deps arr uid err).err =
      (match (autoTrigger deps arr uid err).calls.getLast? with
        | none => err
        | some c => deps.trigger c) := by
  unfold autoTrigger
  simp only [isCiManual_eq]
  obtain ⟨new, h1, h2, h3, h4, h5, h6, h7⟩ :=
    fanOutLoop_spec deps arr (uid != 1) false uid arr.length
      { i := 0, batchSize := effectiveBatchSize deps.CIAutoTriggerBatchSize, err := err,
        calls := [], batches := [] }
      (by simp) (effectiveBatchSize_pos _) (by simp)
  simp only [List.nil_append, Nat.sub_zero] at h2 h3 h4 h5 h6
  rw [foldl_runGoroutine] at h7
  simp only [List.nil_append, Prod.mk.injEq] at h7
  obtain ⟨h7e, h7c⟩ := h7
  rw [h2]
  refine ⟨h1, ?_, h4, h5, h6, h7c, ?_⟩
  · rw [h3, List.range_eq_range']
  · rw [h7e, h7c]

/-! ## Properties of the ingestion phase -/

theorem fillDefaults_fields (request : CiArtifactWebhookRequest) (pipeline : CiPipeline) :
    (fillDefaults request pipeline).UserId = request.UserId ∧
    (fillDefaults request pipeline).Image = request.Image ∧
    (fillDefaults request pipeline).ImageDigest = request.ImageDigest ∧
    (fillDefaults request pipeline).MaterialInfo = request.MaterialInfo ∧
    (fillDefaults request pipeline).WorkflowId = request.WorkflowId := by
  unfold fillDefaults
  by_cases h1 : request.PipelineName = "" <;> by_cases h2 : request.DataSource = "" <;>
    simp [h1, h2]

theorem markWorkflowSucceeded_frame (deps : WebhookDeps) (db : Db)
    (request : CiArtifactWebhookRequest) :
    (markWorkflowSucceeded deps db request).2.ciArtifacts = db.ciArtifacts ∧
    (markWorkflowSucceeded deps db request).2.ciPipelines = db.ciPipelines := by
  unfold markWorkflowSucceeded
  split
  · exact ⟨rfl, rfl⟩
  · split
    · exact ⟨rfl, rfl⟩
    · unfold CiWorkflowRepository.UpdateWorkFlow
      split <;> exact ⟨rfl, rfl⟩

theorem insertArtifact_ok (deps : WebhookDeps) (rows rows1 : List CiArtifact)
    (a a1 : CiArtifact) (h : insertArtifact deps rows a = Except.ok (rows1, a1)) :
    rows1 = rows ++ [a1] ∧
      a1 = (if a.Id = 0 then { a with Id := nextArtifactId rows } else a) := by
  unfold insertArtifact at h
  split at h
  · cases h
  · simp only [Except.ok.injEq, Prod.mk.injEq] at h
    obtain ⟨h1, h2⟩ := h
    subst h2
    exact ⟨h1.symm, rfl⟩

theorem saveAllTx_ok (deps : WebhookDeps) : ∀ (arts rows rows1 saved : List CiArtifact),
    saveAllTx deps arts rows = Except.ok (rows1, saved) →
    rows1 = rows ++ saved ∧
      List.Forall₂ (fun s a => ∃ k, s = { a with Id := k }) saved arts := by
  intro arts
  induction arts with
  | nil =>
    intro rows rows1 saved h
    simp only [saveAllTx, Except.ok.injEq, Prod.mk.injEq] at h
    obtain ⟨h1, h2⟩ := h
    subst h1 h2
    simp
  | cons a rest ih =>
    intro rows rows1 saved h
    unfold saveAllTx at h
    split at h
    · cases h
    · rename_i rowsA a1 hins
      split at h
      · cases h
      · rename_i rows2 saved2 hrest
        simp only [Except.ok.injEq, Prod.mk.injEq] at h
        obtain ⟨h1, h2⟩ := h
        subst h1 h2
        obtain ⟨hr, hf⟩ := ih _ _ _ hrest
        obtain ⟨hi1, hi2⟩ := insertArtifact_ok deps rows rowsA a a1 hins
        refine ⟨?_, List.Forall₂.cons ?_ hf⟩
        · rw [hr, hi1]; simp
        · rw [hi2]
          split
          · exact ⟨_, rfl⟩
          · exact ⟨a.Id, rfl⟩

theorem ownArtifact_Id (deps : WebhookDeps) (pipeline : CiPipeline)
    (request : CiArtifactWebhookRequest) (mj : String) (t : Nat) :
    (ownArtifact deps pipeline request mj t).Id = 0 := by
  cases h : pipeline.ScanEnabled <;> simp [ownArtifact, h]

theorem FindByCiAndAppDetailsById_some (db : Db) (id : Int)
    (h : (CiPipelineRepository.FindByCiAndAppDetailsById db id).2 = none) :
    (CiPipelineRepository.FindByCiAndAppDetailsById db id).1 ∈ db.ciPipelines ∧
    (CiPipelineRepository.FindByCiAndAppDetailsById db id).1.Id = id := by
  unfold CiPipelineRepository.FindByCiAndAppDetailsById at h ⊢
  split at h
  · rename_i p hp
    refine ⟨List.mem_of_find?_eq_some hp, ?_⟩
    have := List.find?_some hp
    simpa using this
  · cases h

theorem Save_spec (deps : WebhookDeps) (db : Db) (a : CiArtifact) (ha : a.Id = 0) :
    (∃ e, CiArtifactRepository.Save deps db a = (some e, db, a)) ∨
    CiArtifactRepository.Save deps db a =
      (none, { db with ciArtifacts := db.ciArtifacts ++ [{ a with Id := nextArtifactId db.ciArtifacts }] },
        { a with Id := nextArtifactId db.ciArtifacts }) := by
  unfold CiArtifactRepository.Save insertArtifact
  cases h : deps.insertErr a with
  | some e => left; exact ⟨e, rfl⟩
  | none => right; simp [ha]

theorem SaveAll_spec (deps : WebhookDeps) (db : Db) (arts : List CiArtifact) :
    (∃ e, CiArtifactRepository.SaveAll deps db arts
      = (some e, db, writtenBack deps arts db.ciArtifacts)) ∨
    ∃ saved, CiArtifactRepository.SaveAll deps db arts =
        (none, { db with ciArtifacts := db.ciArtifacts ++ saved }, saved) ∧
      List.Forall₂ (fun s a => ∃ k, s = { a with Id := k }) saved arts := by
  unfold CiArtifactRepository.SaveAll
  cases h : saveAllTx deps arts db.ciArtifacts with
  | error e => left; exact ⟨e, rfl⟩
  | ok res =>
    obtain ⟨rows, saved⟩ := res
    obtain ⟨h1, h2⟩ := saveAllTx_ok deps arts db.ciArtifacts rows saved h
    right
    exact ⟨saved, by simp [h1], h2⟩

theorem FindByParentCiPipelineId_congr (deps : WebhookDeps) (db db2 : Db) (id : Int)
    (h : db2.ciPipelines = db.ciPipelines) :
    CiPipelineRepository.FindByParentCiPipelineId deps db2 id =
      CiPipelineRepository.FindByParentCiPipelineId deps db id := by
  unfold CiPipelineRepository.FindByParentCiPipelineId
  rw [h]

/-- The outcomes of `HandleCiSuccessEvent`: either it returns before the
fan-out, having added no artifact or only the own artifact, or it has stored
the own artifact and one clone per discovered child and returns through the
fan-out. -/
theorem HandleCiSuccessEvent_outcome (deps : WebhookDeps) (db : Db) (id : Int)
    (request : CiArtifactWebhookRequest) (t : Nat) (r : CiSuccessResult)
    (hr : HandleCiSuccessEvent deps db id request t = r) :
    r.db.ciPipelines = db.ciPipelines ∧
    ((r.notified = false ∧ r.calls = [] ∧ r.ciArtifactArr = [] ∧ r.batches = [] ∧
      (r.db.ciArtifacts = db.ciArtifacts ∨
        ∃ pipeline mj, pipeline ∈ db.ciPipelines ∧ pipeline.Id = id ∧
          r.db.ciArtifacts =
            db.ciArtifacts ++ [savedOwn deps db pipeline (fillDefaults request pipeline) mj t])) ∨
     ∃ pipeline mj saved e, pipeline ∈ db.ciPipelines ∧ pipeline.Id = id ∧
        deps.jsonCompact (MarshalJSON (fillDefaults request pipeline).MaterialInfo) = Except.ok mj ∧
        List.Forall₂ (fun s ci => ∃ k, s =
            { cloneArtifact deps ci (fillDefaults request pipeline) mj
                (savedOwn deps db pipeline (fillDefaults request pipeline) mj t) with Id := k })
          saved (CiPipelineRepository.FindByParentCiPipelineId deps db id).1 ∧
        r.db.ciArtifacts =
          db.ciArtifacts ++ savedOwn deps db pipeline (fillDefaults request pipeline) mj t :: saved ∧
        r = triggerAndReturn deps r.db (fillDefaults request pipeline)
            (savedOwn deps db pipeline (fillDefaults request pipeline) mj t) saved e) := by
  have hf := markWorkflowSucceeded_frame deps db request
  unfold HandleCiSuccessEvent at hr
  rcases hm : markWorkflowSucceeded deps db request with ⟨e1, db1⟩
  rw [hm] at hf hr
  simp only [] at hf hr
  obtain ⟨hfa, hfp⟩ := hf
  cases e1 with
  | some e => subst hr; simp [hfa, hfp]
  | none =>
    simp only [] at hr
    have hfind : CiPipelineRepository.FindByCiAndAppDetailsById db1 id =
        CiPipelineRepository.FindByCiAndAppDetailsById db id := by
      unfold CiPipelineRepository.FindByCiAndAppDetailsById; rw [hfp]
    rw [hfind] at hr
    have hsome := FindByCiAndAppDetailsById_some db id
    rcases hfd : CiPipelineRepository.FindByCiAndAppDetailsById db id with ⟨pipeline, e2⟩
    rw [hfd] at hr hsome
    simp only [] at hr hsome
    cases e2 with
    | some e => subst hr; simp [hfa, hfp]
    | none =>
      obtain ⟨hpm, hpid⟩ := hsome rfl
      simp only [] at hr
      cases hj : deps.jsonCompact (MarshalJSON (fillDefaults request pipeline).MaterialInfo) with
      | error e => rw [hj] at hr; subst hr; simp [hfa, hfp]
      | ok mj =>
        rw [hj] at hr
        simp only [] at hr
        have hown := ownArtifact_Id deps pipeline (fillDefaults request pipeline) mj t
        rcases Save_spec deps db1 _ hown with ⟨e, hs⟩ | hs
        · rw [hs] at hr; subst hr; simp [hfa, hfp]
        · rw [hs] at hr
          simp only [] at hr
          rw [hfa] at hr
          have hso : ({ ownArtifact deps pipeline (fillDefaults request pipeline) mj t with
              Id := nextArtifactId db.ciArtifacts } : CiArtifact) =
              savedOwn deps db pipeline (fillDefaults request pipeline) mj t := rfl
          rw [hso] at hr
          have hch := FindByParentCiPipelineId_congr deps db
            { ciArtifacts := db.ciArtifacts ++ [savedOwn deps db pipeline (fillDefaults request pipeline) mj t],
              ciWorkflows := db1.ciWorkflows, ciPipelines := db1.ciPipelines } id hfp
          rw [hch] at hr
          split at hr
          · subst hr
            refine ⟨hfp, Or.inl ⟨rfl, rfl, rfl, rfl, Or.inr ⟨pipeline, mj, hpm, hpid, rfl⟩⟩⟩
          · split at hr
            · rcases SaveAll_spec deps
                { ciArtifacts := db.ciArtifacts ++ [savedOwn deps db pipeline (fillDefaults request pipeline) mj t],
                  ciWorkflows := db1.ciWorkflows, ciPipelines := db1.ciPipelines }
                (List.map (fun ci => cloneArtifact deps ci (fillDefaults request pipeline) mj
                    (savedOwn deps db pipeline (fillDefaults request pipeline) mj t))
                  (CiPipelineRepository.FindByParentCiPipelineId deps db id).1)
                with ⟨e, hs2⟩ | ⟨saved, hs2, hfa2⟩
              · rw [hs2] at hr
                subst hr
                refine ⟨hfp, Or.inl ⟨rfl, rfl, rfl, rfl, Or.inr ⟨pipeline, mj, hpm, hpid, rfl⟩⟩⟩
              · rw [hs2] at hr
                subst hr
                refine ⟨hfp, Or.inr ⟨pipeline, mj, saved, none, hpm, hpid, hj, ?_, ?_, rfl⟩⟩
                · exact List.forall₂_map_right_iff.mp hfa2
                · simp [triggerAndReturn]
            · rename_i hlen
              subst hr
              have hnil : (CiPipelineRepository.FindByParentCiPipelineId deps db id).1 = [] := by
                apply List.eq_nil_of_length_eq_zero
                simpa using hlen
              refine ⟨hfp, Or.inr ⟨pipeline, mj, [],
                (CiPipelineRepository.FindByParentCiPipelineId deps db id).2,
                hpm, hpid, hj, ?_, ?_, ?_⟩⟩
              · rw [hnil]; exact List.Forall₂.nil
              · simp [triggerAndReturn]
              · rw [hnil]; rfl

/-! ## Fan-out: every artifact is triggered once (C3), batching (C6) -/

theorem autoTrigger_calls_perm (deps : WebhookDeps) (arr : List CiArtifact) (uid : Int)
    (err : error) (horder : ∀ l, (deps.order l).Perm l) :
    (autoTrigger deps arr uid err).calls.Perm (arr.map (mkCall (uid != 1) false uid)) := by
  obtain ⟨_, h2, _, _, _, h6, _⟩ := autoTrigger_spec deps arr uid err
  rw [h6, ← callsAt_range, ← h2]
  unfold callsAt
  apply List.Perm.filterMap
  apply List.Perm.flatten_congr
  exact List.forall₂_map_left_iff.mpr (List.forall₂_same.mpr (fun b _ => horder b))

/-- C3. Whatever the configured batch size and whichever downstream triggers
fail, and in whatever order the goroutines of a batch run, the calls that
`HandleCiSuccessEvent` makes to `workflowDagExecutor.HandleCiSuccessEvent` are,
up to order, exactly one call per artifact of `ciArtifactArr`, each with the
arguments (artifact, `request.UserId != 1`, `false`, `request.UserId`). -/
theorem HandleCiSuccessEvent_triggers_each_artifact_once (deps : WebhookDeps) (db : Db)
    (ciPipelineId : Int) (request : CiArtifactWebhookRequest) (imagePushedAt : Nat)
    (horder : ∀ l, (deps.order l).Perm l) :
    (HandleCiSuccessEvent deps db ciPipelineId request imagePushedAt).calls.Perm
      ((HandleCiSuccessEvent deps db ciPipelineId request imagePushedAt).ciArtifactArr.map
        (fun a => { artifact := a, isManual := request.UserId != 1, async := false,
                    userId := request.UserId })) := by
  obtain ⟨_, h⟩ := HandleCiSuccessEvent_outcome deps db ciPipelineId request imagePushedAt _ rfl
  rcases h with ⟨_, hc, ha, _⟩ | ⟨pipeline, mj, saved, e, _, _, _, _, _, heq⟩
  · rw [hc, ha]; exact List.Perm.nil
  · rw [heq]
    have hu := (fillDefaults_fields request pipeline).1
    have := autoTrigger_calls_perm deps
      (saved ++ [savedOwn deps db pipeline (fillDefaults request pipeline) mj imagePushedAt])
      (fillDefaults request pipeline).UserId e horder
    simp only [triggerAndReturn]
    rw [← hu]
    exact this

/-- Witness for C3: with goroutines finishing in reverse launch order, the
scenario's two artifacts are each triggered once. -/
theorem HandleCiSuccessEvent_triggers_each_artifact_once_witness :
    (∀ l, (reversedOrder.order l).Perm l) ∧
    (HandleCiSuccessEvent reversedOrder scenarioDb 1 scenarioRequest 0).calls.Perm
      ((HandleCiSuccessEvent reversedOrder scenarioDb 1 scenarioRequest 0).ciArtifactArr.map
        (fun a => { artifact := a, isManual := scenarioRequest.UserId != 1, async := false,
                    userId := scenarioRequest.UserId })) :=
  ⟨fun l => List.reverse_perm l,
   HandleCiSuccessEvent_triggers_each_artifact_once reversedOrder scenarioDb 1 scenarioRequest 0
     (fun l => List.reverse_perm l)⟩

/-- C6. For every configured batch size `b` and every slice of `n` artifacts the
batch loop of `HandleCiSuccessEvent` reaches its exit condition `i = n` after
exactly `ceil(n / max(1, b))` batches; every batch launches at most `max(1, b)`
goroutines and every batch but the last exactly `max(1, b)`; the batches cover
the indices `0 .. n-1` in order; and the executor calls are those of the first
batch, then those of the second batch, and so on (a batch starts after the
previous one has been waited for). -/
theorem autoTrigger_runs_ceil_batches (deps : WebhookDeps) (ciArtifactArr : List CiArtifact)
    (userId : Int) (err : error) :
    (autoTrigger deps ciArtifactArr userId err).i = ciArtifactArr.length ∧
    (autoTrigger deps ciArtifactArr userId err).batches.length =
      (ciArtifactArr.length + (max 1 deps.CIAutoTriggerBatchSize).toNat - 1) /
        (max 1 deps.CIAutoTriggerBatchSize).toNat ∧
    (∀ batch ∈ (autoTrigger deps ciArtifactArr userId err).batches,
      batch.length ≤ (max 1 deps.CIAutoTriggerBatchSize).toNat) ∧
    (∀ batch ∈ (autoTrigger deps ciArtifactArr userId err).batches.dropLast,
      batch.length = (max 1 deps.CIAutoTriggerBatchSize).toNat) ∧
    (autoTrigger deps ciArtifactArr userId err).batches.flatten =
      List.range ciArtifactArr.length ∧
    (autoTrigger deps ciArtifactArr userId err).calls =
      callsAt ciArtifactArr (userId != 1) false userId
        (((autoTrigger deps ciArtifactArr userId err).batches.map deps.order).flatten) := by
  obtain ⟨h1, h2, h3, h4, h5, h6, _⟩ := autoTrigger_spec deps ciArtifactArr userId err
  rw [← effectiveBatchSize_eq]
  exact ⟨h1, h3, fun b hb => (h4 b hb).2, h5, h2, h6⟩

/-! ## The returned error (C4) and the position of the parent artifact (C5) -/

/-- C4, counterexample. Five artifacts, batches of two. When only the trigger of
the third artifact fails, all five triggers run, exactly the third one fails,
and `HandleCiSuccessEvent` returns a nil error. When the triggers of the third
and of the fifth artifact fail, the returned error is the error of the fifth
trigger alone. -/
theorem HandleCiSuccessEvent_drops_earlier_failure :
    ((HandleCiSuccessEvent thirdFails fiveDb 1 scenarioRequest 0).ciArtifactArr.map
        (fun a => a.PipelineId) = [2, 3, 4, 5, 1] ∧
     (HandleCiSuccessEvent thirdFails fiveDb 1 scenarioRequest 0).calls.map
        (fun c => (thirdFails.trigger c).isSome) = [false, false, true, false, false] ∧
     (HandleCiSuccessEvent thirdFails fiveDb 1 scenarioRequest 0).err = none) ∧
    ((HandleCiSuccessEvent thirdAndFifthFail fiveDb 1 scenarioRequest 0).calls.map
        (fun c => (thirdAndFifthFail.trigger c).isSome) = [false, false, true, false, true] ∧
     (HandleCiSuccessEvent thirdAndFifthFail fiveDb 1 scenarioRequest 0).err =
        some (GoError.other "trigger 5 failed")) := by
  decide

/-- When `HandleCiSuccessEvent` reaches the fan-out and the goroutines of a batch
run one after the other, the error it returns is the result of the trigger
that ran last. -/
theorem HandleCiSuccessEvent_err_is_last_result (deps : WebhookDeps) (db : Db)
    (ciPipelineId : Int) (request : CiArtifactWebhookRequest) (imagePushedAt : Nat)
    (horder : ∀ l, (deps.order l).Perm l)
    (hreached : (HandleCiSuccessEvent deps db ciPipelineId request imagePushedAt).notified = true) :
    ∃ c, (HandleCiSuccessEvent deps db ciPipelineId request imagePushedAt).calls.getLast? = some c ∧
      (HandleCiSuccessEvent deps db ciPipelineId request imagePushedAt).err = deps.trigger c := by
  obtain ⟨_, h⟩ := HandleCiSuccessEvent_outcome deps db ciPipelineId request imagePushedAt _ rfl
  rcases h with ⟨hn, _⟩ | ⟨pipeline, mj, saved, e, _, _, _, _, _, heq⟩
  · rw [hn] at hreached; cases hreached
  · rw [heq]
    simp only [triggerAndReturn]
    have hperm := autoTrigger_calls_perm deps
      (saved ++ [savedOwn deps db pipeline (fillDefaults request pipeline) mj imagePushedAt])
      (fillDefaults request pipeline).UserId e horder
    obtain ⟨_, _, _, _, _, _, h7⟩ := autoTrigger_spec deps
      (saved ++ [savedOwn deps db pipeline (fillDefaults request pipeline) mj imagePushedAt])
      (fillDefaults request pipeline).UserId e
    cases hl : (autoTrigger deps
      (saved ++ [savedOwn deps db pipeline (fillDefaults request pipeline) mj imagePushedAt])
      (fillDefaults request pipeline).UserId e).calls.getLast? with
    | none =>
      have hnil := List.getLast?_eq_none_iff.mp hl
      rw [hnil] at hperm
      have := hperm.length_eq
      simp at this
    | some c =>
      rw [hl] at h7
      exact ⟨c, rfl, h7⟩

/-- C4, amended. When `HandleCiSuccessEvent` reaches the fan-out, the error it
returns is the result of a single one of the triggers it ran, not an aggregate
of the failures: a non-nil error is the error of one failed trigger, and when
no trigger fails the returned error is nil. -/
theorem HandleCiSuccessEvent_returns_one_trigger_result (deps : WebhookDeps) (db : Db)
    (ciPipelineId : Int) (request : CiArtifactWebhookRequest) (imagePushedAt : Nat)
    (horder : ∀ l, (deps.order l).Perm l)
    (hreached : (HandleCiSuccessEvent deps db ciPipelineId request imagePushedAt).notified = true) :
    (∃ c ∈ (HandleCiSuccessEvent deps db ciPipelineId request imagePushedAt).calls,
      (HandleCiSuccessEvent deps db ciPipelineId request imagePushedAt).err = deps.trigger c) ∧
    ((∀ c ∈ (HandleCiSuccessEvent deps db ciPipelineId request imagePushedAt).calls,
        deps.trigger c = none) →
      (HandleCiSuccessEvent deps db ciPipelineId request imagePushedAt).err = none) := by
  obtain ⟨c, hc, he⟩ := HandleCiSuccessEvent_err_is_last_result deps db ciPipelineId request
    imagePushedAt horder hreached
  have hmem := List.mem_of_getLast?_eq_some hc
  exact ⟨⟨c, hmem, he⟩, fun hall => by rw [he]; exact hall c hmem⟩

/-- Witness for the amended C4: the five-artifact run in which the third and the
fifth trigger fail. -/
theorem HandleCiSuccessEvent_returns_one_trigger_result_witness :
    (∀ l, (thirdAndFifthFail.order l).Perm l) ∧
    (HandleCiSuccessEvent thirdAndFifthFail fiveDb 1 scenarioRequest 0).notified = true ∧
    (∃ c ∈ (HandleCiSuccessEvent thirdAndFifthFail fiveDb 1 scenarioRequest 0).calls,
      (HandleCiSuccessEvent thirdAndFifthFail fiveDb 1 scenarioRequest 0).err
        = thirdAndFifthFail.trigger c) ∧
    ((∀ c ∈ (HandleCiSuccessEvent thirdAndFifthFail fiveDb 1 scenarioRequest 0).calls,
        thirdAndFifthFail.trigger c = none) →
      (HandleCiSuccessEvent thirdAndFifthFail fiveDb 1 scenarioRequest 0).err = none) :=
  ⟨fun l => List.Perm.refl l, by decide,
   HandleCiSuccessEvent_returns_one_trigger_result thirdAndFifthFail fiveDb 1 scenarioRequest 0
     (fun l => List.Perm.refl l) (by decide)⟩

theorem last_batch_has_last_index (L : List (List Nat)) (n : Nat)
    (hflat : L.flatten = List.range n) (hn : 1 ≤ n) (hne : ∀ b ∈ L, b ≠ []) :
    ∃ last, L.getLast? = some last ∧ (n - 1) ∈ last := by
  have hL : L ≠ [] := by
    rintro rfl
    have := congrArg List.length hflat
    simp at this
    omega
  refine ⟨L.getLast hL, List.getLast?_eq_getLast L hL, ?_⟩
  have hlast : L.getLast hL ≠ [] := hne _ (List.getLast_mem hL)
  have hsplit := List.dropLast_append_getLast hL
  have h1 : (L.dropLast ++ [L.getLast hL]).flatten = List.range n := by rw [hsplit]; exact hflat
  rw [List.flatten_append] at h1
  simp only [List.flatten_cons, List.flatten_nil, List.append_nil] at h1
  have h2 := congrArg List.getLast? h1
  rw [List.getLast?_append_of_ne_nil _ hlast, List.getLast?_range, if_neg (by omega)] at h2
  exact List.mem_of_getLast?_eq_some h2

theorem savedOwn_fields (deps : WebhookDeps) (db : Db) (pipeline : CiPipeline)
    (request : CiArtifactWebhookRequest) (mj : String) (t : Nat) :
    (savedOwn deps db pipeline request mj t).Id = nextArtifactId db.ciArtifacts ∧
    (savedOwn deps db pipeline request mj t).PipelineId = pipeline.Id ∧
    (savedOwn deps db pipeline request mj t).ScanEnabled = pipeline.ScanEnabled ∧
    (savedOwn deps db pipeline request mj t).Scanned = pipeline.ScanEnabled ∧
    (savedOwn deps db pipeline request mj t).Image = request.Image ∧
    (savedOwn deps db pipeline request mj t).ImageDigest = request.ImageDigest ∧
    (savedOwn deps db pipeline request mj t).MaterialInfo = mj ∧
    (savedOwn deps db pipeline request mj t).DataSource = request.DataSource := by
  cases h : pipeline.ScanEnabled <;> simp [savedOwn, ownArtifact, h]

theorem cloneArtifact_fields (deps : WebhookDeps) (ci : CiPipeline)
    (request : CiArtifactWebhookRequest) (mj : String) (artifact : CiArtifact) (k : Int) :
    ({ cloneArtifact deps ci request mj artifact with Id := k } : CiArtifact).PipelineId = ci.Id ∧
    ({ cloneArtifact deps ci request mj artifact with Id := k } : CiArtifact).ParentCiArtifact
      = artifact.Id ∧
    ({ cloneArtifact deps ci request mj artifact with Id := k } : CiArtifact).ScanEnabled
      = ci.ScanEnabled ∧
    ({ cloneArtifact deps ci request mj artifact with Id := k } : CiArtifact).Scanned
      = ci.ScanEnabled ∧
    ({ cloneArtifact deps ci request mj artifact with Id := k } : CiArtifact).Image
      = request.Image ∧
    ({ cloneArtifact deps ci request mj artifact with Id := k } : CiArtifact).ImageDigest
      = request.ImageDigest ∧
    ({ cloneArtifact deps ci request mj artifact with Id := k } : CiArtifact).MaterialInfo = mj ∧
    ({ cloneArtifact deps ci request mj artifact with Id := k } : CiArtifact).DataSource
      = request.DataSource := by
  cases h : ci.ScanEnabled <;> simp [cloneArtifact, h]

theorem clones_pipeline_ids (deps : WebhookDeps) (request : CiArtifactWebhookRequest)
    (mj : String) (artifact : CiArtifact) (saved : List CiArtifact) (children : List CiPipeline)
    (h : List.Forall₂ (fun s ci => ∃ k, s =
      { cloneArtifact deps ci request mj artifact with Id := k }) saved children) :
    saved.map (fun a => a.PipelineId) = children.map (fun ci => ci.Id) := by
  induction h with
  | nil => rfl
  | cons hab _ ih =>
    obtain ⟨k, hk⟩ := hab
    rw [List.map_cons, List.map_cons, ih, hk, (cloneArtifact_fields _ _ _ _ _ k).1]

/-- C5, counterexample. In the scenario (one child, batch size 1) the slice handed
to the batch loop holds the child's clone at position 0 and the parent's own
artifact at position 1, and the parent is launched in the second batch, after
its child. -/
theorem HandleCiSuccessEvent_parent_is_not_first :
    (HandleCiSuccessEvent {} scenarioDb 1 scenarioRequest 0).ciArtifactArr.map
        (fun a => a.PipelineId) = [2, 1] ∧
    (HandleCiSuccessEvent {} scenarioDb 1 scenarioRequest 0).batches = [[0], [1]] := by
  decide

/-- C5, amended. The slice that `HandleCiSuccessEvent` processes in batches holds
the clones of the children, in the order `FindByParentCiPipelineId` returned the
children, followed by the pipeline's own artifact at the last position; hence
for every batch size the own artifact is launched in the last batch. -/
theorem HandleCiSuccessEvent_parent_is_last (deps : WebhookDeps) (db : Db)
    (ciPipelineId : Int) (request : CiArtifactWebhookRequest) (imagePushedAt : Nat)
    (hreached : (HandleCiSuccessEvent deps db ciPipelineId request imagePushedAt).notified = true) :
    ∃ own clones lastBatch,
      (HandleCiSuccessEvent deps db ciPipelineId request imagePushedAt).ciArtifactArr
        = clones ++ [own] ∧
      own.PipelineId = ciPipelineId ∧
      clones.map (fun a => a.PipelineId) =
        (CiPipelineRepository.FindByParentCiPipelineId deps db ciPipelineId).1.map (fun ci => ci.Id) ∧
      (HandleCiSuccessEvent deps db ciPipelineId request imagePushedAt).batches.getLast?
        = some lastBatch ∧
      clones.length ∈ lastBatch := by
  obtain ⟨_, h⟩ := HandleCiSuccessEvent_outcome deps db ciPipelineId request imagePushedAt _ rfl
  rcases h with ⟨hn, _⟩ | ⟨pipeline, mj, saved, e, _, hpid, _, hfa, _, heq⟩
  · rw [hn] at hreached; cases hreached
  · obtain ⟨_, h2, _, h4, _, _, _⟩ := autoTrigger_spec deps
      (saved ++ [savedOwn deps db pipeline (fillDefaults request pipeline) mj imagePushedAt])
      (fillDefaults request pipeline).UserId e
    obtain ⟨last, hl1, hl2⟩ := last_batch_has_last_index _ _ h2 (by simp)
      (fun b hb => (h4 b hb).1)
    refine ⟨savedOwn deps db pipeline (fillDefaults request pipeline) mj imagePushedAt, saved,
      last, ?_, ?_, ?_, ?_, ?_⟩
    · rw [heq]; rfl
    · rw [(savedOwn_fields deps db pipeline _ mj imagePushedAt).2.1, hpid]
    · exact clones_pipeline_ids deps _ mj _ saved _ hfa
    · rw [heq]; exact hl1
    · simpa using hl2

/-- Witness for the amended C5: the scenario reaches the fan-out. -/
theorem HandleCiSuccessEvent_parent_is_last_witness :
    (HandleCiSuccessEvent {} scenarioDb 1 scenarioRequest 0).notified = true ∧
    ∃ own clones lastBatch,
      (HandleCiSuccessEvent {} scenarioDb 1 scenarioRequest 0).ciArtifactArr = clones ++ [own] ∧
      own.PipelineId = 1 ∧
      clones.map (fun a => a.PipelineId) =
        (CiPipelineRepository.FindByParentCiPipelineId {} scenarioDb 1).1.map (fun ci => ci.Id) ∧
      (HandleCiSuccessEvent {} scenarioDb 1 scenarioRequest 0).batches.getLast? = some lastBatch ∧
      clones.length ∈ lastBatch :=
  ⟨by decide, HandleCiSuccessEvent_parent_is_last {} scenarioDb 1 scenarioRequest 0 (by decide)⟩

/-! ## The persisted artifacts: scan flags (C1) and fan-out completeness (C2) -/

theorem FindByParentCiPipelineId_mem (deps : WebhookDeps) (db : Db) (id : Int) (ci : CiPipeline)
    (h : ci ∈ (CiPipelineRepository.FindByParentCiPipelineId deps db id).1) :
    ci ∈ db.ciPipelines ∧ ci.ParentCiPipeline = id := by
  unfold CiPipelineRepository.FindByParentCiPipelineId at h
  split at h
  · simp at h
  · simp only [List.mem_filter, beq_iff_eq] at h
    exact h

theorem forall₂_mem_left {α β : Type} {R : α → β → Prop} {l₁ : List α} {l₂ : List β}
    (h : List.Forall₂ R l₁ l₂) : ∀ a ∈ l₁, ∃ b ∈ l₂, R a b := by
  induction h with
  | nil => intro a ha; cases ha
  | cons hab _ ih =>
    intro a ha
    rcases List.mem_cons.mp ha with rfl | hm
    · exact ⟨_, List.mem_cons_self _ _, hab⟩
    · obtain ⟨b, hb, hr⟩ := ih a hm
      exact ⟨b, List.mem_cons_of_mem _ hb, hr⟩

/-- C1, counterexample. In the scenario of the specification (pipeline `P` with
scanning disabled, child `C` with scanning enabled) the artifact stored for `P`
has `Scanned = false` and the artifact stored for `C` has `Scanned = true`. -/
theorem HandleCiSuccessEvent_scanned_not_inverted :
    (HandleCiSuccessEvent {} scenarioDb 1 scenarioRequest 0).db.ciArtifacts.map
        (fun a => (a.PipelineId, a.ScanEnabled, a.Scanned)) =
      [(1, false, false), (2, true, true)] := by
  decide

/-- C1, amended. Every artifact that a call of `HandleCiSuccessEvent` adds to the
store (the pipeline's own artifact and every child clone) belongs to the
pipeline itself or to one of its children, has `ScanEnabled` equal to that
pipeline's scan policy, and has `Scanned` equal to `ScanEnabled`: it is stored
as scanned exactly when scanning is enabled for its pipeline. -/
theorem HandleCiSuccessEvent_scanned_eq_scan_enabled (deps : WebhookDeps) (db : Db)
    (ciPipelineId : Int) (request : CiArtifactWebhookRequest) (imagePushedAt : Nat) :
    ∃ added,
      (HandleCiSuccessEvent deps db ciPipelineId request imagePushedAt).db.ciArtifacts
        = db.ciArtifacts ++ added ∧
      ∀ a ∈ added, a.Scanned = a.ScanEnabled ∧
        ∃ p ∈ db.ciPipelines, (p.Id = ciPipelineId ∨ p.ParentCiPipeline = ciPipelineId) ∧
          a.PipelineId = p.Id ∧ a.ScanEnabled = p.ScanEnabled := by
  obtain ⟨_, h⟩ := HandleCiSuccessEvent_outcome deps db ciPipelineId request imagePushedAt _ rfl
  have hown : ∀ (pipeline : CiPipeline) (mj : String), pipeline ∈ db.ciPipelines →
      pipeline.Id = ciPipelineId →
      (savedOwn deps db pipeline (fillDefaults request pipeline) mj imagePushedAt).Scanned =
        (savedOwn deps db pipeline (fillDefaults request pipeline) mj imagePushedAt).ScanEnabled ∧
      ∃ p ∈ db.ciPipelines, (p.Id = ciPipelineId ∨ p.ParentCiPipeline = ciPipelineId) ∧
        (savedOwn deps db pipeline (fillDefaults request pipeline) mj imagePushedAt).PipelineId
          = p.Id ∧
        (savedOwn deps db pipeline (fillDefaults request pipeline) mj imagePushedAt).ScanEnabled
          = p.ScanEnabled := by
    intro pipeline mj hpm hpid
    obtain ⟨_, f2, f3, f4, _⟩ := savedOwn_fields deps db pipeline (fillDefaults request pipeline) mj
      imagePushedAt
    exact ⟨by rw [f4, f3], pipeline, hpm, Or.inl hpid, f2, f3⟩
  rcases h with ⟨_, _, _, _, hdb | ⟨pipeline, mj, hpm, hpid, hdb⟩⟩ |
      ⟨pipeline, mj, saved, e, hpm, hpid, _, hfa, hdb, _⟩
  · exact ⟨[], by rw [hdb]; simp, fun a ha => by cases ha⟩
  · refine ⟨_, hdb, ?_⟩
    intro a ha
    rw [List.mem_singleton] at ha
    subst ha
    exact hown pipeline mj hpm hpid
  · refine ⟨_, hdb, ?_⟩
    intro a ha
    rcases List.mem_cons.mp ha with rfl | hm
    · exact hown pipeline mj hpm hpid
    · obtain ⟨ci, hci, k, hk⟩ := forall₂_mem_left hfa a hm
      obtain ⟨hcm, hcp⟩ := FindByParentCiPipelineId_mem deps db ciPipelineId ci hci
      obtain ⟨f1, _, f3, f4, _⟩ := cloneArtifact_fields deps ci (fillDefaults request pipeline) mj
        (savedOwn deps db pipeline (fillDefaults request pipeline) mj imagePushedAt) k
      rw [hk]
      exact ⟨by rw [f4, f3], ci, hcm, Or.inr hcp, f1, f3⟩

/-- C2. When all lookups and saves of `HandleCiSuccessEvent` succeed (the call
reaches the fan-out) and `FindByParentCiPipelineId` returned `K` children, the
call appends exactly `K + 1` rows to the artifact store: the pipeline's own
artifact, whose id is returned, followed by one clone per child, in order;
every clone has its child's id as `PipelineId`, the own artifact's id as
`ParentCiArtifact`, and the own artifact's `Image`, `ImageDigest`,
`MaterialInfo` and `DataSource`. -/
theorem HandleCiSuccessEvent_persists_own_and_clones (deps : WebhookDeps) (db : Db)
    (ciPipelineId : Int) (request : CiArtifactWebhookRequest) (imagePushedAt : Nat)
    (hreached : (HandleCiSuccessEvent deps db ciPipelineId request imagePushedAt).notified = true) :
    ∃ own clones,
      (HandleCiSuccessEvent deps db ciPipelineId request imagePushedAt).db.ciArtifacts
        = db.ciArtifacts ++ own :: clones ∧
      (own :: clones).length =
        (CiPipelineRepository.FindByParentCiPipelineId deps db ciPipelineId).1.length + 1 ∧
      own.PipelineId = ciPipelineId ∧
      (HandleCiSuccessEvent deps db ciPipelineId request imagePushedAt).id = own.Id ∧
      List.Forall₂
        (fun clone child =>
          clone.PipelineId = child.Id ∧ clone.ParentCiArtifact = own.Id ∧
          clone.Image = own.Image ∧ clone.ImageDigest = own.ImageDigest ∧
          clone.MaterialInfo = own.MaterialInfo ∧ clone.DataSource = own.DataSource)
        clones (CiPipelineRepository.FindByParentCiPipelineId deps db ciPipelineId).1 := by
  obtain ⟨_, h⟩ := HandleCiSuccessEvent_outcome deps db ciPipelineId request imagePushedAt _ rfl
  rcases h with ⟨hn, _⟩ | ⟨pipeline, mj, saved, e, _, hpid, _, hfa, hdb, heq⟩
  · rw [hn] at hreached; cases hreached
  · obtain ⟨_, o2, _, _, o5, o6, o7, o8⟩ :=
      savedOwn_fields deps db pipeline (fillDefaults request pipeline) mj imagePushedAt
    refine ⟨savedOwn deps db pipeline (fillDefaults request pipeline) mj imagePushedAt, saved,
      hdb, ?_, by rw [o2, hpid], by rw [heq]; rfl, ?_⟩
    · rw [List.length_cons, hfa.length_eq]
    · refine hfa.imp ?_
      rintro s ci ⟨k, hk⟩
      obtain ⟨f1, f2, _, _, f5, f6, f7, f8⟩ :=
        cloneArtifact_fields deps ci (fillDefaults request pipeline) mj
          (savedOwn deps db pipeline (fillDefaults request pipeline) mj imagePushedAt) k
      rw [hk]
      exact ⟨f1, f2, by rw [f5, o5], by rw [f6, o6], by rw [f7, o7], by rw [f8, o8]⟩

/-- Witness for C2: the scenario reaches the fan-out and stores two artifacts. -/
theorem HandleCiSuccessEvent_persists_own_and_clones_witness :
    (HandleCiSuccessEvent {} scenarioDb 1 scenarioRequest 0).notified = true ∧
    ∃ own clones,
      (HandleCiSuccessEvent {} scenarioDb 1 scenarioRequest 0).db.ciArtifacts
        = scenarioDb.ciArtifacts ++ own :: clones ∧
      (own :: clones).length =
        (CiPipelineRepository.FindByParentCiPipelineId {} scenarioDb 1).1.length + 1 ∧
      own.PipelineId = 1 ∧
      (HandleCiSuccessEvent {} scenarioDb 1 scenarioRequest 0).id = own.Id ∧
      List.Forall₂
        (fun clone child =>
          clone.PipelineId = child.Id ∧ clone.ParentCiArtifact = own.Id ∧
          clone.Image = own.Image ∧ clone.ImageDigest = own.ImageDigest ∧
          clone.MaterialInfo = own.MaterialInfo ∧ clone.DataSource = own.DataSource)
        clones (CiPipelineRepository.FindByParentCiPipelineId {} scenarioDb 1).1 :=
  ⟨by decide,
   HandleCiSuccessEvent_persists_own_and_clones {} scenarioDb 1 scenarioRequest 0 (by decide)⟩

/-! ## Version numbers (C9) -/

theorem splitOnDot_ne_nil (cs : List Char) : splitOnDot cs ≠ [] := by
  induction cs with
  | nil => simp [splitOnDot]
  | cons c cs ih =>
    unfold splitOnDot
    split
    · simp
    · split <;> simp

theorem splitOnDot_no_dot (cs : List Char) (h : '.' ∉ cs) : splitOnDot cs = [cs] := by
  induction cs with
  | nil => rfl
  | cons c cs ih =>
    have hc : c ≠ '.' := fun hc => h (by rw [hc]; exact List.mem_cons_self _ _)
    have hcs : '.' ∉ cs := fun hm => h (List.mem_cons_of_mem _ hm)
    unfold splitOnDot
    rw [if_neg hc, ih hcs]

theorem splitOnDot_append_dot (a rest : List Char) (h : '.' ∉ a) :
    splitOnDot (a ++ '.' :: rest) = a :: splitOnDot rest := by
  induction a with
  | nil => simp [splitOnDot]
  | cons c cs ih =>
    have hc : c ≠ '.' := fun hc => h (by rw [hc]; exact List.mem_cons_self _ _)
    have hcs : '.' ∉ cs := fun hm => h (List.mem_cons_of_mem _ hm)
    rw [List.cons_append, splitOnDot, if_neg hc, ih hcs]

theorem Split_three (M m x : String) (hM : '.' ∉ M.data) (hm : '.' ∉ m.data)
    (hx : '.' ∉ x.data) : Split (M ++ "." ++ m ++ "." ++ x) = [M, m, x] := by
  unfold Split
  have hd : (M ++ "." ++ m ++ "." ++ x).data = M.data ++ '.' :: (m.data ++ '.' :: x.data) := by
    simp [String.data_append]
  rw [hd, splitOnDot_append_dot _ _ hM, splitOnDot_append_dot _ _ hm, splitOnDot_no_dot _ hx]
  rfl

theorem parseDigits_foldl_none (cs : List Char) :
    cs.foldl (fun acc c =>
      match acc with
      | none => none
      | some n => if c.isDigit then some (10 * n + (c.toNat - '0'.toNat)) else none)
      (none : Option Nat) = none := by
  induction cs with
  | nil => rfl
  | cons c cs ih => simpa using ih

theorem parseDigits_foldl_digits (cs : List Char) : ∀ (n r : Nat),
    cs.foldl (fun acc c =>
      match acc with
      | none => none
      | some n => if c.isDigit then some (10 * n + (c.toNat - '0'.toNat)) else none)
      (some n) = some r → ∀ c ∈ cs, c.isDigit = true := by
  induction cs with
  | nil => intro n r _ c hc; cases hc
  | cons d ds ih =>
    intro n r h c hc
    rw [List.foldl_cons] at h
    by_cases hd : d.isDigit = true
    · simp only [hd, if_true] at h
      rcases List.mem_cons.mp hc with rfl | hm
      · exact hd
      · exact ih _ _ h c hm
    · simp only [hd, Bool.false_eq_true, if_false] at h
      rw [parseDigits_foldl_none] at h
      cases h

theorem parseDigits_digits (cs : List Char) (r : Nat) (h : parseDigits cs = some r) :
    ∀ c ∈ cs, c.isDigit = true := by
  cases cs with
  | nil => intro c hc; cases hc
  | cons d ds =>
    unfold parseDigits at h
    exact parseDigits_foldl_digits (d :: ds) 0 r h

/-- A string accepted by `strconv.ParseInt` holds no dot. -/
theorem ParseInt32_no_dot (s : String) (p : Int) (h : ParseInt32 s = Except.ok p) :
    '.' ∉ s.data := by
  unfold ParseInt32 at h
  split at h
  · cases h
  · rename_i c cs hs
    rw [hs]
    simp only [] at h
    split at h
    · cases h
    · rename_i un hun
      have hdig := parseDigits_digits _ _ hun
      intro hmem
      by_cases hsign : c = '+' ∨ c = '-'
      · rw [if_pos hsign] at hdig
        rcases List.mem_cons.mp hmem with hc | hm
        · rcases hsign with h1 | h1 <;> rw [h1] at hc <;> cases hc
        · have := hdig _ hm
          revert this
          decide
      · rw [if_neg hsign] at hdig
        have := hdig _ hmem
        revert this
        decide

/-- C9, counterexample. The reference chart has version `1.2.0` and the bucket's
current version is `1.2.2147483648`, whose patch is a decimal integer:
`getNewVersion` returns an error, not `1.2.2147483649`. -/
theorem getNewVersion_patch_out_of_range :
    getNewVersion {} bucketAtTwoPow31 "repo" "app" "reference-chart" =
      ("", some (GoError.other "strconv.ParseInt: value out of range")) := by
  decide

/-- C9, amended. Let the reference chart's version be `M.m.x` (three components
without dots). If the store's current version of the bucket
(chartRepo, chartName, `M.m`) is `M.m.ps`, where `ps` is a decimal numeral that
`strconv.ParseInt(ps, 10, 32)` accepts with value `p` (so `p` lies between
`-2^31` and `2^31 - 1`), then `getNewVersion` returns `M.m.q` with `q = p + 1`.
If the lookup of the current version fails, it returns `M.m.1`. If the
reference chart's version does not have exactly three dot-separated
components, it returns an error. -/
theorem getNewVersion_next_patch (deps : ChartDeps) (charts : List Chart)
    (chartRepo chartName refChartLocation : String) :
    (∀ (M m x ps : String) (p : Int), '.' ∉ M.data → '.' ∉ m.data → '.' ∉ x.data →
      deps.GetChartVersion refChartLocation = Except.ok (M ++ "." ++ m ++ "." ++ x) →
      ChartRepository.FindCurrentChartVersion charts chartRepo chartName (M ++ "." ++ m)
        = (M ++ "." ++ m ++ "." ++ ps, none) →
      ParseInt32 ps = Except.ok p →
      getNewVersion deps charts chartRepo chartName refChartLocation
        = (M ++ "." ++ m ++ "." ++ FormatInt (p + 1), none)) ∧
    (∀ (M m x : String), '.' ∉ M.data → '.' ∉ m.data → '.' ∉ x.data →
      deps.GetChartVersion refChartLocation = Except.ok (M ++ "." ++ m ++ "." ++ x) →
      (ChartRepository.FindCurrentChartVersion charts chartRepo chartName (M ++ "." ++ m)).2
        ≠ none →
      getNewVersion deps charts chartRepo chartName refChartLocation
        = (M ++ "." ++ m ++ ".1", none)) ∧
    (∀ (v : String), deps.GetChartVersion refChartLocation = Except.ok v →
      (Split v).length ≠ 3 →
      (getNewVersion deps charts chartRepo chartName refChartLocation).2 ≠ none) := by
  refine ⟨?_, ?_, ?_⟩
  · intro M m x ps p hM hm hx href hcur hp
    have hps := ParseInt32_no_dot ps p hp
    unfold getNewVersion
    rw [href]
    simp only []
    rw [Split_three M m x hM hm hx]
    simp only []
    rw [hcur]
    simp only []
    rw [Split_three M m ps hM hm hps]
    simp only [List.getElem?_cons_succ, List.getElem?_cons_zero]
    rw [hp]
  · intro M m x hM hm hx href hcur
    unfold getNewVersion
    rw [href]
    simp only []
    rw [Split_three M m x hM hm hx]
    simp only []
    rcases hfc : ChartRepository.FindCurrentChartVersion charts chartRepo chartName
      (M ++ "." ++ m) with ⟨cv, e⟩
    rw [hfc] at hcur
    cases e with
    | none => exact absurd rfl hcur
    | some e => rfl
  · intro v href hlen
    unfold getNewVersion
    rw [href]
    simp only []
    split
    · rename_i p0 p1 p2 hsplit
      rw [hsplit] at hlen
      exact absurd rfl hlen
    · simp

/-- Witness for the amended C9: reference version `1.2.0`, current version
`1.2.3`, new version `1.2.4`. -/
theorem getNewVersion_next_patch_witness :
    ((ChartDeps.GetChartVersion {}) "reference-chart" = Except.ok ("1" ++ "." ++ "2" ++ "." ++ "0") ∧
      ChartRepository.FindCurrentChartVersion bucketAt3 "repo" "app" ("1" ++ "." ++ "2")
        = ("1" ++ "." ++ "2" ++ "." ++ "3", none) ∧
      ParseInt32 "3" = Except.ok 3) ∧
    getNewVersion {} bucketAt3 "repo" "app" "reference-chart" = ("1.2.4", none) :=
  ⟨⟨by decide, by decide, by decide⟩,
   (getNewVersion_next_patch {} bucketAt3 "repo" "app" "reference-chart").1 "1" "2" "0" "3" 3
     (by decide) (by decide) (by decide) (by decide) (by decide) (by decide)⟩

/-! ## Duplicate reference chart (C10) -/

theorem FindChartByAppIdAndRefId_pos (charts : List Chart) (appId chartRefId : Int)
    (hpos : ∀ c ∈ charts, 0 < c.Id)
    (hdup : ∃ c ∈ charts, c.AppId = appId ∧ c.ChartRefId = chartRefId) :
    (ChartRepository.FindChartByAppIdAndRefId charts appId chartRefId).1.Id > 0 := by
  unfold ChartRepository.FindChartByAppIdAndRefId
  split
  · rename_i c hc
    exact hpos c (List.mem_of_find?_eq_some hc)
  · rename_i hnone
    obtain ⟨c, hc, h1, h2⟩ := hdup
    have := List.find?_eq_none.mp hnone c hc
    simp [h1, h2] at this

/-- C10. Whenever the application already has a chart bound to the requested
`ChartRefId` (in a chart table with positive keys), `Create` returns an error
and leaves the chart table, the deployment-template history and the
app-metrics table exactly as they were. -/
theorem Create_rejects_duplicate_reference_chart (deps : ChartDeps) (db : ChartDb)
    (templateRequest : TemplateRequest)
    (hpos : ∀ c ∈ db.charts, 0 < c.Id)
    (hdup : ∃ c ∈ db.charts, c.AppId = templateRequest.AppId ∧
      c.ChartRefId = templateRequest.ChartRefId) :
    (Create deps db templateRequest).err ≠ none ∧ (Create deps db templateRequest).db = db := by
  have hex := FindChartByAppIdAndRefId_pos db.charts templateRequest.AppId
    templateRequest.ChartRefId hpos hdup
  unfold Create
  split
  · simp
  · split
    · simp
    · split
      · simp
      · split
        · simp
        · simp only []
          rw [if_pos hex]
          simp

/-- Witness for C10: application 7 already has a chart for reference
template 11. -/
theorem Create_rejects_duplicate_reference_chart_witness :
    ((∀ c ∈ twoVersions.charts, 0 < c.Id) ∧
      ∃ c ∈ twoVersions.charts, c.AppId = (7 : Int) ∧ c.ChartRefId = (11 : Int)) ∧
    (Create {} twoVersions { AppId := 7, ChartRefId := 11 }).err ≠ none ∧
    (Create {} twoVersions { AppId := 7, ChartRefId := 11 }).db = twoVersions :=
  ⟨⟨by decide, by decide⟩,
   Create_rejects_duplicate_reference_chart {} twoVersions { AppId := 7, ChartRefId := 11 }
     (by decide) (by decide)⟩

/-! ## Writes to the chart table -/

theorem Update_cases (deps : ChartDeps) (rows : List Chart) (c : Chart) :
    (∃ e, ChartRepository.Update deps rows c = (some e, rows)) ∨
    ChartRepository.Update deps rows c =
      (none, rows.map (fun r => if r.Id = c.Id then c else r)) := by
  unfold ChartRepository.Update
  cases h : deps.chartUpdateErr c with
  | some e => left; exact ⟨e, rfl⟩
  | none => right; rfl

theorem Update_ids (deps : ChartDeps) (rows : List Chart) (c : Chart) :
    (ChartRepository.Update deps rows c).2.map (fun r => r.Id) = rows.map (fun r => r.Id) := by
  rcases Update_cases deps rows c with ⟨e, h⟩ | h <;> rw [h]
  simp only [List.map_map]
  apply List.map_congr_left
  intro r _
  simp only [Function.comp]
  split
  · rename_i h; exact h.symm
  · rfl

theorem Update_mem (deps : ChartDeps) (rows : List Chart) (c r1 : Chart)
    (h : r1 ∈ (ChartRepository.Update deps rows c).2) :
    r1 ∈ rows ∨ (r1 = c ∧ ∃ r ∈ rows, r.Id = c.Id) := by
  rcases Update_cases deps rows c with ⟨e, hu⟩ | hu <;> rw [hu] at h
  · exact Or.inl h
  · simp only [List.mem_map] at h
    obtain ⟨r, hr, rfl⟩ := h
    split
    · rename_i hid; exact Or.inr ⟨rfl, r, hr, hid⟩
    · exact Or.inl hr

theorem Update_mem_ok (deps : ChartDeps) (rows rows1 : List Chart) (c r1 : Chart)
    (hu : ChartRepository.Update deps rows c = (none, rows1)) (h : r1 ∈ rows1) :
    (r1 ∈ rows ∧ r1.Id ≠ c.Id) ∨ r1 = c := by
  rcases Update_cases deps rows c with ⟨e, hu2⟩ | hu2 <;> rw [hu2] at hu
  · cases hu
  · simp only [Prod.mk.injEq, true_and] at hu
    subst hu
    simp only [List.mem_map] at h
    obtain ⟨r, hr, rfl⟩ := h
    split
    · exact Or.inr rfl
    · rename_i hid; exact Or.inl ⟨hr, hid⟩

/-- A write of a row that is not latest adds no latest row. -/
theorem Update_latest (deps : ChartDeps) (rows : List Chart) (c : Chart)
    (hc : c.Latest = false) :
    ∀ r1 ∈ (ChartRepository.Update deps rows c).2, r1.Latest = true → r1 ∈ rows := by
  intro r1 h hl
  rcases Update_mem deps rows c r1 h with h1 | ⟨h1, _⟩
  · exact h1
  · rw [h1, hc] at hl; cases hl

theorem demoteOthers_ids (deps : ChartDeps) (reqId : Int) : ∀ (S rows : List Chart),
    (demoteOthers deps reqId S rows).2.map (fun r => r.Id) = rows.map (fun r => r.Id) := by
  intro S
  induction S with
  | nil => intro rows; rfl
  | cons s rest ih =>
    intro rows
    unfold demoteOthers
    split
    · rcases Update_cases deps rows { s with Latest := false, Previous := false }
        with ⟨e, hu⟩ | hu
      · rw [hu]
      · have hids := Update_ids deps rows { s with Latest := false, Previous := false }
        rw [hu] at hids ⊢
        simp only [] at hids ⊢
        rw [ih, hids]
    · exact ih rows

theorem demoteOthers_latest (deps : ChartDeps) (reqId : Int) : ∀ (S rows : List Chart),
    ∀ r1 ∈ (demoteOthers deps reqId S rows).2, r1.Latest = true → r1 ∈ rows := by
  intro S
  induction S with
  | nil => intro rows r1 h _; exact h
  | cons s rest ih =>
    intro rows r1 h hl
    unfold demoteOthers at h
    split at h
    · have hlat := Update_latest deps rows { s with Latest := false, Previous := false } rfl
      rcases Update_cases deps rows { s with Latest := false, Previous := false }
        with ⟨e, hu⟩ | hu
      · rw [hu] at h; exact h
      · rw [hu] at h hlat
        simp only [] at h hlat
        exact hlat r1 (ih _ r1 h hl) hl
    · exact ih rows r1 h hl

/-- When the loop completes, every row whose id is that of a processed chart
other than the request's has both flags cleared, and every other row is a
row of the table the loop started with. -/
theorem demoteOthers_success (deps : ChartDeps) (reqId : Int) : ∀ (S rows rows1 : List Chart),
    demoteOthers deps reqId S rows = (none, rows1) →
    (∀ r1 ∈ rows1, (∃ s ∈ S, s.Id ≠ reqId ∧ s.Id = r1.Id) →
      r1.Latest = false ∧ r1.Previous = false) ∧
    (∀ r1 ∈ rows1, (¬ ∃ s ∈ S, s.Id ≠ reqId ∧ s.Id = r1.Id) → r1 ∈ rows) := by
  intro S
  induction S with
  | nil =>
    intro rows rows1 h
    simp only [demoteOthers, Prod.mk.injEq, true_and] at h
    subst h
    refine ⟨?_, fun r1 h1 _ => h1⟩
    intro r1 _ hex
    obtain ⟨s, hs, _⟩ := hex
    cases hs
  | cons s rest ih =>
    intro rows rows1 h
    unfold demoteOthers at h
    split at h
    · rename_i hne
      rcases hu : ChartRepository.Update deps rows { s with Latest := false, Previous := false }
        with ⟨e, rowsA⟩
      rw [hu] at h
      cases e with
      | some e => simp only [] at h; cases h
      | none =>
        simp only [] at h
        have hmem := fun r1 => Update_mem_ok deps rows rowsA _ r1 hu
        obtain ⟨iha, ihb⟩ := ih _ _ h
        constructor
        · intro r1 hr1 hex
          by_cases hrest : ∃ t ∈ rest, t.Id ≠ reqId ∧ t.Id = r1.Id
          · exact iha r1 hr1 hrest
          · have hin := ihb r1 hr1 hrest
            obtain ⟨t, ht, htne, hteq⟩ := hex
            rcases List.mem_cons.mp ht with hts | ht'
            · subst hts
              rcases hmem r1 hin with ⟨_, h1⟩ | h1
              · exact absurd hteq.symm h1
              · rw [h1]; exact ⟨rfl, rfl⟩
            · exact absurd ⟨t, ht', htne, hteq⟩ hrest
        · intro r1 hr1 hnex
          have hrest : ¬ ∃ t ∈ rest, t.Id ≠ reqId ∧ t.Id = r1.Id := by
            rintro ⟨t, ht, h1, h2⟩
            exact hnex ⟨t, List.mem_cons_of_mem _ ht, h1, h2⟩
          have hin := ihb r1 hr1 hrest
          rcases hmem r1 hin with ⟨h1, _⟩ | h1
          · exact h1
          · exfalso
            apply hnex
            refine ⟨s, List.mem_cons_self _ _, hne, ?_⟩
            rw [h1]
    · rename_i heq
      obtain ⟨iha, ihb⟩ := ih _ _ h
      constructor
      · intro r1 hr1 hex
        apply iha r1 hr1
        obtain ⟨t, ht, htne, hteq⟩ := hex
        rcases List.mem_cons.mp ht with hts | ht'
        · subst hts; exact absurd (not_not.mp heq) htne
        · exact ⟨t, ht', htne, hteq⟩
      · intro r1 hr1 hnex
        apply ihb r1 hr1
        rintro ⟨t, ht, h1, h2⟩
        exact hnex ⟨t, List.mem_cons_of_mem _ ht, h1, h2⟩

theorem retireCurrentLatest_ids (deps : ChartDeps) (rows : List Chart) (appId reqId : Int)
    (c : Chart) :
    (retireCurrentLatest deps rows appId reqId c).2.map (fun r => r.Id)
      = rows.map (fun r => r.Id) := by
  unfold retireCurrentLatest
  simp only []
  have hd := demoteOthers_ids deps reqId
    (ChartRepository.FindNoLatestChartForAppByAppId rows appId) rows
  rcases hdem : demoteOthers deps reqId
    (ChartRepository.FindNoLatestChartForAppByAppId rows appId) rows with ⟨e, rows1⟩
  rw [hdem] at hd
  cases e with
  | some e => exact hd
  | none =>
    simp only [] at hd ⊢
    rw [Update_ids, hd]

theorem retireCurrentLatest_latest (deps : ChartDeps) (rows : List Chart) (appId reqId : Int)
    (c : Chart) :
    ∀ r1 ∈ (retireCurrentLatest deps rows appId reqId c).2, r1.Latest = true → r1 ∈ rows := by
  intro r1 h hl
  unfold retireCurrentLatest at h
  simp only [] at h
  have hd := demoteOthers_latest deps reqId
    (ChartRepository.FindNoLatestChartForAppByAppId rows appId) rows
  rcases hdem : demoteOthers deps reqId
    (ChartRepository.FindNoLatestChartForAppByAppId rows appId) rows with ⟨e, rows1⟩
  rw [hdem] at hd h
  cases e with
  | some e => exact hd r1 h hl
  | none =>
    simp only [] at hd h
    exact hd r1 (Update_latest deps rows1 _ rfl r1 h hl) hl

/-- When the current latest chart `c` of the application has been retired
without a failed write: the row of `c` is the previous one, every other chart
of the application except the one with the request's id has both flags
cleared, and no chart of the application is latest. -/
theorem retireCurrentLatest_success (deps : ChartDeps) (rows rows1 : List Chart)
    (appId reqId : Int) (c : Chart)
    (hU : ∀ r ∈ rows, r.AppId = appId → r.Latest = true → r.Id = c.Id)
    (hret : retireCurrentLatest deps rows appId reqId c = (none, rows1)) :
    (∀ r1 ∈ rows1, r1.Id = c.Id → r1.Latest = false ∧ r1.Previous = true) ∧
    (∀ r1 ∈ rows1, r1.AppId = appId → r1.Id ≠ c.Id → r1.Id ≠ reqId →
      r1.Latest = false ∧ r1.Previous = false) ∧
    (∀ r1 ∈ rows1, r1.AppId = appId → r1.Latest = false) := by
  unfold retireCurrentLatest at hret
  simp only [] at hret
  rcases hdem : demoteOthers deps reqId
    (ChartRepository.FindNoLatestChartForAppByAppId rows appId) rows with ⟨e, rowsA⟩
  rw [hdem] at hret
  cases e with
  | some e => simp only [] at hret; cases hret
  | none =>
    simp only [] at hret
    obtain ⟨ha, hb⟩ := demoteOthers_success deps reqId _ rows rowsA hdem
    have hlatA := demoteOthers_latest deps reqId
      (ChartRepository.FindNoLatestChartForAppByAppId rows appId) rows
    rw [hdem] at hlatA
    simp only [] at hlatA
    have hmem := fun r1 => Update_mem_ok deps rowsA rows1 _ r1 hret
    have hothers : ∀ r1 ∈ rowsA, r1.AppId = appId → r1.Id ≠ c.Id → r1.Id ≠ reqId →
        r1.Latest = false ∧ r1.Previous = false := by
      intro r1 hr1 happ hnc hnr
      by_cases hex : ∃ s ∈ ChartRepository.FindNoLatestChartForAppByAppId rows appId,
          s.Id ≠ reqId ∧ s.Id = r1.Id
      · exact ha r1 hr1 hex
      · have hin := hb r1 hr1 hex
        exfalso
        apply hex
        refine ⟨r1, ?_, hnr, rfl⟩
        unfold ChartRepository.FindNoLatestChartForAppByAppId
        simp only [List.mem_filter, Bool.and_eq_true, beq_iff_eq, Bool.not_eq_true']
        refine ⟨hin, happ, ?_⟩
        cases hl : r1.Latest with
        | false => rfl
        | true => exact absurd (hU r1 hin happ hl) hnc
    refine ⟨?_, ?_, ?_⟩
    · intro r1 hr1 hid
      rcases hmem r1 hr1 with ⟨_, h1⟩ | h1
      · exact absurd hid h1
      · rw [h1]; exact ⟨rfl, rfl⟩
    · intro r1 hr1 happ hnc hnr
      rcases hmem r1 hr1 with ⟨h1, _⟩ | h1
      · exact hothers r1 h1 happ hnc hnr
      · rw [h1] at hnc; exact absurd rfl hnc
    · intro r1 hr1 happ
      rcases hmem r1 hr1 with ⟨h1, h2⟩ | h1
      · cases hl : r1.Latest with
        | false => rfl
        | true =>
          exfalso
          exact h2 (hU r1 (hlatA r1 h1 hl) happ hl)
      · rw [h1]

/-! ## The shape of the results of `Create` -/

theorem buildChart_fields (deps : ChartDeps) (charts : List Chart)
    (templateRequest : TemplateRequest) (chartName : String) (chartRepo : ChartRepo)
    (refChart templateName pipelineStrategyPath gitRepoUrl : String) (latest : Bool)
    (chart0 : Chart)
    (h : buildChart deps charts templateRequest chartName chartRepo refChart templateName
      pipelineStrategyPath gitRepoUrl latest = Except.ok chart0) :
    chart0.Id = 0 ∧ chart0.AppId = templateRequest.AppId ∧ chart0.Latest = latest ∧
    chart0.Previous = false ∧ chart0.ChartRefId = templateRequest.ChartRefId := by
  unfold buildChart at h
  split at h
  · cases h
  · split at h
    · cases h
    · simp only [] at h
      split at h
      · cases h
      · split at h
        · cases h
        · split at h
          · cases h
          · simp only [Except.ok.injEq] at h
            subst h
            exact ⟨rfl, rfl, rfl, rfl, rfl⟩

theorem finishCreate_charts (deps : ChartDeps) (db : ChartDb) (templateRequest : TemplateRequest)
    (chart : Chart) : (finishCreate deps db templateRequest chart).db.charts = db.charts := by
  unfold finishCreate
  split
  · rfl
  · simp only []
    split
    · rfl
    · split <;> rfl

theorem Save_cases (deps : ChartDeps) (rows : List Chart) (c : Chart) (hc : c.Id = 0) :
    (∃ e, ChartRepository.Save deps rows c = (some e, rows, c)) ∨
    ChartRepository.Save deps rows c =
      (none, rows ++ [{ c with Id := nextChartId rows }], { c with Id := nextChartId rows }) := by
  unfold ChartRepository.Save
  cases h : deps.chartSaveErr c with
  | some e => left; exact ⟨e, rfl⟩
  | none => right; simp [hc]

theorem saveNewLatest_cases (deps : ChartDeps) (db1 : ChartDb)
    (templateRequest : TemplateRequest) (chartName : String) (chartRepo : ChartRepo)
    (refChart templateName pipelineStrategyPath gitRepoUrl : String) (r : ChartResult)
    (hr : saveNewLatest deps db1 templateRequest chartName chartRepo refChart templateName
      pipelineStrategyPath gitRepoUrl = r) :
    (r.err ≠ none ∧ r.db.charts = db1.charts) ∨
    ∃ chart0 : Chart, chart0.AppId = templateRequest.AppId ∧ chart0.Latest = true ∧
      chart0.Previous = false ∧
      r.db.charts = db1.charts ++ [{ chart0 with Id := nextChartId db1.charts }] := by
  unfold saveNewLatest at hr
  cases hb : buildChart deps db1.charts templateRequest chartName chartRepo refChart templateName
      pipelineStrategyPath gitRepoUrl true with
  | error e => rw [hb] at hr; subst hr; left; simp
  | ok chart0 =>
    rw [hb] at hr
    simp only [] at hr
    obtain ⟨f1, f2, f3, f4, _⟩ := buildChart_fields _ _ _ _ _ _ _ _ _ _ _ hb
    rcases Save_cases deps db1.charts chart0 f1 with ⟨e, hs⟩ | hs
    · rw [hs] at hr; subst hr; left; simp
    · rw [hs] at hr
      simp only [] at hr
      subst hr
      right
      exact ⟨chart0, f2, f3, f4, by rw [finishCreate_charts]⟩

/-- The chart table after `Create`: unchanged by a call that returns before the
flags are touched; otherwise the table left by retiring the current latest
chart (completely or up to a failed write), followed, when the new chart was
saved, by the new row. -/
theorem Create_cases (deps : ChartDeps) (db : ChartDb) (templateRequest : TemplateRequest)
    (r : ChartResult) (hr : Create deps db templateRequest = r) :
    (r.err ≠ none ∧ r.db.charts = db.charts) ∨
    ((ChartRepository.FindLatestChartForAppByAppId db.charts templateRequest.AppId).1.Id > 0 ∧
      r.err ≠ none ∧
      r.db.charts = (retireCurrentLatest deps db.charts templateRequest.AppId templateRequest.Id
        (ChartRepository.FindLatestChartForAppByAppId db.charts templateRequest.AppId).1).2) ∨
    ∃ rows1,
      (((ChartRepository.FindLatestChartForAppByAppId db.charts templateRequest.AppId).1.Id > 0 ∧
          retireCurrentLatest deps db.charts templateRequest.AppId templateRequest.Id
            (ChartRepository.FindLatestChartForAppByAppId db.charts templateRequest.AppId).1
            = (none, rows1)) ∨
        (¬ (ChartRepository.FindLatestChartForAppByAppId db.charts templateRequest.AppId).1.Id > 0 ∧
          rows1 = db.charts)) ∧
      ((r.err ≠ none ∧ r.db.charts = rows1) ∨
        ∃ chart0 : Chart, chart0.AppId = templateRequest.AppId ∧ chart0.Latest = true ∧
          chart0.Previous = false ∧
          r.db.charts = rows1 ++ [{ chart0 with Id := nextChartId rows1 }]) := by
  unfold Create at hr
  cases h1 : CheckChartExists deps templateRequest.ChartRefId with
  | some e => rw [h1] at hr; subst hr; left; simp
  | none =>
    rw [h1] at hr
    simp only [] at hr
    rcases h2 : getChartMetaData deps templateRequest with ⟨chartName, e2⟩
    rw [h2] at hr
    cases e2 with
    | some e => subst hr; left; simp
    | none =>
      simp only [] at hr
      cases h3 : getChartRepo deps templateRequest with
      | error e => rw [h3] at hr; subst hr; left; simp
      | ok chartRepo =>
        rw [h3] at hr
        simp only [] at hr
        rcases h4 : getRefChart deps templateRequest with ⟨refChart, templateName, e4, ver, psp⟩
        rw [h4] at hr
        cases e4 with
        | some e => subst hr; left; simp
        | none =>
          simp only [] at hr
          by_cases hex : (ChartRepository.FindChartByAppIdAndRefId db.charts templateRequest.AppId
              templateRequest.ChartRefId).1.Id > 0
          · rw [if_pos hex] at hr; subst hr; left; simp
          · rw [if_neg hex] at hr
            split at hr
            · rename_i hfault
              subst hr
              left
              refine ⟨?_, rfl⟩
              intro h0
              simp only [] at h0
              rw [h0] at hfault
              simp at hfault
            · by_cases hpos : (ChartRepository.FindLatestChartForAppByAppId db.charts
                  templateRequest.AppId).1.Id > 0
              · rw [if_pos hpos] at hr
                rcases hret : retireCurrentLatest deps db.charts templateRequest.AppId
                  templateRequest.Id (ChartRepository.FindLatestChartForAppByAppId db.charts
                    templateRequest.AppId).1 with ⟨e5, rows1⟩
                rw [hret] at hr
                cases e5 with
                | some e =>
                  simp only [] at hr
                  subst hr
                  right; left
                  exact ⟨hpos, by simp, rfl⟩
                | none =>
                  simp only [] at hr
                  right; right
                  refine ⟨rows1, Or.inl ⟨hpos, rfl⟩, ?_⟩
                  exact saveNewLatest_cases deps _ _ _ _ _ _ _ _ r hr
              · rw [if_neg hpos] at hr
                simp only [] at hr
                right; right
                refine ⟨db.charts, Or.inr ⟨hpos, rfl⟩, ?_⟩
                exact saveNewLatest_cases deps _ _ _ _ _ _ _ _ r hr

/-! ## Reassignment of `Latest` and `Previous` by `Create` (C8) -/

theorem FindLatest_unique (charts : List Chart) (appId : Int) (c : Chart)
    (hc : c ∈ charts) (hcapp : c.AppId = appId) (hclat : c.Latest = true)
    (huniq : ∀ r ∈ charts, r.AppId = appId → r.Latest = true → r = c) :
    ChartRepository.FindLatestChartForAppByAppId charts appId = (c, none) := by
  unfold ChartRepository.FindLatestChartForAppByAppId
  split
  · rename_i x hx
    have hmem := List.mem_of_find?_eq_some hx
    have hp := List.find?_some hx
    simp only [Bool.and_eq_true, beq_iff_eq] at hp
    rw [huniq x hmem hp.1 hp.2]
  · rename_i hnone
    have := List.find?_eq_none.mp hnone c hc
    simp [hcapp, hclat] at this

/-- C8, counterexample. Application 7 has chart 1 (`Previous = true`) and chart 2
(`Latest = true`). A `Create` whose request carries `Id = 1` succeeds and
inserts chart 3, and afterwards chart 1, which is neither the replaced latest
chart nor the new one, still has `Previous = true`. -/
theorem Create_keeps_flags_of_request_id :
    (Create {} twoVersions { AppId := 7, ChartRefId := 12, Id := 1 }).err = none ∧
    (Create {} twoVersions { AppId := 7, ChartRefId := 12, Id := 1 }).db.charts.map
        (fun c => (c.Id, c.AppId, c.Latest, c.Previous)) =
      [(1, 7, false, true), (2, 7, false, true), (3, 7, true, false)] := by
  decide

/-- C8, amended. For every application whose current latest chart is `c`, a
successful `Create` leaves the table with: the row of `c` having
`Latest = false` and `Previous = true`; one new row, appended, having
`Latest = true` and `Previous = false`; and every other chart row of that
application, except the row whose id equals the `Id` field of the request,
having `Latest = false` and `Previous = false`. -/
theorem Create_reassigns_latest_and_previous (deps : ChartDeps) (db : ChartDb)
    (templateRequest : TemplateRequest) (c : Chart)
    (hc : c ∈ db.charts) (hcapp : c.AppId = templateRequest.AppId) (hclat : c.Latest = true)
    (hcpos : 0 < c.Id)
    (huniq : ∀ r ∈ db.charts, r.AppId = templateRequest.AppId → r.Latest = true → r = c)
    (hok : (Create deps db templateRequest).err = none) :
    ∃ (rows1 : List Chart) (new : Chart),
      (Create deps db templateRequest).db.charts = rows1 ++ [new] ∧
      rows1.map (fun r => r.Id) = db.charts.map (fun r => r.Id) ∧
      new.AppId = templateRequest.AppId ∧ new.Latest = true ∧ new.Previous = false ∧
      (∀ r ∈ rows1, r.Id = c.Id → r.Latest = false ∧ r.Previous = true) ∧
      (∀ r ∈ rows1, r.AppId = templateRequest.AppId → r.Id ≠ c.Id →
        r.Id ≠ templateRequest.Id → r.Latest = false ∧ r.Previous = false) := by
  have hfind := FindLatest_unique db.charts templateRequest.AppId c hc hcapp hclat huniq
  rcases Create_cases deps db templateRequest _ rfl with ⟨he, _⟩ | ⟨_, he, _⟩ |
      ⟨rows1, hret, hres⟩
  · exact absurd hok he
  · exact absurd hok he
  · rw [hfind] at hret
    rcases hret with ⟨_, hret⟩ | ⟨hneg, _⟩
    · rcases hres with ⟨he, _⟩ | ⟨chart0, f1, f2, f3, hch⟩
      · exact absurd hok he
      · have hU : ∀ r ∈ db.charts, r.AppId = templateRequest.AppId → r.Latest = true →
            r.Id = c.Id := fun r hr h1 h2 => by rw [huniq r hr h1 h2]
        obtain ⟨s1, s2, _⟩ := retireCurrentLatest_success deps db.charts rows1
          templateRequest.AppId templateRequest.Id c hU hret
        have hids := retireCurrentLatest_ids deps db.charts templateRequest.AppId
          templateRequest.Id c
        rw [hret] at hids
        exact ⟨rows1, _, hch, hids, f1, f2, f3, s1, s2⟩
    · exact absurd hcpos hneg

/-- Witness for the amended C8: application 7 of `twoVersions`, whose latest chart
is chart 2, gets a third version. -/
theorem Create_reassigns_latest_and_previous_witness :
    (Create {} twoVersions { AppId := 7, ChartRefId := 12 }).err = none ∧
    ∃ (rows1 : List Chart) (new : Chart),
      (Create {} twoVersions { AppId := 7, ChartRefId := 12 }).db.charts = rows1 ++ [new] ∧
      rows1.map (fun r => r.Id) = twoVersions.charts.map (fun r => r.Id) ∧
      new.AppId = 7 ∧ new.Latest = true ∧ new.Previous = false ∧
      (∀ r ∈ rows1, r.Id = 2 → r.Latest = false ∧ r.Previous = true) ∧
      (∀ r ∈ rows1, r.AppId = 7 → r.Id ≠ 2 → r.Id ≠ 0 →
        r.Latest = false ∧ r.Previous = false) :=
  ⟨by decide,
   Create_reassigns_latest_and_previous {} twoVersions { AppId := 7, ChartRefId := 12 }
     { Id := 2, AppId := 7, ChartRefId := 11, ChartName := "app", ChartRepo := "repo",
       ChartVersion := "1.2.2", Latest := true }
     (by decide) (by decide) (by decide) (by decide) (by decide) (by decide)⟩

/-! ## At most one latest chart per application (C7) -/

/-- C7, counterexample. (a) Application 7 has exactly one latest chart; a `Create`
for it that fails after the flags were reassigned (the reference chart's
version is malformed) leaves the application with chart rows none of which is
latest. (b) Applications 7 and 8 have one latest chart each; an
`UpdateAppOverride` on chart 2 of application 8 whose request names
application 7 leaves application 8 with two latest charts. (c) On the empty
table, a successful `CreateChartFromEnvOverride` for application 7 leaves the
application with one chart row, which is not latest. -/
theorem latest_exactly_one_broken :
    (latestCount twoVersions.charts 7 = 1 ∧
     (Create malformedVersion twoVersions { AppId := 7, ChartRefId := 12 }).err ≠ none ∧
     (Create malformedVersion twoVersions { AppId := 7, ChartRefId := 12 }).db.charts.map
        (fun c => (c.Id, c.AppId, c.Latest)) = [(1, 7, false), (2, 7, false)] ∧
     latestCount (Create malformedVersion twoVersions { AppId := 7, ChartRefId := 12 }).db.charts 7
        = 0) ∧
    (latestCount twoApps.charts 7 = 1 ∧ latestCount twoApps.charts 8 = 1 ∧
     (UpdateAppOverride {} twoApps { Id := 2, AppId := 7 }).db.charts.map
        (fun c => (c.Id, c.AppId, c.Latest)) = [(1, 7, false), (2, 8, true), (3, 8, true)] ∧
     latestCount (UpdateAppOverride {} twoApps { Id := 2, AppId := 7 }).db.charts 8 = 2) ∧
    ((CreateChartFromEnvOverride {} {} { AppId := 7, ChartRefId := 12 }).err = none ∧
     (CreateChartFromEnvOverride {} {} { AppId := 7, ChartRefId := 12 }).db.charts.map
        (fun c => (c.Id, c.AppId, c.Latest)) = [(1, 7, false)] ∧
     latestCount (CreateChartFromEnvOverride {} {} { AppId := 7, ChartRefId := 12 }).db.charts 7
        = 0) := by
  decide

theorem foldl_max_ge (l : List Int) : ∀ (init : Int),
    init ≤ l.foldl max init ∧ ∀ x ∈ l, x ≤ l.foldl max init := by
  induction l with
  | nil => intro init; exact ⟨le_refl _, fun x hx => by cases hx⟩
  | cons y ys ih =>
    intro init
    rw [List.foldl_cons]
    obtain ⟨h1, h2⟩ := ih (max init y)
    refine ⟨le_trans (le_max_left _ _) h1, ?_⟩
    intro x hx
    rcases List.mem_cons.mp hx with rfl | hm
    · exact le_trans (le_max_right _ _) h1
    · exact h2 x hm

theorem nextChartId_fresh (rows : List Chart) :
    0 < nextChartId rows ∧ ∀ r ∈ rows, r.Id < nextChartId rows := by
  unfold nextChartId
  obtain ⟨h1, h2⟩ := foldl_max_ge (rows.map (fun r => r.Id)) 0
  refine ⟨by omega, ?_⟩
  intro r hr
  have := h2 r.Id (List.mem_map_of_mem _ hr)
  omega

theorem length_le_one_eq {α : Type} (l : List α) (h : l.length ≤ 1) (a b : α)
    (ha : a ∈ l) (hb : b ∈ l) : a = b := by
  match l, h with
  | [], _ => cases ha
  | [x], _ =>
    rw [List.mem_singleton] at ha hb
    rw [ha, hb]
  | _ :: _ :: _, h => simp at h

/-- At most one latest row per application gives the working invariant. -/
theorem ChartInv_of_count (rows : List Chart)
    (hnodup : (rows.map (fun r => r.Id)).Nodup) (hpos : ∀ c ∈ rows, 0 < c.Id)
    (hcount : ∀ appId, latestCount rows appId ≤ 1) : ChartInv rows := by
  refine ⟨hnodup, hpos, ?_⟩
  intro a ha b hb hab hla hlb
  have hmem : ∀ x ∈ rows, x.AppId = a.AppId → x.Latest = true →
      x ∈ rows.filter (fun c => c.AppId == a.AppId && c.Latest) := by
    intro x hx h1 h2
    simp only [List.mem_filter, Bool.and_eq_true, beq_iff_eq]
    exact ⟨hx, h1, h2⟩
  rw [length_le_one_eq _ (hcount a.AppId) a b (hmem a ha rfl hla) (hmem b hb hab.symm hlb)]

/-- The working invariant gives at most one latest row per application. -/
theorem count_of_ChartInv (rows : List Chart) (h : ChartInv rows) :
    ∀ appId, latestCount rows appId ≤ 1 := by
  intro appId
  obtain ⟨hnodup, _, hU⟩ := h
  unfold latestCount
  have hsub : (rows.filter (fun c => c.AppId == appId && c.Latest)).Sublist rows :=
    List.filter_sublist rows
  have hnd : ((rows.filter (fun c => c.AppId == appId && c.Latest)).map (fun r => r.Id)).Nodup :=
    (hsub.map _).nodup hnodup
  match hf : rows.filter (fun c => c.AppId == appId && c.Latest) with
  | [] => rw [hf]; simp
  | [x] => rw [hf]; simp
  | x :: y :: rest =>
    exfalso
    rw [hf] at hnd
    have hx : x ∈ rows.filter (fun c => c.AppId == appId && c.Latest) := by rw [hf]; simp
    have hy : y ∈ rows.filter (fun c => c.AppId == appId && c.Latest) := by rw [hf]; simp
    simp only [List.mem_filter, Bool.and_eq_true, beq_iff_eq] at hx hy
    have hid := hU x hx.1 y hy.1 (by rw [hx.2.1, hy.2.1]) hx.2.2 hy.2.2
    simp only [List.map_cons, List.nodup_cons, List.mem_cons] at hnd
    exact hnd.1 (Or.inl hid)

/-- A table with the same keys whose latest rows are rows of the old table
satisfies the invariant when the old table does. -/
theorem ChartInv_of_latest_subset (rows rows1 : List Chart) (h : ChartInv rows)
    (hids : rows1.map (fun r => r.Id) = rows.map (fun r => r.Id))
    (hlat : ∀ r ∈ rows1, r.Latest = true → r ∈ rows) : ChartInv rows1 := by
  obtain ⟨hnodup, hpos, hU⟩ := h
  refine ⟨by rw [hids]; exact hnodup, ?_, ?_⟩
  · intro c hc
    have : c.Id ∈ rows.map (fun r => r.Id) := by
      rw [← hids]; exact List.mem_map_of_mem _ hc
    obtain ⟨r, hr, hrid⟩ := List.mem_map.mp this
    rw [← hrid]
    exact hpos r hr
  · intro a ha b hb hab hla hlb
    exact hU a (hlat a ha hla) b (hlat b hb hlb) hab hla hlb

/-- Appending a row with a fresh key keeps the invariant when the row is not
latest, or when no row of its application is latest. -/
theorem ChartInv_append (rows : List Chart) (new : Chart) (h : ChartInv rows)
    (hid : new.Id = nextChartId rows)
    (hlat : new.Latest = true → ∀ r ∈ rows, r.AppId = new.AppId → r.Latest = false) :
    ChartInv (rows ++ [new]) := by
  obtain ⟨hnodup, hpos, hU⟩ := h
  obtain ⟨hf1, hf2⟩ := nextChartId_fresh rows
  refine ⟨?_, ?_, ?_⟩
  · rw [List.map_append, List.map_cons, List.map_nil]
    apply List.Nodup.append hnodup (List.nodup_singleton _)
    intro x hx1 hx2
    rw [List.mem_singleton] at hx2
    obtain ⟨r, hr, hrid⟩ := List.mem_map.mp hx1
    have := hf2 r hr
    omega
  · intro c hc
    rcases List.mem_append.mp hc with h1 | h1
    · exact hpos c h1
    · rw [List.mem_singleton] at h1
      rw [h1, hid]; exact hf1
  · intro a ha b hb hab hla hlb
    rcases List.mem_append.mp ha with h1 | h1 <;> rcases List.mem_append.mp hb with h2 | h2
    · exact hU a h1 b h2 hab hla hlb
    · rw [List.mem_singleton] at h2
      subst h2
      have := hlat hlb a h1 hab
      rw [this] at hla; cases hla
    · rw [List.mem_singleton] at h1
      subst h1
      have := hlat hla b h2 hab.symm
      rw [this] at hlb; cases hlb
    · rw [List.mem_singleton] at h1 h2
      rw [h1, h2]

/-- Writing a latest row keeps the invariant when every latest row of its
application already has its key. -/
theorem ChartInv_Update_latest (deps : ChartDeps) (rows : List Chart) (t : Chart)
    (h : ChartInv rows)
    (hothers : ∀ r ∈ rows, r.AppId = t.AppId → r.Latest = true → r.Id = t.Id) :
    ChartInv (ChartRepository.Update deps rows t).2 := by
  obtain ⟨hnodup, hpos, hU⟩ := h
  have hids := Update_ids deps rows t
  refine ⟨by rw [hids]; exact hnodup, ?_, ?_⟩
  · intro c hc
    have : c.Id ∈ rows.map (fun r => r.Id) := by
      rw [← hids]; exact List.mem_map_of_mem _ hc
    obtain ⟨r, hr, hrid⟩ := List.mem_map.mp this
    rw [← hrid]
    exact hpos r hr
  · intro a ha b hb hab hla hlb
    rcases Update_mem deps rows t a ha with h1 | ⟨h1, _⟩ <;>
      rcases Update_mem deps rows t b hb with h2 | ⟨h2, _⟩
    · exact hU a h1 b h2 hab hla hlb
    · rw [h2] at hab ⊢
      exact hothers a h1 hab hla
    · rw [h1] at hab ⊢
      exact (hothers b h2 hab.symm hlb).symm
    · rw [h1, h2]

theorem FindLatest_cases (charts : List Chart) (appId : Int) :
    (∃ c ∈ charts, c.AppId = appId ∧ c.Latest = true ∧
      ChartRepository.FindLatestChartForAppByAppId charts appId = (c, none)) ∨
    ((∀ r ∈ charts, r.AppId = appId → r.Latest = false) ∧
      ChartRepository.FindLatestChartForAppByAppId charts appId = ({}, some GoError.ErrNoRows)) := by
  unfold ChartRepository.FindLatestChartForAppByAppId
  cases hf : charts.find? (fun c => c.AppId == appId && c.Latest) with
  | some c =>
    left
    have hp := List.find?_some hf
    simp only [Bool.and_eq_true, beq_iff_eq] at hp
    exact ⟨c, List.mem_of_find?_eq_some hf, hp.1, hp.2, rfl⟩
  | none =>
    right
    refine ⟨?_, rfl⟩
    intro r hr happ
    have := List.find?_eq_none.mp hf r hr
    simp only [Bool.and_eq_true, beq_iff_eq, not_and, Bool.not_eq_true] at this
    exact this happ

theorem FindById_some (charts : List Chart) (id : Int) (t : Chart)
    (h : ChartRepository.FindById charts id = (t, none)) : t ∈ charts ∧ t.Id = id := by
  unfold ChartRepository.FindById at h
  cases hf : charts.find? (fun c => c.Id == id) with
  | some c =>
    rw [hf] at h
    simp only [Prod.mk.injEq, and_true] at h
    subst h
    have hp := List.find?_some hf
    simp only [beq_iff_eq] at hp
    exact ⟨List.mem_of_find?_eq_some hf, hp⟩
  | none => rw [hf] at h; simp at h

theorem CreateChartFromEnvOverride_cases (deps : ChartDeps) (db : ChartDb)
    (templateRequest : TemplateRequest) (r : ChartResult)
    (hr : CreateChartFromEnvOverride deps db templateRequest = r) :
    r.db.charts = db.charts ∨
    ∃ chart0 : Chart, chart0.Latest = false ∧
      r.db.charts = db.charts ++ [{ chart0 with Id := nextChartId db.charts }] := by
  unfold CreateChartFromEnvOverride at hr
  cases h1 : CheckChartExists deps templateRequest.ChartRefId with
  | some e => rw [h1] at hr; subst hr; left; rfl
  | none =>
    rw [h1] at hr
    simp only [] at hr
    rcases h2 : getChartMetaData deps templateRequest with ⟨chartName, e2⟩
    rw [h2] at hr
    cases e2 with
    | some e => subst hr; left; rfl
    | none =>
      simp only [] at hr
      cases h3 : getChartRepo deps templateRequest with
      | error e => rw [h3] at hr; subst hr; left; rfl
      | ok chartRepo =>
        rw [h3] at hr
        simp only [] at hr
        rcases h4 : getRefChart deps templateRequest with ⟨refChart, templateName, e4, ver, psp⟩
        rw [h4] at hr
        cases e4 with
        | some e => subst hr; left; rfl
        | none =>
          simp only [] at hr
          cases hb : buildChart deps db.charts templateRequest chartName chartRepo refChart
              templateName psp
              (if (ChartRepository.FindLatestChartForAppByAppId db.charts
                  templateRequest.AppId).1.Id > 0
                then (ChartRepository.FindLatestChartForAppByAppId db.charts
                  templateRequest.AppId).1.GitRepoUrl else "") false with
          | error e => rw [hb] at hr; subst hr; left; rfl
          | ok chart0 =>
            rw [hb] at hr
            simp only [] at hr
            obtain ⟨f1, _, f3, _, _⟩ := buildChart_fields _ _ _ _ _ _ _ _ _ _ _ hb
            rcases Save_cases deps db.charts chart0 f1 with ⟨e, hs⟩ | hs
            · rw [hs] at hr; subst hr; left; rfl
            · rw [hs] at hr
              simp only [] at hr
              right
              refine ⟨chart0, f3, ?_⟩
              subst hr
              repeat (first | rfl | split)

theorem finishUpdate_charts (deps : ChartDeps) (db : ChartDb) (templateRequest : TemplateRequest)
    (template : Chart) : (finishUpdate deps db templateRequest template).db.charts = db.charts := by
  unfold finishUpdate
  dsimp only
  generalize updateAppLevelMetrics deps db.appLevelMetrics _ = u
  rcases u with ⟨m, e, rows⟩
  cases e with
  | some e => rfl
  | none =>
    dsimp only
    generalize CreateDeploymentTemplateHistoryFromGlobalTemplate deps db.history template
      templateRequest.IsAppMetricsEnabled = v
    rcases v with ⟨e2, history1⟩
    cases e2 with
    | some e => rfl
    | none =>
      dsimp only
      cases extractAndMapVariables deps template.GlobalOverride template.Id
        template.Audit.CreatedBy <;> rfl

theorem writeAsLatest_cases (deps : ChartDeps) (db1 : ChartDb)
    (templateRequest : TemplateRequest) (template : Chart) (r : ChartResult)
    (hr : writeAsLatest deps db1 templateRequest template = r) :
    r.db.charts = db1.charts ∨
    ∃ t1 : Chart, t1.Id = template.Id ∧ t1.AppId = template.AppId ∧
      r.db.charts = (ChartRepository.Update deps db1.charts t1).2 := by
  unfold writeAsLatest at hr
  cases hj : deps.JsonPatch template.Values templateRequest.ValuesOverride with
  | error e => rw [hj] at hr; subst hr; left; rfl
  | ok values =>
    rw [hj] at hr
    simp only [] at hr
    right
    refine ⟨{ template with
        Values := values,
        Audit := { template.Audit with UpdatedOn := deps.now, UpdatedBy := templateRequest.UserId },
        GlobalOverride := templateRequest.ValuesOverride,
        Latest := true, Previous := false,
        IsBasicViewLocked := templateRequest.IsBasicViewLocked,
        CurrentViewEditor := templateRequest.CurrentViewEditor }, rfl, rfl, ?_⟩
    rcases hu : ChartRepository.Update deps db1.charts
      { template with
        Values := values,
        Audit := { template.Audit with UpdatedOn := deps.now, UpdatedBy := templateRequest.UserId },
        GlobalOverride := templateRequest.ValuesOverride,
        Latest := true, Previous := false,
        IsBasicViewLocked := templateRequest.IsBasicViewLocked,
        CurrentViewEditor := templateRequest.CurrentViewEditor } with ⟨e3, charts2⟩
    rw [hu] at hr
    cases e3 with
    | some e => subst hr; rfl
    | none =>
      simp only [] at hr
      subst hr
      rw [finishUpdate_charts]

/-- The chart table after `UpdateAppOverride`: unchanged, or the table left by
retiring the current latest chart, or that table (or the unchanged one, when
the chart updated is the current latest) with the updated chart written as
latest. -/
theorem UpdateAppOverride_cases (deps : ChartDeps) (db : ChartDb)
    (templateRequest : TemplateRequest) (r : ChartResult)
    (hr : UpdateAppOverride deps db templateRequest = r) :
    r.db.charts = db.charts ∨
    ∃ c template : Chart,
      ChartRepository.FindLatestChartForAppByAppId db.charts templateRequest.AppId = (c, none) ∧
      ChartRepository.FindById db.charts templateRequest.Id = (template, none) ∧
      ((c.Id ≠ templateRequest.Id ∧
          r.db.charts = (retireCurrentLatest deps db.charts templateRequest.AppId
            templateRequest.Id c).2) ∨
        ∃ (rows1 : List Chart) (t1 : Chart),
          ((c.Id = templateRequest.Id ∧ rows1 = db.charts) ∨
            (c.Id ≠ templateRequest.Id ∧
              retireCurrentLatest deps db.charts templateRequest.AppId templateRequest.Id c
                = (none, rows1))) ∧
          t1.Id = template.Id ∧ t1.AppId = template.AppId ∧
          r.db.charts = (ChartRepository.Update deps rows1 t1).2) := by
  unfold UpdateAppOverride at hr
  rcases h1 : ChartRepository.FindById db.charts templateRequest.Id with ⟨template, e1⟩
  rw [h1] at hr
  cases e1 with
  | some e => subst hr; left; rfl
  | none =>
    simp only [] at hr
    rcases h2 : ChartRepository.FindLatestChartForAppByAppId db.charts templateRequest.AppId
      with ⟨c, e2⟩
    rw [h2] at hr
    cases e2 with
    | some e => subst hr; left; rfl
    | none =>
      simp only [] at hr
      by_cases hsame : (decide (c.Id > 0) && c.Id == templateRequest.Id) = true
      · rw [if_pos hsame] at hr
        simp only [] at hr
        simp only [Bool.and_eq_true, decide_eq_true_eq, beq_iff_eq] at hsame
        rcases writeAsLatest_cases deps _ _ _ r hr with h | ⟨t1, ht1, ht2, ht3⟩
        · left; exact h
        · right
          exact ⟨c, template, rfl, rfl, Or.inr ⟨db.charts, t1, Or.inl ⟨hsame.2, rfl⟩, ht1, ht2, ht3⟩⟩
      · rw [if_neg hsame] at hr
        by_cases hne : c.Id ≠ templateRequest.Id
        · rw [if_pos hne] at hr
          rcases hret : retireCurrentLatest deps db.charts templateRequest.AppId
            templateRequest.Id c with ⟨e5, rows1⟩
          rw [hret] at hr
          cases e5 with
          | some e =>
            simp only [] at hr
            subst hr
            right
            exact ⟨c, template, rfl, rfl, Or.inl ⟨hne, by rw [hret]⟩⟩
          | none =>
            simp only [] at hr
            right
            rcases writeAsLatest_cases deps _ _ _ r hr with h | ⟨t1, ht1, ht2, ht3⟩
            · exact ⟨c, template, rfl, rfl, Or.inl ⟨hne, by rw [hret]; exact h⟩⟩
            · exact ⟨c, template, rfl, rfl,
                Or.inr ⟨rows1, t1, Or.inr ⟨hne, hret⟩, ht1, ht2, ht3⟩⟩
        · rw [if_neg hne] at hr
          simp only [] at hr
          subst hr
          left; rfl

/-! ## The invariant is kept by every call -/

theorem ChartInv_retireCurrentLatest (deps : ChartDeps) (rows : List Chart) (appId reqId : Int)
    (c : Chart) (h : ChartInv rows) :
    ChartInv (retireCurrentLatest deps rows appId reqId c).2 :=
  ChartInv_of_latest_subset rows _ h (retireCurrentLatest_ids deps rows appId reqId c)
    (retireCurrentLatest_latest deps rows appId reqId c)

/-- Under the invariant every latest row of the application has the key of the
chart that `FindLatestChartForAppByAppId` returns. -/
theorem FindLatest_key (rows : List Chart) (appId : Int) (h : ChartInv rows) :
    ∀ r ∈ rows, r.AppId = appId → r.Latest = true →
      r.Id = (ChartRepository.FindLatestChartForAppByAppId rows appId).1.Id := by
  intro r hr hra hrl
  rcases FindLatest_cases rows appId with ⟨c, hc, ha, hl, hf⟩ | ⟨hn, _⟩
  · rw [hf]
    exact h.2.2 r hr c hc (hra.trans ha.symm) hrl hl
  · rw [hn r hr hra] at hrl
    cases hrl

/-- Under the invariant, when `FindLatestChartForAppByAppId` returns a chart
without a positive key the application has no latest row. -/
theorem FindLatest_no_key (rows : List Chart) (appId : Int) (h : ChartInv rows)
    (hc : ¬ (ChartRepository.FindLatestChartForAppByAppId rows appId).1.Id > 0) :
    ∀ r ∈ rows, r.AppId = appId → r.Latest = false := by
  rcases FindLatest_cases rows appId with ⟨c, hcm, _, _, hf⟩ | ⟨hn, _⟩
  · rw [hf] at hc
    exact absurd (h.2.1 c hcm) hc
  · exact hn

theorem Create_ChartInv (deps : ChartDeps) (db : ChartDb) (templateRequest : TemplateRequest)
    (h : ChartInv db.charts) : ChartInv (Create deps db templateRequest).db.charts := by
  rcases Create_cases deps db templateRequest _ rfl with ⟨_, hu⟩ | ⟨_, _, hu⟩ |
      ⟨rows1, hret, hres⟩
  · rw [hu]; exact h
  · rw [hu]; exact ChartInv_retireCurrentLatest deps _ _ _ _ h
  · have hinv1 : ChartInv rows1 := by
      rcases hret with ⟨_, hret⟩ | ⟨_, hret⟩
      · have := ChartInv_retireCurrentLatest deps db.charts templateRequest.AppId
          templateRequest.Id
          (ChartRepository.FindLatestChartForAppByAppId db.charts templateRequest.AppId).1 h
        rw [hret] at this
        exact this
      · rw [hret]; exact h
    have hnone : ∀ r ∈ rows1, r.AppId = templateRequest.AppId → r.Latest = false := by
      rcases hret with ⟨_, hret⟩ | ⟨hneg, hret⟩
      · exact (retireCurrentLatest_success deps db.charts rows1 templateRequest.AppId
          templateRequest.Id _ (FindLatest_key db.charts templateRequest.AppId h) hret).2.2
      · rw [hret]
        exact FindLatest_no_key db.charts templateRequest.AppId h hneg
    rcases hres with ⟨_, hu⟩ | ⟨chart0, f1, _, _, hu⟩
    · rw [hu]; exact hinv1
    · rw [hu]
      refine ChartInv_append rows1 _ hinv1 rfl ?_
      intro _ r hr hra
      exact hnone r hr (hra.trans f1)

theorem CreateChartFromEnvOverride_ChartInv (deps : ChartDeps) (db : ChartDb)
    (templateRequest : TemplateRequest) (h : ChartInv db.charts) :
    ChartInv (CreateChartFromEnvOverride deps db templateRequest).db.charts := by
  rcases CreateChartFromEnvOverride_cases deps db templateRequest _ rfl with hu |
      ⟨chart0, f1, hu⟩
  · rw [hu]; exact h
  · rw [hu]
    refine ChartInv_append db.charts _ h rfl ?_
    intro hl
    have hl2 : chart0.Latest = true := hl
    rw [f1] at hl2
    cases hl2

theorem UpdateAppOverride_ChartInv (deps : ChartDeps) (db : ChartDb)
    (templateRequest : TemplateRequest) (h : ChartInv db.charts)
    (hcons : ∀ c ∈ db.charts, c.Id = templateRequest.Id → c.AppId = templateRequest.AppId) :
    ChartInv (UpdateAppOverride deps db templateRequest).db.charts := by
  rcases UpdateAppOverride_cases deps db templateRequest _ rfl with hu |
      ⟨c, template, hfl, hfi, hrest⟩
  · rw [hu]; exact h
  · obtain ⟨htm, htid⟩ := FindById_some db.charts templateRequest.Id template hfi
    have htapp : template.AppId = templateRequest.AppId := hcons template htm htid
    have hkey := FindLatest_key db.charts templateRequest.AppId h
    rw [hfl] at hkey
    rcases hrest with ⟨_, hu⟩ | ⟨rows1, t1, hrows, ht1, ht2, hu⟩
    · rw [hu]; exact ChartInv_retireCurrentLatest deps _ _ _ _ h
    · rw [hu]
      rcases hrows with ⟨hsame, hrows⟩ | ⟨_, hret⟩
      · rw [hrows]
        refine ChartInv_Update_latest deps db.charts t1 h ?_
        intro r hr hra hrl
        rw [ht1, htid, ← hsame]
        exact hkey r hr (hra.trans (ht2.trans htapp)) hrl
      · have hinv1 := ChartInv_retireCurrentLatest deps db.charts templateRequest.AppId
          templateRequest.Id c h
        rw [hret] at hinv1
        refine ChartInv_Update_latest deps rows1 t1 hinv1 ?_
        intro r hr hra hrl
        have := (retireCurrentLatest_success deps db.charts rows1 templateRequest.AppId
          templateRequest.Id c hkey hret).2.2 r hr (hra.trans (ht2.trans htapp))
        rw [this] at hrl
        cases hrl

theorem ChartOp_run_ChartInv (op : ChartOp) (db : ChartDb) (h : ChartInv db.charts)
    (hc : op.consistent db = true) : ChartInv (op.run db).charts := by
  cases op with
  | create deps templateRequest => exact Create_ChartInv deps db templateRequest h
  | createChartFromEnvOverride deps templateRequest =>
    exact CreateChartFromEnvOverride_ChartInv deps db templateRequest h
  | updateAppOverride deps templateRequest =>
    refine UpdateAppOverride_ChartInv deps db templateRequest h ?_
    intro c hcm hid
    simp only [ChartOp.consistent, List.all_eq_true, Bool.or_eq_true, bne_iff_ne, ne_eq,
      beq_iff_eq] at hc
    rcases hc c hcm with hne | heq
    · exact absurd hid hne
    · exact heq

theorem runOps_ChartInv : ∀ (ops : List ChartOp) (db : ChartDb), ChartInv db.charts →
    consistentOps ops db = true → ChartInv (runOps ops db).charts := by
  intro ops
  induction ops with
  | nil => intro db h _; exact h
  | cons op rest ih =>
    intro db h hc
    simp only [consistentOps, Bool.and_eq_true] at hc
    exact ih (op.run db) (ChartOp_run_ChartInv op db h hc.1) hc.2

/-- C7, amended. Starting from any chart table whose rows have distinct positive
ids and in which every application has at most one row with `Latest = true`,
after any serialized sequence of `Create`, `UpdateAppOverride` and
`CreateChartFromEnvOverride` calls (whatever each call returns) in which the
request of every `UpdateAppOverride` call names, in `AppId`, the application
that owns the chart named by its `Id`, every application has at most one row
with `Latest = true`. -/
theorem latest_at_most_one_preserved (ops : List ChartOp) (db : ChartDb)
    (hnodup : (db.charts.map (fun r => r.Id)).Nodup) (hpos : ∀ c ∈ db.charts, 0 < c.Id)
    (hinv : ∀ appId, latestCount db.charts appId ≤ 1)
    (hcons : consistentOps ops db = true) :
    ∀ appId, latestCount (runOps ops db).charts appId ≤ 1 :=
  count_of_ChartInv _
    (runOps_ChartInv ops db (ChartInv_of_count db.charts hnodup hpos hinv) hcons)

/-- Witness for the amended C7: the four calls of `fourCalls` on `twoApps`, the
last of which fails. -/
theorem latest_at_most_one_preserved_witness :
    (twoApps.charts.map (fun r => r.Id)).Nodup ∧ (∀ c ∈ twoApps.charts, 0 < c.Id) ∧
    (∀ appId, latestCount twoApps.charts appId ≤ 1) ∧
    consistentOps fourCalls twoApps = true ∧
    (runOps fourCalls twoApps).charts.map (fun c => (c.Id, c.AppId, c.Latest)) =
      [(1, 7, false), (2, 8, true), (3, 8, false), (4, 8, false), (5, 9, false)] ∧
    ∀ appId, latestCount (runOps fourCalls twoApps).charts appId ≤ 1 :=
  have hinv : ∀ appId, latestCount twoApps.charts appId ≤ 1 :=
    count_of_ChartInv twoApps.charts (by unfold ChartInv; decide)
  ⟨by decide, by decide, hinv, by decide, by decide,
   latest_at_most_one_preserved fourCalls twoApps (by decide) (by decide) hinv (by decide)⟩

/-! ## Atomic bulk insert (C11) -/

theorem saveAllTx_fails (deps : WebhookDeps) (a : CiArtifact) (post : List CiArtifact)
    (e : GoError) (ha : deps.insertErr a = some e) :
    ∀ (pre rows : List CiArtifact), (∀ x ∈ pre, deps.insertErr x = none) →
      saveAllTx deps (pre ++ a :: post) rows = Except.error e := by
  intro pre
  induction pre with
  | nil =>
    intro rows _
    simp only [List.nil_append, saveAllTx, insertArtifact, ha]
  | cons x rest ih =>
    intro rows hpre
    have hx : deps.insertErr x = none := hpre x (List.mem_cons_self _ _)
    have hrest := ih (rows ++ [if x.Id = 0 then { x with Id := nextArtifactId rows } else x])
      (fun y hy => hpre y (List.mem_cons_of_mem _ hy))
    rw [List.cons_append, saveAllTx]
    simp only [insertArtifact, hx]
    rw [hrest]

theorem saveAllTx_succeeds (deps : WebhookDeps) :
    ∀ (arts rows : List CiArtifact), (∀ x ∈ arts, deps.insertErr x = none) →
      ∃ res, saveAllTx deps arts rows = Except.ok res := by
  intro arts
  induction arts with
  | nil => intro rows _; exact ⟨_, rfl⟩
  | cons x rest ih =>
    intro rows hall
    have hx : deps.insertErr x = none := hall x (List.mem_cons_self _ _)
    obtain ⟨res, hres⟩ := ih (rows ++ [if x.Id = 0 then { x with Id := nextArtifactId rows } else x])
      (fun y hy => hall y (List.mem_cons_of_mem _ hy))
    rw [saveAllTx]
    simp only [insertArtifact, hx]
    rw [hres]
    exact ⟨_, rfl⟩

/-- C11. `SaveAll` is atomic. If the insert at some position of the batch fails
(the inserts before it having succeeded), `SaveAll` returns that error and the
store afterwards equals the store before the call. If no insert fails,
`SaveAll` returns `nil` and the store is the old one followed by the rows of
the batch, in order, each with the key the database gave it. -/
theorem SaveAll_is_atomic (deps : WebhookDeps) (db : Db) (artifacts : List CiArtifact) :
    (∀ (pre : List CiArtifact) (a : CiArtifact) (post : List CiArtifact) (e : GoError),
      artifacts = pre ++ a :: post → (∀ x ∈ pre, deps.insertErr x = none) →
      deps.insertErr a = some e →
      (CiArtifactRepository.SaveAll deps db artifacts).1 = some e ∧
      (CiArtifactRepository.SaveAll deps db artifacts).2.1 = db) ∧
    ((∀ x ∈ artifacts, deps.insertErr x = none) →
      ∃ saved, (CiArtifactRepository.SaveAll deps db artifacts).1 = none ∧
        (CiArtifactRepository.SaveAll deps db artifacts).2.1 =
          { db with ciArtifacts := db.ciArtifacts ++ saved } ∧
        List.Forall₂ (fun s a => ∃ k, s = { a with Id := k }) saved artifacts) := by
  constructor
  · intro pre a post e hsplit hpre ha
    subst hsplit
    unfold CiArtifactRepository.SaveAll
    rw [saveAllTx_fails deps a post e ha pre db.ciArtifacts hpre]
    exact ⟨rfl, rfl⟩
  · intro hall
    obtain ⟨⟨rows, saved⟩, hres⟩ := saveAllTx_succeeds deps artifacts db.ciArtifacts hall
    obtain ⟨h1, h2⟩ := saveAllTx_ok deps artifacts db.ciArtifacts rows saved hres
    unfold CiArtifactRepository.SaveAll
    rw [hres]
    exact ⟨saved, rfl, by rw [h1], h2⟩

/-- Witness for C11: in a batch of three whose second insert fails, the error
is returned and the one row already stored is all the store holds. -/
theorem SaveAll_is_atomic_witness :
    (CiArtifactRepository.SaveAll badImageFails oneArtifactDb
        [{ Image := "a" }, { Image := "bad" }, { Image := "c" }]).1
      = some (GoError.other "insert failed") ∧
    (CiArtifactRepository.SaveAll badImageFails oneArtifactDb
        [{ Image := "a" }, { Image := "bad" }, { Image := "c" }]).2.1 = oneArtifactDb :=
  (SaveAll_is_atomic badImageFails oneArtifactDb
      [{ Image := "a" }, { Image := "bad" }, { Image := "c" }]).1
    [{ Image := "a" }] { Image := "bad" } [{ Image := "c" }] (GoError.other "insert failed")
    rfl (by decide) (by decide)

/-! ## External-CI webhook (C12, C13, C17) -/

theorem nextArtifactId_fresh (rows : List CiArtifact) :
    ∀ r ∈ rows, r.Id < nextArtifactId rows := by
  intro r hr
  have h := (foldl_max_ge (rows.map (fun r => r.Id)) 0).2 r.Id (List.mem_map_of_mem _ hr)
  unfold nextArtifactId
  omega

theorem filter_fresh (rows : List CiArtifact) (a : CiArtifact)
    (h : ∀ r ∈ rows, r.Id < a.Id) :
    (rows ++ [a]).filter (fun r => r.Id != a.Id) = rows := by
  rw [List.filter_append]
  have h1 : rows.filter (fun r => r.Id != a.Id) = rows := by
    rw [List.filter_eq_self]
    intro r hr
    have := h r hr
    simp only [bne_iff_ne, ne_eq]
    omega
  rw [h1]
  simp

theorem find_fresh (rows : List CiArtifact) (a : CiArtifact)
    (h : ∀ r ∈ rows, r.Id < a.Id) :
    rows.find? (fun r => r.Id == a.Id) = none := by
  rw [List.find?_eq_none]
  intro r hr
  have := h r hr
  simp only [beq_iff_eq]
  omega

theorem fanOutOrRollback_fanOutCalls (deps : WebhookDeps) (db : Db) (externalCiId : Int)
    (request : CiArtifactWebhookRequest) (auth : String → String → String → Bool)
    (artifact : CiArtifact) :
    (fanOutOrRollback deps db externalCiId request auth artifact).fanOutCalls
      = [(artifact, request.UserId, externalCiId)] := by
  unfold fanOutOrRollback
  rcases deps.HandleWebhookExternalCiEvent artifact request.UserId externalCiId auth with ⟨b, e⟩
  cases e with
  | none => rfl
  | some e =>
    cases b with
    | true => rfl
    | false =>
      simp only [Bool.not_false, if_true]
      rcases CiArtifactRepository.Delete deps db artifact with ⟨e1, db1⟩
      cases e1 <;> rfl

/-- The outcomes of `HandleExternalCiWebhook`: either it returns an error before
the fan-out with the store untouched, or it has stored the artifact and
returns through the fan-out. -/
theorem HandleExternalCiWebhook_outcome (deps : WebhookDeps) (db : Db) (externalCiId : Int)
    (request : CiArtifactWebhookRequest) (auth : String → String → String → Bool) :
    ((HandleExternalCiWebhook deps db externalCiId request auth).fanOutCalls = [] ∧
      (HandleExternalCiWebhook deps db externalCiId request auth).deleteCalls = [] ∧
      (HandleExternalCiWebhook deps db externalCiId request auth).id = 0 ∧
      (HandleExternalCiWebhook deps db externalCiId request auth).err ≠ none ∧
      (HandleExternalCiWebhook deps db externalCiId request auth).db = db) ∨
    ∃ (request1 : CiArtifactWebhookRequest) (mj : String),
      request1.UserId = request.UserId ∧
      HandleExternalCiWebhook deps db externalCiId request auth =
        fanOutOrRollback deps
          { db with ciArtifacts :=
              db.ciArtifacts ++ [savedExternal deps db externalCiId request1 mj] }
          externalCiId request1 auth (savedExternal deps db externalCiId request1 mj) := by
  unfold HandleExternalCiWebhook
  simp only []
  split
  · rename_i h
    left
    refine ⟨rfl, rfl, rfl, ?_, rfl⟩
    intro hn
    have hn2 : (deps.FindExternalCiById externalCiId).2 = none := hn
    rw [hn2] at h
    simp at h
  · split
    · left
      exact ⟨rfl, rfl, rfl, by simp, rfl⟩
    · split
      · left
        exact ⟨rfl, rfl, rfl, by simp, rfl⟩
      · rename_i mj hmj
        rcases Save_spec deps db
            (externalArtifact deps externalCiId
              (if request.DataSource = "" then { request with DataSource := "EXTERNAL" }
                else request) mj) rfl with ⟨e, hs⟩ | hs
        · rw [hs]
          left
          exact ⟨rfl, rfl, rfl, by simp, rfl⟩
        · rw [hs]
          right
          refine ⟨if request.DataSource = "" then { request with DataSource := "EXTERNAL" }
            else request, mj, ?_, rfl⟩
          split <;> rfl

/-- The fan-out of `HandleExternalCiWebhook` ran on `artifact`: then `artifact`
is the stored row, whose key is new, and the call is the tail of the method
run on the store with that row appended. -/
theorem HandleExternalCiWebhook_reached (deps : WebhookDeps) (db : Db) (externalCiId : Int)
    (request : CiArtifactWebhookRequest) (auth : String → String → String → Bool)
    (artifact : CiArtifact)
    (hcall : (HandleExternalCiWebhook deps db externalCiId request auth).fanOutCalls
      = [(artifact, request.UserId, externalCiId)]) :
    (∀ r ∈ db.ciArtifacts, r.Id < artifact.Id) ∧
    ∃ request1 : CiArtifactWebhookRequest, request1.UserId = request.UserId ∧
      HandleExternalCiWebhook deps db externalCiId request auth =
        fanOutOrRollback deps { db with ciArtifacts := db.ciArtifacts ++ [artifact] }
          externalCiId request1 auth artifact := by
  rcases HandleExternalCiWebhook_outcome deps db externalCiId request auth with
    ⟨hnone, _⟩ | ⟨request1, mj, huid, heq⟩
  · rw [hnone] at hcall; cases hcall
  · rw [heq, fanOutOrRollback_fanOutCalls] at hcall
    simp only [List.cons.injEq, Prod.mk.injEq, and_true] at hcall
    obtain ⟨hart, _⟩ := hcall
    rw [hart] at heq
    refine ⟨?_, request1, huid, heq⟩
    rw [← hart]
    exact nextArtifactId_fresh db.ciArtifacts

/-- C12, counterexample. The fan-out reports that nothing was triggered and no
error: the stored artifact is not deleted, a lookup by its id finds it, and
the call returns its id with a `nil` error. -/
theorem HandleExternalCiWebhook_keeps_artifact_without_error :
    (HandleExternalCiWebhook nothingTriggered oneArtifactDb 3 { Image := "img" } denyAll).fanOutCalls
      = [(externalImg, 0, 3)] ∧
    nothingTriggered.HandleWebhookExternalCiEvent externalImg 0 3 denyAll = (false, none) ∧
    (HandleExternalCiWebhook nothingTriggered oneArtifactDb 3 { Image := "img" } denyAll).err
      = none ∧
    (HandleExternalCiWebhook nothingTriggered oneArtifactDb 3 { Image := "img" } denyAll).id = 2 ∧
    (HandleExternalCiWebhook nothingTriggered oneArtifactDb 3 { Image := "img" } denyAll).deleteCalls
      = [] ∧
    CiArtifactRepository.Get
      (HandleExternalCiWebhook nothingTriggered oneArtifactDb 3 { Image := "img" } denyAll).db 2
      = (externalImg, none) := by
  decide

/-- C12, amended. For every `HandleExternalCiWebhook` call in which the artifact
is saved and the fan-out, run on it, reports `hasAnyTriggered = false`. When
the fan-out also reports a non-nil error, `Delete` is called on the artifact
and the call returns a non-nil error: when the delete succeeds the store is
the one before the call, a lookup by the artifact's id finds nothing, and the
call returns the artifact's id with the fan-out's error; when the delete fails
the call returns id 0 with the delete's error and the artifact stays in the
store. When the fan-out reports no error, `Delete` is not called, the artifact
is kept (it is the row added to the store and a lookup by its id finds it) and
the call returns its id with a `nil` error. -/
theorem HandleExternalCiWebhook_rolls_back_on_error (deps : WebhookDeps) (db : Db)
    (externalCiId : Int) (request : CiArtifactWebhookRequest)
    (auth : String → String → String → Bool) (artifact : CiArtifact)
    (hcall : (HandleExternalCiWebhook deps db externalCiId request auth).fanOutCalls
      = [(artifact, request.UserId, externalCiId)])
    (hfan : (deps.HandleWebhookExternalCiEvent artifact request.UserId externalCiId auth).1
      = false) :
    (∀ e, (deps.HandleWebhookExternalCiEvent artifact request.UserId externalCiId auth).2
        = some e →
      (HandleExternalCiWebhook deps db externalCiId request auth).deleteCalls = [artifact] ∧
      (HandleExternalCiWebhook deps db externalCiId request auth).err ≠ none ∧
      (deps.deleteErr artifact = none →
        (HandleExternalCiWebhook deps db externalCiId request auth).id = artifact.Id ∧
        (HandleExternalCiWebhook deps db externalCiId request auth).err = some e ∧
        (HandleExternalCiWebhook deps db externalCiId request auth).db = db ∧
        CiArtifactRepository.Get
          (HandleExternalCiWebhook deps db externalCiId request auth).db artifact.Id
          = ({ Id := artifact.Id }, some GoError.ErrNoRows)) ∧
      (∀ e1, deps.deleteErr artifact = some e1 →
        (HandleExternalCiWebhook deps db externalCiId request auth).id = 0 ∧
        (HandleExternalCiWebhook deps db externalCiId request auth).err = some e1 ∧
        (HandleExternalCiWebhook deps db externalCiId request auth).db.ciArtifacts
          = db.ciArtifacts ++ [artifact])) ∧
    ((deps.HandleWebhookExternalCiEvent artifact request.UserId externalCiId auth).2 = none →
      (HandleExternalCiWebhook deps db externalCiId request auth).deleteCalls = [] ∧
      (HandleExternalCiWebhook deps db externalCiId request auth).id = artifact.Id ∧
      (HandleExternalCiWebhook deps db externalCiId request auth).err = none ∧
      (HandleExternalCiWebhook deps db externalCiId request auth).db.ciArtifacts
        = db.ciArtifacts ++ [artifact] ∧
      CiArtifactRepository.Get
        (HandleExternalCiWebhook deps db externalCiId request auth).db artifact.Id
        = (artifact, none)) := by
  obtain ⟨hfresh, request1, huid, heq⟩ :=
    HandleExternalCiWebhook_reached deps db externalCiId request auth artifact hcall
  rw [heq]
  unfold fanOutOrRollback
  rw [huid]
  rcases hf : deps.HandleWebhookExternalCiEvent artifact request.UserId externalCiId auth
    with ⟨b, fe⟩
  rw [hf] at hfan
  simp only [] at hfan
  subst hfan
  constructor
  · intro e he
    simp only [] at he
    subst he
    simp only [Bool.not_false, if_true]
    unfold CiArtifactRepository.Delete
    cases hd : deps.deleteErr artifact with
    | some e1 =>
      refine ⟨rfl, by simp, ?_, ?_⟩
      · intro h; cases h
      · intro e2 he2
        cases he2
        exact ⟨rfl, rfl, rfl⟩
    | none =>
      have hany : (db.ciArtifacts ++ [artifact]).any (fun r => r.Id == artifact.Id) = true := by
        simp
      simp only []
      rw [if_pos hany]
      refine ⟨rfl, by simp, ?_, ?_⟩
      on_goal 2 => intro e1 h; cases h
      intro _
      have hdb : ({ db with ciArtifacts :=
          (db.ciArtifacts ++ [artifact]).filter (fun r => r.Id != artifact.Id) } : Db) = db := by
        rw [filter_fresh db.ciArtifacts artifact hfresh]
      refine ⟨rfl, rfl, hdb, ?_⟩
      simp only []
      rw [hdb]
      unfold CiArtifactRepository.Get
      rw [find_fresh db.ciArtifacts artifact hfresh]
  · intro he
    simp only [] at he
    subst he
    refine ⟨rfl, rfl, rfl, rfl, ?_⟩
    unfold CiArtifactRepository.Get
    simp only [List.find?_append, find_fresh db.ciArtifacts artifact hfresh]
    simp

/-- Witness for the amended C12: the fan-out triggers nothing and reports an
error; the artifact stored as row 2 is deleted again. -/
theorem HandleExternalCiWebhook_rolls_back_on_error_witness :
    (HandleExternalCiWebhook nothingTriggeredWithError oneArtifactDb 3 { Image := "img" }
        denyAll).deleteCalls = [externalImg] ∧
    (HandleExternalCiWebhook nothingTriggeredWithError oneArtifactDb 3 { Image := "img" }
        denyAll).err = some (GoError.other "unauthorized") ∧
    (HandleExternalCiWebhook nothingTriggeredWithError oneArtifactDb 3 { Image := "img" }
        denyAll).db = oneArtifactDb ∧
    CiArtifactRepository.Get
      (HandleExternalCiWebhook nothingTriggeredWithError oneArtifactDb 3 { Image := "img" }
        denyAll).db 2 = ({ Id := 2 }, some GoError.ErrNoRows) :=
  have h := (HandleExternalCiWebhook_rolls_back_on_error nothingTriggeredWithError oneArtifactDb 3
    { Image := "img" } denyAll externalImg (by decide) (by decide)).1
    (GoError.other "unauthorized") (by decide)
  ⟨h.1, (h.2.2.1 (by decide)).2.1, (h.2.2.1 (by decide)).2.2.1, (h.2.2.1 (by decide)).2.2.2⟩

/-- C13. For every `HandleExternalCiWebhook` call in which the artifact is saved
and the fan-out, run on it, reports `hasAnyTriggered = true` together with a
non-nil error: `Delete` is not called, the artifact is the row added to the
store and a lookup by its id finds it, and the call returns the artifact's id
with the fan-out's error. -/
theorem HandleExternalCiWebhook_keeps_artifact_on_partial_failure (deps : WebhookDeps) (db : Db)
    (externalCiId : Int) (request : CiArtifactWebhookRequest)
    (auth : String → String → String → Bool) (artifact : CiArtifact) (e : GoError)
    (hcall : (HandleExternalCiWebhook deps db externalCiId request auth).fanOutCalls
      = [(artifact, request.UserId, externalCiId)])
    (hfan : deps.HandleWebhookExternalCiEvent artifact request.UserId externalCiId auth
      = (true, some e)) :
    (HandleExternalCiWebhook deps db externalCiId request auth).deleteCalls = [] ∧
    (HandleExternalCiWebhook deps db externalCiId request auth).id = artifact.Id ∧
    (HandleExternalCiWebhook deps db externalCiId request auth).err = some e ∧
    (HandleExternalCiWebhook deps db externalCiId request auth).db.ciArtifacts
      = db.ciArtifacts ++ [artifact] ∧
    CiArtifactRepository.Get
      (HandleExternalCiWebhook deps db externalCiId request auth).db artifact.Id
      = (artifact, none) := by
  obtain ⟨hfresh, request1, huid, heq⟩ :=
    HandleExternalCiWebhook_reached deps db externalCiId request auth artifact hcall
  rw [heq]
  unfold fanOutOrRollback
  rw [huid, hfan]
  have hc : ¬ ((!true) = true) := by decide
  simp only []
  rw [if_neg hc]
  refine ⟨rfl, rfl, rfl, rfl, ?_⟩
  unfold CiArtifactRepository.Get
  simp only [List.find?_append, find_fresh db.ciArtifacts artifact hfresh]
  simp

/-- Witness for C13: the fan-out triggers something and reports an error; the
artifact stored as row 2 is kept. -/
theorem HandleExternalCiWebhook_keeps_artifact_on_partial_failure_witness :
    (HandleExternalCiWebhook partlyTriggered oneArtifactDb 3 { Image := "img" } denyAll).deleteCalls
      = [] ∧
    (HandleExternalCiWebhook partlyTriggered oneArtifactDb 3 { Image := "img" } denyAll).id = 2 ∧
    (HandleExternalCiWebhook partlyTriggered oneArtifactDb 3 { Image := "img" } denyAll).err
      = some (GoError.other "trigger failed") ∧
    (HandleExternalCiWebhook partlyTriggered oneArtifactDb 3 { Image := "img" }
        denyAll).db.ciArtifacts = oneArtifactDb.ciArtifacts ++ [externalImg] ∧
    CiArtifactRepository.Get
      (HandleExternalCiWebhook partlyTriggered oneArtifactDb 3 { Image := "img" } denyAll).db 2
      = (externalImg, none) :=
  HandleExternalCiWebhook_keeps_artifact_on_partial_failure partlyTriggered oneArtifactDb 3
    { Image := "img" } denyAll externalImg (GoError.other "trigger failed") (by decide) (by decide)

/-- C17. When the lookup of the external-CI registration yields no row (a record
with `Id = 0`, with no error or with `ErrNoRows`), `HandleExternalCiWebhook`
returns id 0 and the `ApiError` with code `400` and user message
`invalid external ci id`; it leaves the store untouched and calls neither the
fan-out nor `Delete`. -/
theorem HandleExternalCiWebhook_rejects_unknown_registration (deps : WebhookDeps) (db : Db)
    (externalCiId : Int) (request : CiArtifactWebhookRequest)
    (auth : String → String → String → Bool)
    (hid : (deps.FindExternalCiById externalCiId).1.Id = 0)
    (herr : (deps.FindExternalCiById externalCiId).2 = none ∨
      (deps.FindExternalCiById externalCiId).2 = some GoError.ErrNoRows) :
    (HandleExternalCiWebhook deps db externalCiId request auth).id = 0 ∧
    (HandleExternalCiWebhook deps db externalCiId request auth).err
      = some (GoError.apiError "400" 400 "invalid external ci id") ∧
    (HandleExternalCiWebhook deps db externalCiId request auth).db = db ∧
    (HandleExternalCiWebhook deps db externalCiId request auth).fanOutCalls = [] ∧
    (HandleExternalCiWebhook deps db externalCiId request auth).deleteCalls = [] := by
  unfold HandleExternalCiWebhook
  simp only []
  have h1 : ((deps.FindExternalCiById externalCiId).2.isSome &&
      (deps.FindExternalCiById externalCiId).2 != some GoError.ErrNoRows) = false := by
    rcases herr with h | h <;> rw [h] <;> rfl
  rw [h1]
  have hc : ¬ (false = true) := by decide
  rw [if_neg hc, if_pos hid]
  exact ⟨rfl, rfl, rfl, rfl, rfl⟩

/-- Witness for C17: no registration is known. -/
theorem HandleExternalCiWebhook_rejects_unknown_registration_witness :
    (HandleExternalCiWebhook unknownExternalCi oneArtifactDb 3 { Image := "img" } denyAll).id = 0 ∧
    (HandleExternalCiWebhook unknownExternalCi oneArtifactDb 3 { Image := "img" } denyAll).err
      = some (GoError.apiError "400" 400 "invalid external ci id") ∧
    (HandleExternalCiWebhook unknownExternalCi oneArtifactDb 3 { Image := "img" } denyAll).db
      = oneArtifactDb ∧
    (HandleExternalCiWebhook unknownExternalCi oneArtifactDb 3 { Image := "img" }
        denyAll).fanOutCalls = [] ∧
    (HandleExternalCiWebhook unknownExternalCi oneArtifactDb 3 { Image := "img" }
        denyAll).deleteCalls = [] :=
  HandleExternalCiWebhook_rejects_unknown_registration unknownExternalCi oneArtifactDb 3
    { Image := "img" } denyAll (by decide) (by decide)

/-! ## The build workflow and the own artifact (C14, C15, C16) -/

theorem Save_workflows (deps : WebhookDeps) (db : Db) (a : CiArtifact) :
    (CiArtifactRepository.Save deps db a).2.1.ciWorkflows = db.ciWorkflows := by
  unfold CiArtifactRepository.Save
  split <;> rfl

theorem SaveAll_workflows (deps : WebhookDeps) (db : Db) (arts : List CiArtifact) :
    (CiArtifactRepository.SaveAll deps db arts).2.1.ciWorkflows = db.ciWorkflows := by
  unfold CiArtifactRepository.SaveAll
  split <;> rfl

theorem workflow_FindById_some (db : Db) (w : Int) (wf : CiWorkflow)
    (h : CiWorkflowRepository.FindById db w = (wf, none)) : wf ∈ db.ciWorkflows ∧ wf.Id = w := by
  unfold CiWorkflowRepository.FindById at h
  cases hf : db.ciWorkflows.find? (fun x => x.Id == w) with
  | some x =>
    rw [hf] at h
    simp only [Prod.mk.injEq, and_true] at h
    subst h
    have hp := List.find?_some hf
    simp only [beq_iff_eq] at hp
    exact ⟨List.mem_of_find?_eq_some hf, hp⟩
  | none => rw [hf] at h; simp at h

/-- The workflow table after `HandleCiSuccessEvent` is the one left by lines
148-161, and a failure of these lines is returned as it is. -/
theorem HandleCiSuccessEvent_workflows (deps : WebhookDeps) (db : Db) (id : Int)
    (request : CiArtifactWebhookRequest) (t : Nat) :
    (HandleCiSuccessEvent deps db id request t).db.ciWorkflows
        = (markWorkflowSucceeded deps db request).2.ciWorkflows ∧
    (∀ e, (markWorkflowSucceeded deps db request).1 = some e →
      HandleCiSuccessEvent deps db id request t =
        { id := 0, err := some e, db := (markWorkflowSucceeded deps db request).2 }) := by
  unfold HandleCiSuccessEvent
  rcases markWorkflowSucceeded deps db request with ⟨e1, db1⟩
  cases e1 with
  | some e =>
    refine ⟨rfl, ?_⟩
    intro e2 he2
    cases he2
    rfl
  | none =>
    refine ⟨?_, fun e h => by cases h⟩
    simp only []
    split
    · rfl
    · split
      · rfl
      · rename_i mj _
        split
        · rename_i e db2 _ hs
          have h := Save_workflows deps db1
            (ownArtifact deps (CiPipelineRepository.FindByCiAndAppDetailsById db1 id).1
              (fillDefaults request (CiPipelineRepository.FindByCiAndAppDetailsById db1 id).1)
              mj t)
          rw [hs] at h
          exact h
        · rename_i db2 artifact hs
          have h := Save_workflows deps db1
            (ownArtifact deps (CiPipelineRepository.FindByCiAndAppDetailsById db1 id).1
              (fillDefaults request (CiPipelineRepository.FindByCiAndAppDetailsById db1 id).1)
              mj t)
          rw [hs] at h
          simp only [] at h
          split
          · exact h
          · split
            · split
              · rename_i e db3 _ hs2
                have h2 := SaveAll_workflows deps db2
                  (List.map (fun ci => cloneArtifact deps ci
                      (fillDefaults request
                        (CiPipelineRepository.FindByCiAndAppDetailsById db1 id).1) mj artifact)
                    (CiPipelineRepository.FindByParentCiPipelineId deps db2 id).1)
                rw [hs2] at h2
                exact h2.trans h
              · rename_i db3 saved hs2
                have h2 := SaveAll_workflows deps db2
                  (List.map (fun ci => cloneArtifact deps ci
                      (fillDefaults request
                        (CiPipelineRepository.FindByCiAndAppDetailsById db1 id).1) mj artifact)
                    (CiPipelineRepository.FindByParentCiPipelineId deps db2 id).1)
                rw [hs2] at h2
                exact h2.trans h
            · exact h

/-- The outcomes of lines 148-161 for a request that names workflow `w`. -/
theorem markWorkflowSucceeded_some (deps : WebhookDeps) (db : Db)
    (request : CiArtifactWebhookRequest) (w : Int) (hw : request.WorkflowId = some w) :
    (((CiWorkflowRepository.FindById db w).2 ≠ none ∨
        deps.updateWorkflowErr
          { (CiWorkflowRepository.FindById db w).1 with Status := "Succeeded" } ≠ none) →
      ∃ e, markWorkflowSucceeded deps db request = (some e, db)) ∧
    ((CiWorkflowRepository.FindById db w).2 = none →
      deps.updateWorkflowErr
        { (CiWorkflowRepository.FindById db w).1 with Status := "Succeeded" } = none →
      (markWorkflowSucceeded deps db request).1 = none ∧
      ∃ wf ∈ (markWorkflowSucceeded deps db request).2.ciWorkflows,
        wf.Id = w ∧ wf.Status = "Succeeded") := by
  unfold markWorkflowSucceeded
  rw [hw]
  simp only []
  rcases hf : CiWorkflowRepository.FindById db w with ⟨wf0, e0⟩
  cases e0 with
  | some e =>
    refine ⟨fun _ => ⟨e, rfl⟩, fun h => ?_⟩
    cases h
  | none =>
    simp only []
    obtain ⟨hmem, hid⟩ := workflow_FindById_some db w wf0 hf
    unfold CiWorkflowRepository.UpdateWorkFlow
    cases hu : deps.updateWorkflowErr { wf0 with Status := "Succeeded" } with
    | some e =>
      refine ⟨fun _ => ⟨e, rfl⟩, fun _ h => ?_⟩
      cases h
    | none =>
      constructor
      · intro h
        rcases h with h | h
        · exact absurd rfl h
        · exact absurd rfl h
      · intro _ _
        refine ⟨rfl, { wf0 with Status := "Succeeded" }, ?_, hid, rfl⟩
        simp only [List.mem_map]
        exact ⟨wf0, hmem, by simp⟩

/-- C14, counterexample. Workflow 5 is stored as `Running`. (a) A build-success
event for the unknown pipeline 99 fails at the pipeline lookup: no artifact is
persisted, yet workflow 5 is now stored as `Succeeded`. (b) The same happens
when the pipeline is known and the `Save` of the artifact fails. -/
theorem HandleCiSuccessEvent_workflow_updated_without_artifact :
    ((HandleCiSuccessEvent {} runningWorkflowDb 99 { WorkflowId := some 5 } 0).err
        = some GoError.ErrNoRows ∧
      (HandleCiSuccessEvent {} runningWorkflowDb 99 { WorkflowId := some 5 } 0).db.ciArtifacts
        = [] ∧
      (HandleCiSuccessEvent {} runningWorkflowDb 99 { WorkflowId := some 5 } 0).db.ciWorkflows.map
        (fun wf => (wf.Id, wf.Status)) = [(5, "Succeeded")]) ∧
    ((HandleCiSuccessEvent badImageFails runningWorkflowDb 1
          { WorkflowId := some 5, Image := "bad" } 0).err
        = some (GoError.other "insert failed") ∧
      (HandleCiSuccessEvent badImageFails runningWorkflowDb 1
          { WorkflowId := some 5, Image := "bad" } 0).db.ciArtifacts = [] ∧
      (HandleCiSuccessEvent badImageFails runningWorkflowDb 1
          { WorkflowId := some 5, Image := "bad" } 0).db.ciWorkflows.map
        (fun wf => (wf.Id, wf.Status)) = [(5, "Succeeded")]) := by
  decide

/-- C14, amended. For every request that names a workflow `w` and every outcome
of `HandleCiSuccessEvent`: an artifact is persisted only if workflow `w` is
stored with status `Succeeded`; when loading or updating the workflow fails
the call returns an error and the store is the one before the call; and when
the workflow was loaded and updated, it is stored with status `Succeeded`
whatever the call returns (also when the pipeline lookup, the provenance
compaction or the artifact `Save` fails afterwards). -/
theorem HandleCiSuccessEvent_workflow_written_first (deps : WebhookDeps) (db : Db)
    (ciPipelineId : Int) (request : CiArtifactWebhookRequest) (imagePushedAt : Nat) (w : Int)
    (hw : request.WorkflowId = some w) :
    ((HandleCiSuccessEvent deps db ciPipelineId request imagePushedAt).db.ciArtifacts
        ≠ db.ciArtifacts →
      ∃ wf ∈ (HandleCiSuccessEvent deps db ciPipelineId request imagePushedAt).db.ciWorkflows,
        wf.Id = w ∧ wf.Status = "Succeeded") ∧
    (((CiWorkflowRepository.FindById db w).2 ≠ none ∨
        deps.updateWorkflowErr
          { (CiWorkflowRepository.FindById db w).1 with Status := "Succeeded" } ≠ none) →
      (HandleCiSuccessEvent deps db ciPipelineId request imagePushedAt).err ≠ none ∧
      (HandleCiSuccessEvent deps db ciPipelineId request imagePushedAt).id = 0 ∧
      (HandleCiSuccessEvent deps db ciPipelineId request imagePushedAt).db = db) ∧
    ((CiWorkflowRepository.FindById db w).2 = none →
      deps.updateWorkflowErr
        { (CiWorkflowRepository.FindById db w).1 with Status := "Succeeded" } = none →
      ∃ wf ∈ (HandleCiSuccessEvent deps db ciPipelineId request imagePushedAt).db.ciWorkflows,
        wf.Id = w ∧ wf.Status = "Succeeded") := by
  obtain ⟨hfail, hok⟩ := markWorkflowSucceeded_some deps db request w hw
  obtain ⟨hwf, hret⟩ := HandleCiSuccessEvent_workflows deps db ciPipelineId request imagePushedAt
  have hB : ((CiWorkflowRepository.FindById db w).2 ≠ none ∨
        deps.updateWorkflowErr
          { (CiWorkflowRepository.FindById db w).1 with Status := "Succeeded" } ≠ none) →
      (HandleCiSuccessEvent deps db ciPipelineId request imagePushedAt).err ≠ none ∧
      (HandleCiSuccessEvent deps db ciPipelineId request imagePushedAt).id = 0 ∧
      (HandleCiSuccessEvent deps db ciPipelineId request imagePushedAt).db = db := by
    intro h
    obtain ⟨e, he⟩ := hfail h
    have := hret e (by rw [he])
    rw [this, he]
    exact ⟨by simp, rfl, rfl⟩
  have hC : (CiWorkflowRepository.FindById db w).2 = none →
      deps.updateWorkflowErr
        { (CiWorkflowRepository.FindById db w).1 with Status := "Succeeded" } = none →
      ∃ wf ∈ (HandleCiSuccessEvent deps db ciPipelineId request imagePushedAt).db.ciWorkflows,
        wf.Id = w ∧ wf.Status = "Succeeded" := by
    intro h1 h2
    rw [hwf]
    exact (hok h1 h2).2
  refine ⟨?_, hB, hC⟩
  intro hne
  by_cases h1 : (CiWorkflowRepository.FindById db w).2 = none
  · by_cases h2 : deps.updateWorkflowErr
        { (CiWorkflowRepository.FindById db w).1 with Status := "Succeeded" } = none
    · exact hC h1 h2
    · exact absurd (by rw [(hB (Or.inr h2)).2.2]) hne
  · exact absurd (by rw [(hB (Or.inl h1)).2.2]) hne

/-- Witness for the amended C14: workflow 5 is running and the `Save` of the
artifact fails; the workflow is stored as `Succeeded`. -/
theorem HandleCiSuccessEvent_workflow_written_first_witness :
    (HandleCiSuccessEvent badImageFails runningWorkflowDb 1
        { WorkflowId := some 5, Image := "bad" } 0).err ≠ none ∧
    ∃ wf ∈ (HandleCiSuccessEvent badImageFails runningWorkflowDb 1
        { WorkflowId := some 5, Image := "bad" } 0).db.ciWorkflows,
      wf.Id = 5 ∧ wf.Status = "Succeeded" :=
  ⟨by decide,
   (HandleCiSuccessEvent_workflow_written_first badImageFails runningWorkflowDb 1
      { WorkflowId := some 5, Image := "bad" } 0 5 rfl).2.2 (by decide) (by decide)⟩

theorem Save_with_workflows (deps : WebhookDeps) (db : Db) (wfs : List CiWorkflow)
    (a : CiArtifact) :
    CiArtifactRepository.Save deps { db with ciWorkflows := wfs } a =
      ((CiArtifactRepository.Save deps db a).1,
        { (CiArtifactRepository.Save deps db a).2.1 with ciWorkflows := wfs },
        (CiArtifactRepository.Save deps db a).2.2) := by
  unfold CiArtifactRepository.Save
  simp only []
  cases insertArtifact deps db.ciArtifacts a <;> rfl

theorem SaveAll_with_workflows (deps : WebhookDeps) (db : Db) (wfs : List CiWorkflow)
    (arts : List CiArtifact) :
    CiArtifactRepository.SaveAll deps { db with ciWorkflows := wfs } arts =
      ((CiArtifactRepository.SaveAll deps db arts).1,
        { (CiArtifactRepository.SaveAll deps db arts).2.1 with ciWorkflows := wfs },
        (CiArtifactRepository.SaveAll deps db arts).2.2) := by
  unfold CiArtifactRepository.SaveAll
  simp only []
  cases saveAllTx deps arts db.ciArtifacts <;> rfl

/-- A request without `WorkflowId`: the result of `HandleCiSuccessEvent` does not
depend on the workflow table, which it hands back as it got it. -/
theorem HandleCiSuccessEvent_ignores_workflows (deps : WebhookDeps) (db : Db) (id : Int)
    (request : CiArtifactWebhookRequest) (t : Nat) (hw : request.WorkflowId = none)
    (wfs : List CiWorkflow) :
    HandleCiSuccessEvent deps { db with ciWorkflows := wfs } id request t =
      { HandleCiSuccessEvent deps db id request t with
        db := { (HandleCiSuccessEvent deps db id request t).db with ciWorkflows := wfs } } := by
  have hm : ∀ d : Db, markWorkflowSucceeded deps d request = (none, d) := by
    intro d
    unfold markWorkflowSucceeded
    rw [hw]
  unfold HandleCiSuccessEvent
  rw [hm, hm]
  simp only []
  have hfind : CiPipelineRepository.FindByCiAndAppDetailsById { db with ciWorkflows := wfs } id
      = CiPipelineRepository.FindByCiAndAppDetailsById db id := rfl
  rw [hfind]
  rcases CiPipelineRepository.FindByCiAndAppDetailsById db id with ⟨pipeline, e2⟩
  cases e2 with
  | some e => rfl
  | none =>
    simp only []
    cases deps.jsonCompact (MarshalJSON (fillDefaults request pipeline).MaterialInfo) with
    | error e => rfl
    | ok mj =>
      simp only []
      rw [Save_with_workflows]
      rcases CiArtifactRepository.Save deps db
          (ownArtifact deps pipeline (fillDefaults request pipeline) mj t) with ⟨e3, db2, artifact⟩
      cases e3 with
      | some e => rfl
      | none =>
        simp only []
        have hch : CiPipelineRepository.FindByParentCiPipelineId deps
            { db2 with ciWorkflows := wfs } id
            = CiPipelineRepository.FindByParentCiPipelineId deps db2 id := rfl
        rw [hch]
        split
        · rfl
        · split
          · rw [SaveAll_with_workflows]
            rcases CiArtifactRepository.SaveAll deps db2
                (List.map (fun ci => cloneArtifact deps ci (fillDefaults request pipeline) mj
                    artifact)
                  (CiPipelineRepository.FindByParentCiPipelineId deps db2 id).1)
              with ⟨e4, db3, saved⟩
            cases e4 with
            | some e => rfl
            | none => rfl
          · rfl

/-- C15. If the request carries a `WorkflowId` and that workflow cannot be
loaded, `HandleCiSuccessEvent` returns id 0 with the lookup error, the store is
the one before the call (no workflow update, no artifact), and no trigger and
no notification is started. If the request carries no `WorkflowId`, the
workflow table is handed back unchanged and the result is the same for every
content of the workflow table. -/
theorem HandleCiSuccessEvent_unknown_workflow (deps : WebhookDeps) (db : Db)
    (ciPipelineId : Int) (request : CiArtifactWebhookRequest) (imagePushedAt : Nat) :
    (∀ (w : Int) (e : GoError), request.WorkflowId = some w →
      (CiWorkflowRepository.FindById db w).2 = some e →
      HandleCiSuccessEvent deps db ciPipelineId request imagePushedAt =
        { id := 0, err := some e, db := db, ciArtifactArr := [], calls := [], batches := [],
          notified := false }) ∧
    (request.WorkflowId = none →
      (HandleCiSuccessEvent deps db ciPipelineId request imagePushedAt).db.ciWorkflows
        = db.ciWorkflows ∧
      ∀ wfs : List CiWorkflow,
        HandleCiSuccessEvent deps { db with ciWorkflows := wfs } ciPipelineId request
            imagePushedAt =
          { HandleCiSuccessEvent deps db ciPipelineId request imagePushedAt with
            db := { (HandleCiSuccessEvent deps db ciPipelineId request imagePushedAt).db with
              ciWorkflows := wfs } }) := by
  constructor
  · intro w e hw hfind
    have hm : markWorkflowSucceeded deps db request = (some e, db) := by
      unfold markWorkflowSucceeded
      rw [hw]
      simp only []
      rcases hf : CiWorkflowRepository.FindById db w with ⟨wf0, e0⟩
      rw [hf] at hfind
      simp only [] at hfind
      subst hfind
      rfl
    have h := (HandleCiSuccessEvent_workflows deps db ciPipelineId request imagePushedAt).2 e
      (by rw [hm])
    rw [h, hm]
  · intro hw
    refine ⟨?_, HandleCiSuccessEvent_ignores_workflows deps db ciPipelineId request imagePushedAt hw⟩
    rw [(HandleCiSuccessEvent_workflows deps db ciPipelineId request imagePushedAt).1]
    unfold markWorkflowSucceeded
    rw [hw]

/-- Witness for C15: the request names workflow 6, which is not stored. -/
theorem HandleCiSuccessEvent_unknown_workflow_witness :
    HandleCiSuccessEvent {} runningWorkflowDb 1 { WorkflowId := some 6 } 0 =
      { id := 0, err := some GoError.ErrNoRows, db := runningWorkflowDb, ciArtifactArr := [],
        calls := [], batches := [], notified := false } ∧
    (HandleCiSuccessEvent {} runningWorkflowDb 1 { Image := "img" } 0).db.ciWorkflows
      = runningWorkflowDb.ciWorkflows :=
  ⟨(HandleCiSuccessEvent_unknown_workflow {} runningWorkflowDb 1 { WorkflowId := some 6 } 0).1
      6 GoError.ErrNoRows rfl (by decide),
   ((HandleCiSuccessEvent_unknown_workflow {} runningWorkflowDb 1 { Image := "img" } 0).2
      rfl).1⟩

/-- C16. For every `HandleCiSuccessEvent` call that reaches the fan-out (the
workflow update, the pipeline lookup, the save of the own artifact, the child
lookup and the save of the clones all succeeded), whatever the downstream
triggers return: the returned id is the id of the pipeline's own artifact, and
the store after the call is the store before it followed by the own artifact
and the `K` clones, every one of which is in the store. -/
theorem HandleCiSuccessEvent_keeps_artifacts_on_trigger_failure (deps : WebhookDeps) (db : Db)
    (ciPipelineId : Int) (request : CiArtifactWebhookRequest) (imagePushedAt : Nat)
    (hreached : (HandleCiSuccessEvent deps db ciPipelineId request imagePushedAt).notified = true) :
    ∃ own clones,
      (HandleCiSuccessEvent deps db ciPipelineId request imagePushedAt).id = own.Id ∧
      own.PipelineId = ciPipelineId ∧
      (HandleCiSuccessEvent deps db ciPipelineId request imagePushedAt).ciArtifactArr
        = clones ++ [own] ∧
      clones.length =
        (CiPipelineRepository.FindByParentCiPipelineId deps db ciPipelineId).1.length ∧
      (HandleCiSuccessEvent deps db ciPipelineId request imagePushedAt).db.ciArtifacts
        = db.ciArtifacts ++ own :: clones ∧
      ∀ a ∈ (HandleCiSuccessEvent deps db ciPipelineId request imagePushedAt).ciArtifactArr,
        a ∈ (HandleCiSuccessEvent deps db ciPipelineId request imagePushedAt).db.ciArtifacts := by
  obtain ⟨_, h⟩ := HandleCiSuccessEvent_outcome deps db ciPipelineId request imagePushedAt _ rfl
  rcases h with ⟨hn, _⟩ | ⟨pipeline, mj, saved, e, _, hpid, _, hfa, hdb, heq⟩
  · rw [hn] at hreached; cases hreached
  · obtain ⟨_, o2, _⟩ :=
      savedOwn_fields deps db pipeline (fillDefaults request pipeline) mj imagePushedAt
    have harr : (HandleCiSuccessEvent deps db ciPipelineId request imagePushedAt).ciArtifactArr
        = saved ++ [savedOwn deps db pipeline (fillDefaults request pipeline) mj imagePushedAt] := by
      rw [heq]; rfl
    refine ⟨savedOwn deps db pipeline (fillDefaults request pipeline) mj imagePushedAt, saved,
      by rw [heq]; rfl, by rw [o2, hpid], harr, hfa.length_eq, hdb, ?_⟩
    intro a ha
    rw [harr] at ha
    rw [hdb]
    rcases List.mem_append.mp ha with h1 | h1
    · exact List.mem_append_right _ (List.mem_cons_of_mem _ h1)
    · rw [List.mem_singleton.mp h1]
      exact List.mem_append_right _ (List.mem_cons_self _ _)

/-- Witness for C16: the fan-out of `fiveDb` in which the triggers of the third
and of the fifth artifact fail; the call returns the own artifact's id 1 with an error and all
five artifacts are stored. -/
theorem HandleCiSuccessEvent_keeps_artifacts_on_trigger_failure_witness :
    (HandleCiSuccessEvent thirdAndFifthFail fiveDb 1 { Image := "img" } 0).err ≠ none ∧
    (HandleCiSuccessEvent thirdAndFifthFail fiveDb 1 { Image := "img" } 0).db.ciArtifacts.map
      (fun a => (a.Id, a.PipelineId)) = [(1, 1), (2, 2), (3, 3), (4, 4), (5, 5)] ∧
    ∃ own clones,
      (HandleCiSuccessEvent thirdAndFifthFail fiveDb 1 { Image := "img" } 0).id = own.Id ∧
      own.PipelineId = 1 ∧
      (HandleCiSuccessEvent thirdAndFifthFail fiveDb 1 { Image := "img" } 0).ciArtifactArr
        = clones ++ [own] ∧
      clones.length =
        (CiPipelineRepository.FindByParentCiPipelineId thirdAndFifthFail fiveDb 1).1.length ∧
      (HandleCiSuccessEvent thirdAndFifthFail fiveDb 1 { Image := "img" } 0).db.ciArtifacts
        = fiveDb.ciArtifacts ++ own :: clones ∧
      ∀ a ∈ (HandleCiSuccessEvent thirdAndFifthFail fiveDb 1 { Image := "img" } 0).ciArtifactArr,
        a ∈ (HandleCiSuccessEvent thirdAndFifthFail fiveDb 1 { Image := "img" } 0).db.ciArtifacts :=
  ⟨by decide, by decide,
   HandleCiSuccessEvent_keeps_artifacts_on_trigger_failure thirdAndFifthFail fiveDb 1
     { Image := "img" } 0 (by decide)⟩

/-! ## Deployment-template history (C18, C19, C20) -/

theorem CreateHistory_ok (deps : ChartDeps) (history history1 : List DeploymentTemplateHistory)
    (model : DeploymentTemplateHistory)
    (h : CreateHistory deps history model = (none, history1)) :
    ∃ k, history1 = history ++ [{ model with Id := k }] := by
  unfold CreateHistory at h
  cases he : deps.createHistoryErr model with
  | some e => rw [he] at h; simp at h
  | none =>
    rw [he] at h
    simp only [Prod.mk.injEq, true_and] at h
    exact ⟨_, h.symm⟩

theorem createPipelineHistories_ok (deps : ChartDeps) (chart : Chart) (chartRef : ChartRef)
    (flag : Bool) : ∀ (ps : List Pipeline) (history history1 : List DeploymentTemplateHistory),
    createPipelineHistories deps chart chartRef flag ps history = (none, history1) →
    ∃ entries, history1 = history ++ entries ∧
      entries.map (fun h => h.PipelineId) = ps.map (fun p => p.Id) ∧
      ∀ h ∈ entries, h.AppId = chart.AppId ∧ h.Template = chart.GlobalOverride ∧
        h.ImageDescriptorTemplate = chart.ImageDescriptorTemplate ∧
        h.IsAppMetricsEnabled = flag ∧ h.Deployed = false := by
  intro ps
  induction ps with
  | nil =>
    intro history history1 h
    simp only [createPipelineHistories, Prod.mk.injEq, true_and] at h
    exact ⟨[], by simp [h], rfl, by simp⟩
  | cons p rest ih =>
    intro history history1 h
    rw [createPipelineHistories] at h
    rcases hc : CreateHistory deps history
        { AppId := chart.AppId, PipelineId := p.Id,
          ImageDescriptorTemplate := chart.ImageDescriptorTemplate,
          Template := chart.GlobalOverride, Deployed := false,
          TemplateName := chartRef.Name, TemplateVersion := chartRef.Version,
          IsAppMetricsEnabled := flag, Audit := chart.Audit } with ⟨e, history2⟩
    rw [hc] at h
    cases e with
    | some e => simp at h
    | none =>
      simp only [] at h
      obtain ⟨k, hk⟩ := CreateHistory_ok deps history history2 _ hc
      obtain ⟨entries, h1, h2, h3⟩ := ih history2 history1 h
      refine ⟨_ :: entries, by rw [h1, hk, List.append_assoc]; rfl, ?_, ?_⟩
      · rw [List.map_cons, h2]
        rfl
      · intro x hx
        rcases List.mem_cons.mp hx with hx | hx
        · rw [hx]; exact ⟨rfl, rfl, rfl, rfl, rfl⟩
        · exact h3 x hx

/-- C19. For every chart, a successful
`CreateDeploymentTemplateHistoryFromGlobalTemplate` appends exactly `N + 1`
history entries, `N` being the number of pipelines not overriding the chart:
first one with `PipelineId = 0`, then one per pipeline, in order, with the
pipeline's id; all entries carry the chart's `AppId`, `GlobalOverride` (as
`Template`) and `ImageDescriptorTemplate`, the given `IsAppMetricsEnabled`, and
`Deployed = false`. -/
theorem CreateDeploymentTemplateHistoryFromGlobalTemplate_entries (deps : ChartDeps)
    (history history1 : List DeploymentTemplateHistory) (chart : Chart)
    (IsAppMetricsEnabled : Bool)
    (hres : CreateDeploymentTemplateHistoryFromGlobalTemplate deps history chart
      IsAppMetricsEnabled = (none, history1)) :
    ∃ entries, history1 = history ++ entries ∧
      entries.length = (deps.pipelinesNotOverriding chart.AppId chart.Id).1.length + 1 ∧
      entries.map (fun h => h.PipelineId) =
        0 :: (deps.pipelinesNotOverriding chart.AppId chart.Id).1.map (fun p => p.Id) ∧
      ∀ h ∈ entries, h.AppId = chart.AppId ∧ h.Template = chart.GlobalOverride ∧
        h.ImageDescriptorTemplate = chart.ImageDescriptorTemplate ∧
        h.IsAppMetricsEnabled = IsAppMetricsEnabled ∧ h.Deployed = false := by
  unfold CreateDeploymentTemplateHistoryFromGlobalTemplate at hres
  simp only [] at hres
  by_cases hf : ((deps.pipelinesNotOverriding chart.AppId chart.Id).2.isSome &&
      (deps.pipelinesNotOverriding chart.AppId chart.Id).2 != some GoError.ErrNoRows) = true
  · rw [if_pos hf] at hres
    simp only [Prod.mk.injEq] at hres
    rw [hres.1] at hf
    simp at hf
  · rw [if_neg hf] at hres
    cases hc : deps.chartRefFindById chart.ChartRefId with
    | error e => rw [hc] at hres; simp at hres
    | ok chartRef0 =>
      rw [hc] at hres
      simp only [] at hres
      rcases hh : CreateHistory deps history
          { AppId := chart.AppId, ImageDescriptorTemplate := chart.ImageDescriptorTemplate,
            Template := chart.GlobalOverride, Deployed := false,
            TemplateName := (if chartRef0.Name.length = 0 then
              { chartRef0 with Name := "Rollout Deployment" } else chartRef0).Name,
            TemplateVersion := (if chartRef0.Name.length = 0 then
              { chartRef0 with Name := "Rollout Deployment" } else chartRef0).Version,
            IsAppMetricsEnabled := IsAppMetricsEnabled, Audit := chart.Audit }
        with ⟨e, history2⟩
      rw [hh] at hres
      cases e with
      | some e => simp at hres
      | none =>
        simp only [] at hres
        obtain ⟨k, hk⟩ := CreateHistory_ok deps history history2 _ hh
        obtain ⟨entries, h1, h2, h3⟩ := createPipelineHistories_ok deps chart _
          IsAppMetricsEnabled _ history2 history1 hres
        refine ⟨_ :: entries, by rw [h1, hk, List.append_assoc]; rfl, ?_, ?_, ?_⟩
        · have hl := congrArg List.length h2
          simp only [List.length_map] at hl
          simp only [List.length_cons, hl]
        · rw [List.map_cons, h2]
        · intro x hx
          rcases List.mem_cons.mp hx with hx | hx
          · rw [hx]; exact ⟨rfl, rfl, rfl, rfl, rfl⟩
          · exact h3 x hx

/-- Witness for C19: two pipelines do not override the chart; three entries are
appended, for no pipeline, pipeline 4 and pipeline 6. -/
theorem CreateDeploymentTemplateHistoryFromGlobalTemplate_entries_witness :
    CreateDeploymentTemplateHistoryFromGlobalTemplate twoPipelines [] chartSeven true =
      (none,
        [{ Id := 1, PipelineId := 0, AppId := 7, ImageDescriptorTemplate := "image",
           Template := "global", TemplateName := "Rollout Deployment", TemplateVersion := "1.2.0",
           IsAppMetricsEnabled := true },
         { Id := 2, PipelineId := 4, AppId := 7, ImageDescriptorTemplate := "image",
           Template := "global", TemplateName := "Rollout Deployment", TemplateVersion := "1.2.0",
           IsAppMetricsEnabled := true },
         { Id := 3, PipelineId := 6, AppId := 7, ImageDescriptorTemplate := "image",
           Template := "global", TemplateName := "Rollout Deployment", TemplateVersion := "1.2.0",
           IsAppMetricsEnabled := true }]) ∧
    ∃ entries, (CreateDeploymentTemplateHistoryFromGlobalTemplate twoPipelines [] chartSeven
        true).2 = [] ++ entries ∧
      entries.length = (twoPipelines.pipelinesNotOverriding chartSeven.AppId chartSeven.Id).1.length
        + 1 ∧
      entries.map (fun h => h.PipelineId) =
        0 :: (twoPipelines.pipelinesNotOverriding chartSeven.AppId chartSeven.Id).1.map
          (fun p => p.Id) ∧
      ∀ h ∈ entries, h.AppId = chartSeven.AppId ∧ h.Template = chartSeven.GlobalOverride ∧
        h.ImageDescriptorTemplate = chartSeven.ImageDescriptorTemplate ∧
        h.IsAppMetricsEnabled = true ∧ h.Deployed = false :=
  ⟨by decide,
   CreateDeploymentTemplateHistoryFromGlobalTemplate_entries twoPipelines [] _ chartSeven true
     (by decide)⟩

/-- C20. A successful `CreateDeploymentTemplateHistoryFromEnvOverrideTemplate`
appends exactly one history entry, with `Deployed = false` and the override's
`TargetEnvironment`; its `Template` is the override's `EnvOverrideValues` when
`IsOverride` is true and the `GlobalOverride` of the chart the override
belongs to otherwise; its `PipelineId` is the given `pipelineId` when that is
non-zero and otherwise the id of the pipeline that
`GetByEnvOverrideIdAndEnvId` returns for the override and its environment. -/
theorem CreateDeploymentTemplateHistoryFromEnvOverrideTemplate_entry (deps : ChartDeps)
    (charts : List Chart) (history history1 : List DeploymentTemplateHistory)
    (envOverride : EnvConfigOverride) (tx : Bool) (IsAppMetricsEnabled : Bool) (pipelineId : Int)
    (hres : CreateDeploymentTemplateHistoryFromEnvOverrideTemplate deps charts history
      envOverride tx IsAppMetricsEnabled pipelineId = (none, history1)) :
    ∃ (h : DeploymentTemplateHistory) (chart : Chart),
      ChartRepository.FindById charts envOverride.ChartId = (chart, none) ∧
      history1 = history ++ [h] ∧
      h.Deployed = false ∧ h.TargetEnvironment = envOverride.TargetEnvironment ∧
      h.AppId = chart.AppId ∧ h.IsAppMetricsEnabled = IsAppMetricsEnabled ∧
      h.Template = (if envOverride.IsOverride then envOverride.EnvOverrideValues
        else chart.GlobalOverride) ∧
      h.PipelineId = (if pipelineId ≠ 0 then pipelineId
        else (deps.GetByEnvOverrideIdAndEnvId envOverride.Id
          envOverride.TargetEnvironment).1.Id) := by
  unfold CreateDeploymentTemplateHistoryFromEnvOverrideTemplate at hres
  rcases hf : ChartRepository.FindById charts envOverride.ChartId with ⟨chart, e0⟩
  rw [hf] at hres
  cases e0 with
  | some e => simp at hres
  | none =>
    simp only [] at hres
    cases hc : deps.chartRefFindById chart.ChartRefId with
    | error e => rw [hc] at hres; simp at hres
    | ok chartRef0 =>
      rw [hc] at hres
      simp only [ite_self] at hres
      by_cases hp : pipelineId = 0
      · rw [if_pos hp] at hres
        by_cases hg : ((deps.GetByEnvOverrideIdAndEnvId envOverride.Id
            envOverride.TargetEnvironment).2.isSome &&
            (deps.GetByEnvOverrideIdAndEnvId envOverride.Id envOverride.TargetEnvironment).2
              != some GoError.ErrNoRows) = true
        · rw [if_pos hg] at hres
          simp at hres
        · rw [if_neg hg] at hres
          simp only [] at hres
          obtain ⟨k, hk⟩ := CreateHistory_ok deps history history1 _ hres
          refine ⟨_, chart, rfl, hk, ?_, ?_, ?_, ?_, ?_, ?_⟩
          · cases envOverride.IsOverride <;> rfl
          · cases envOverride.IsOverride <;> rfl
          · cases envOverride.IsOverride <;> rfl
          · cases envOverride.IsOverride <;> rfl
          · cases envOverride.IsOverride <;> rfl
          · have hnn : ¬ (pipelineId ≠ 0) := by simp [hp]
            rw [if_neg hnn]
            cases envOverride.IsOverride <;> rfl
      · rw [if_neg hp] at hres
        simp only [] at hres
        obtain ⟨k, hk⟩ := CreateHistory_ok deps history history1 _ hres
        refine ⟨_, chart, rfl, hk, ?_, ?_, ?_, ?_, ?_, ?_⟩
        · cases envOverride.IsOverride <;> rfl
        · cases envOverride.IsOverride <;> rfl
        · cases envOverride.IsOverride <;> rfl
        · cases envOverride.IsOverride <;> rfl
        · cases envOverride.IsOverride <;> rfl
        · rw [if_pos hp]
          cases envOverride.IsOverride <;> rfl

/-- Witness for C20: an overriding environment override, no pipeline id given,
pipeline 9 bound to the override. -/
theorem CreateDeploymentTemplateHistoryFromEnvOverrideTemplate_entry_witness :
    CreateDeploymentTemplateHistoryFromEnvOverrideTemplate boundToNine [chartSeven] []
        overrideEnvTwo false true 0 =
      (none,
        [{ Id := 1, PipelineId := 9, AppId := 7, ImageDescriptorTemplate := "image",
           Template := "override", TargetEnvironment := 2, TemplateName := "Rollout Deployment",
           TemplateVersion := "1.2.0", IsAppMetricsEnabled := true }]) ∧
    ∃ (h : DeploymentTemplateHistory) (chart : Chart),
      ChartRepository.FindById [chartSeven] overrideEnvTwo.ChartId = (chart, none) ∧
      (CreateDeploymentTemplateHistoryFromEnvOverrideTemplate boundToNine [chartSeven] []
        overrideEnvTwo false true 0).2 = [] ++ [h] ∧
      h.Deployed = false ∧ h.TargetEnvironment = overrideEnvTwo.TargetEnvironment ∧
      h.AppId = chart.AppId ∧ h.IsAppMetricsEnabled = true ∧
      h.Template = (if overrideEnvTwo.IsOverride then overrideEnvTwo.EnvOverrideValues
        else chart.GlobalOverride) ∧
      h.PipelineId = (if (0 : Int) ≠ 0 then 0
        else (boundToNine.GetByEnvOverrideIdAndEnvId overrideEnvTwo.Id
          overrideEnvTwo.TargetEnvironment).1.Id) :=
  ⟨by decide,
   CreateDeploymentTemplateHistoryFromEnvOverrideTemplate_entry boundToNine [chartSeven] [] _
     overrideEnvTwo false true 0 (by decide)⟩

theorem resolveAppMetrics_spec (deps : ChartDeps) (envLevel : List EnvLevelAppMetrics)
    (appLevel : List AppLevelMetrics) (pipeline : Pipeline) (v : Bool)
    (h : resolveAppMetrics deps envLevel appLevel pipeline = Except.ok v) :
    (∀ row, EnvLevelAppMetricsRepository.FindByAppIdAndEnvId deps envLevel pipeline.AppId
        pipeline.EnvironmentId = (row, none) → row.AppMetrics = some v) ∧
    ((EnvLevelAppMetricsRepository.FindByAppIdAndEnvId deps envLevel pipeline.AppId
        pipeline.EnvironmentId).2 = some GoError.ErrNoRows →
      ∀ row, AppLevelMetricsRepository.FindByAppId deps appLevel pipeline.AppId = (row, none) →
        v = row.AppMetrics) ∧
    ((EnvLevelAppMetricsRepository.FindByAppIdAndEnvId deps envLevel pipeline.AppId
        pipeline.EnvironmentId).2 = some GoError.ErrNoRows →
      (AppLevelMetricsRepository.FindByAppId deps appLevel pipeline.AppId).2
        = some GoError.ErrNoRows → v = false) := by
  unfold resolveAppMetrics at h
  simp only [] at h
  rcases he : EnvLevelAppMetricsRepository.FindByAppIdAndEnvId deps envLevel pipeline.AppId
      pipeline.EnvironmentId with ⟨er, ee⟩
  rw [he] at h
  cases ee with
  | none =>
    simp only [] at h
    cases hm : er.AppMetrics with
    | none => rw [hm] at h; simp at h
    | some b =>
      rw [hm] at h
      simp only [Except.ok.injEq] at h
      subst h
      refine ⟨?_, ?_, ?_⟩
      · intro row hrow
        simp only [Prod.mk.injEq, and_true] at hrow
        rw [← hrow, hm]
      · intro hn; cases hn
      · intro hn; cases hn
  | some err =>
    simp only [] at h
    by_cases hne : err ≠ GoError.ErrNoRows
    · rw [if_pos hne] at h
      cases h
    · rw [if_neg hne] at h
      rcases ha : AppLevelMetricsRepository.FindByAppId deps appLevel pipeline.AppId
        with ⟨ar, ae⟩
      rw [ha] at h
      refine ⟨?_, ?_, ?_⟩
      · intro row hrow; cases hrow
      · intro _ row hrow
        simp only [Prod.mk.injEq] at hrow
        obtain ⟨h1, h2⟩ := hrow
        subst h1 h2
        simp only [Except.ok.injEq] at h
        exact h.symm
      · intro _ hae
        simp only [] at hae
        subst hae
        simp only [ne_eq, not_true_eq_false, if_false, Except.ok.injEq] at h
        exact h.symm

/-- C18. The history entry written by
`CreateDeploymentTemplateHistoryForDeploymentTrigger` is the one row the call
appends, has `Deployed = true`, and has `IsAppMetricsEnabled` equal to the
`AppMetrics` value of the environment-level row when the lookup for
(`pipeline.AppId`, `pipeline.EnvironmentId`) returns one; otherwise (that
lookup returning `ErrNoRows`) equal to the `AppMetrics` value of the
application-level row when the lookup for `pipeline.AppId` returns one;
otherwise (both lookups returning `ErrNoRows`) equal to `false`. -/
theorem CreateDeploymentTemplateHistoryForDeploymentTrigger_app_metrics (deps : ChartDeps)
    (history history1 : List DeploymentTemplateHistory) (envLevel : List EnvLevelAppMetrics)
    (appLevel : List AppLevelMetrics) (pipeline : Pipeline) (envOverride : EnvConfigOverride)
    (renderedImageTemplate : String) (deployedOn : Time) (deployedBy : Int)
    (h : DeploymentTemplateHistory)
    (hres : CreateDeploymentTemplateHistoryForDeploymentTrigger deps history envLevel appLevel
      pipeline envOverride renderedImageTemplate deployedOn deployedBy
      = (some h, none, history1)) :
    history1 = history ++ [h] ∧ h.Deployed = true ∧ h.PipelineId = pipeline.Id ∧
    (∀ row, EnvLevelAppMetricsRepository.FindByAppIdAndEnvId deps envLevel pipeline.AppId
        pipeline.EnvironmentId = (row, none) → row.AppMetrics = some h.IsAppMetricsEnabled) ∧
    ((EnvLevelAppMetricsRepository.FindByAppIdAndEnvId deps envLevel pipeline.AppId
        pipeline.EnvironmentId).2 = some GoError.ErrNoRows →
      ∀ row, AppLevelMetricsRepository.FindByAppId deps appLevel pipeline.AppId = (row, none) →
        h.IsAppMetricsEnabled = row.AppMetrics) ∧
    ((EnvLevelAppMetricsRepository.FindByAppIdAndEnvId deps envLevel pipeline.AppId
        pipeline.EnvironmentId).2 = some GoError.ErrNoRows →
      (AppLevelMetricsRepository.FindByAppId deps appLevel pipeline.AppId).2
        = some GoError.ErrNoRows → h.IsAppMetricsEnabled = false) := by
  unfold CreateDeploymentTemplateHistoryForDeploymentTrigger at hres
  cases hc : deps.chartRefFindById envOverride.Chart.ChartRefId with
  | error e => rw [hc] at hres; simp at hres
  | ok chartRef0 =>
    rw [hc] at hres
    simp only [] at hres
    cases hr : resolveAppMetrics deps envLevel appLevel pipeline with
    | error e => rw [hr] at hres; simp at hres
    | ok v =>
      rw [hr] at hres
      simp only [] at hres
      obtain ⟨s1, s2, s3⟩ := resolveAppMetrics_spec deps envLevel appLevel pipeline v hr
      rcases hh : CreateHistory deps history
          (if envOverride.IsOverride = true then
            ({ AppId := pipeline.AppId, PipelineId := pipeline.Id,
               TargetEnvironment := pipeline.EnvironmentId,
               ImageDescriptorTemplate := renderedImageTemplate, Deployed := true,
               DeployedBy := deployedBy, DeployedOn := deployedOn,
               TemplateName := (if chartRef0.Name.length = 0 then
                 { chartRef0 with Name := "Rollout Deployment" } else chartRef0).Name,
               TemplateVersion := (if chartRef0.Name.length = 0 then
                 { chartRef0 with Name := "Rollout Deployment" } else chartRef0).Version,
               IsAppMetricsEnabled := v,
               Audit := { CreatedOn := deployedOn.instant, CreatedBy := deployedBy,
                          UpdatedOn := deployedOn.instant, UpdatedBy := deployedBy },
               Template := envOverride.EnvOverrideValues } : DeploymentTemplateHistory)
          else
            { AppId := pipeline.AppId, PipelineId := pipeline.Id,
              TargetEnvironment := pipeline.EnvironmentId,
              ImageDescriptorTemplate := renderedImageTemplate, Deployed := true,
              DeployedBy := deployedBy, DeployedOn := deployedOn,
              TemplateName := (if chartRef0.Name.length = 0 then
                { chartRef0 with Name := "Rollout Deployment" } else chartRef0).Name,
              TemplateVersion := (if chartRef0.Name.length = 0 then
                { chartRef0 with Name := "Rollout Deployment" } else chartRef0).Version,
              IsAppMetricsEnabled := v,
              Audit := { CreatedOn := deployedOn.instant, CreatedBy := deployedBy,
                         UpdatedOn := deployedOn.instant, UpdatedBy := deployedBy },
              Template := envOverride.Chart.GlobalOverride }) with ⟨e, history2⟩
      rw [hh] at hres
      cases e with
      | some e => simp at hres
      | none =>
        simp only [Prod.mk.injEq, true_and] at hres
        obtain ⟨hlast, hhist⟩ := hres
        subst hhist
        obtain ⟨k, hk⟩ := CreateHistory_ok deps history history2 _ hh
        rw [hk, List.getLast?_append_of_ne_nil _ (by simp)] at hlast
        simp only [List.getLast?_singleton, Option.some.injEq] at hlast
        have hflag : h.IsAppMetricsEnabled = v := by
          rw [← hlast]; cases envOverride.IsOverride <;> rfl
        have hdep : h.Deployed = true := by
          rw [← hlast]; cases envOverride.IsOverride <;> rfl
        have hpid : h.PipelineId = pipeline.Id := by
          rw [← hlast]; cases envOverride.IsOverride <;> rfl
        rw [hflag]
        refine ⟨?_, hdep, hpid, s1, s2, s3⟩
        rw [hk, hlast]

/-- Witness for C18: no environment-level row, an application-level row with
`AppMetrics = true`; the entry written has `IsAppMetricsEnabled = true`. -/
theorem CreateDeploymentTemplateHistoryForDeploymentTrigger_app_metrics_witness :
    CreateDeploymentTemplateHistoryForDeploymentTrigger {} [] []
        [{ Id := 1, AppId := 7, AppMetrics := true }] pipelineFour overrideEnvTwo "rendered" 10 3
      = (some triggerEntry, none, [triggerEntry]) ∧
    triggerEntry.IsAppMetricsEnabled = true ∧
    ((EnvLevelAppMetricsRepository.FindByAppIdAndEnvId {} [] pipelineFour.AppId
        pipelineFour.EnvironmentId).2 = some GoError.ErrNoRows →
      ∀ row, AppLevelMetricsRepository.FindByAppId {} [{ Id := 1, AppId := 7, AppMetrics := true }]
          pipelineFour.AppId = (row, none) →
        triggerEntry.IsAppMetricsEnabled = row.AppMetrics) :=
  ⟨by decide, by decide,
   (CreateDeploymentTemplateHistoryForDeploymentTrigger_app_metrics {} [] [triggerEntry] []
      [{ Id := 1, AppId := 7, AppMetrics := true }] pipelineFour overrideEnvTwo "rendered" 10 3
      triggerEntry (by decide)).2.2.2.2.1⟩

/-! ## The history log is append-only (C21) -/

theorem CreateHistory_extends (deps : ChartDeps) (history : List DeploymentTemplateHistory)
    (model : DeploymentTemplateHistory) :
    history <+: (CreateHistory deps history model).2 := by
  unfold CreateHistory
  split
  · exact List.prefix_refl _
  · exact List.prefix_append _ _

theorem createPipelineHistories_extends (deps : ChartDeps) (chart : Chart) (chartRef : ChartRef)
    (flag : Bool) : ∀ (ps : List Pipeline) (history : List DeploymentTemplateHistory),
    history <+: (createPipelineHistories deps chart chartRef flag ps history).2 := by
  intro ps
  induction ps with
  | nil => intro history; exact List.prefix_refl _
  | cons p rest ih =>
    intro history
    rw [createPipelineHistories]
    have h1 := CreateHistory_extends deps history
      { AppId := chart.AppId, PipelineId := p.Id,
        ImageDescriptorTemplate := chart.ImageDescriptorTemplate,
        Template := chart.GlobalOverride, Deployed := false,
        TemplateName := chartRef.Name, TemplateVersion := chartRef.Version,
        IsAppMetricsEnabled := flag, Audit := chart.Audit }
    split
    · rename_i e history1 heq
      rw [heq] at h1
      exact h1
    · rename_i history1 heq
      rw [heq] at h1
      exact h1.trans (ih history1)

theorem FromGlobalTemplate_extends (deps : ChartDeps) (history : List DeploymentTemplateHistory)
    (chart : Chart) (flag : Bool) :
    history <+: (CreateDeploymentTemplateHistoryFromGlobalTemplate deps history chart flag).2 := by
  unfold CreateDeploymentTemplateHistoryFromGlobalTemplate
  simp only []
  split
  · exact List.prefix_refl _
  · split
    · exact List.prefix_refl _
    · rename_i chartRef0 _
      have h1 := CreateHistory_extends deps history
        { AppId := chart.AppId, ImageDescriptorTemplate := chart.ImageDescriptorTemplate,
          Template := chart.GlobalOverride, Deployed := false,
          TemplateName := (if chartRef0.Name.length = 0 then
            { chartRef0 with Name := "Rollout Deployment" } else chartRef0).Name,
          TemplateVersion := (if chartRef0.Name.length = 0 then
            { chartRef0 with Name := "Rollout Deployment" } else chartRef0).Version,
          IsAppMetricsEnabled := flag, Audit := chart.Audit }
      split
      · rename_i e history1 heq
        rw [heq] at h1
        exact h1
      · rename_i history1 heq
        rw [heq] at h1
        exact h1.trans (createPipelineHistories_extends deps chart _ flag _ history1)

theorem FromEnvOverrideTemplate_extends (deps : ChartDeps) (charts : List Chart)
    (history : List DeploymentTemplateHistory) (envOverride : EnvConfigOverride) (tx : Bool)
    (flag : Bool) (pipelineId : Int) :
    history <+: (CreateDeploymentTemplateHistoryFromEnvOverrideTemplate deps charts history
      envOverride tx flag pipelineId).2 := by
  unfold CreateDeploymentTemplateHistoryFromEnvOverrideTemplate
  split
  · exact List.prefix_refl _
  · split
    · exact List.prefix_refl _
    · simp only []
      split
      · exact List.prefix_refl _
      · split <;> exact CreateHistory_extends deps history _

theorem ForDeploymentTrigger_extends (deps : ChartDeps)
    (history : List DeploymentTemplateHistory) (envLevel : List EnvLevelAppMetrics)
    (appLevel : List AppLevelMetrics) (pipeline : Pipeline) (envOverride : EnvConfigOverride)
    (renderedImageTemplate : String) (deployedOn : Time) (deployedBy : Int) :
    history <+: (CreateDeploymentTemplateHistoryForDeploymentTrigger deps history envLevel
      appLevel pipeline envOverride renderedImageTemplate deployedOn deployedBy).2.2 := by
  have key : ∀ m : DeploymentTemplateHistory,
      history <+: (match CreateHistory deps history m with
        | (some e, history1) =>
          ((none : Option DeploymentTemplateHistory), some e, history1)
        | (none, history1) => (history1.getLast?, none, history1)).2.2 := by
    intro m
    have h1 := CreateHistory_extends deps history m
    rcases hc : CreateHistory deps history m with ⟨e, history1⟩
    rw [hc] at h1
    cases e <;> exact h1
  unfold CreateDeploymentTemplateHistoryForDeploymentTrigger
  cases deps.chartRefFindById envOverride.Chart.ChartRefId with
  | error e => exact List.prefix_refl _
  | ok chartRef0 =>
    simp only []
    cases resolveAppMetrics deps envLevel appLevel pipeline with
    | error e => exact List.prefix_refl _
    | ok v => exact key _

/-- C21. The deployment-template history is append-only: for every call,
successful or failing, of `CreateDeploymentTemplateHistoryFromGlobalTemplate`,
`CreateDeploymentTemplateHistoryFromEnvOverrideTemplate` and
`CreateDeploymentTemplateHistoryForDeploymentTrigger`, the history log before
the call is a prefix of the log after the call. -/
theorem history_is_append_only (deps : ChartDeps) (charts : List Chart)
    (history : List DeploymentTemplateHistory) (chart : Chart) (envOverride : EnvConfigOverride)
    (tx IsAppMetricsEnabled : Bool) (pipelineId : Int) (envLevel : List EnvLevelAppMetrics)
    (appLevel : List AppLevelMetrics) (pipeline : Pipeline) (renderedImageTemplate : String)
    (deployedOn : Time) (deployedBy : Int) :
    history <+: (CreateDeploymentTemplateHistoryFromGlobalTemplate deps history chart
      IsAppMetricsEnabled).2 ∧
    history <+: (CreateDeploymentTemplateHistoryFromEnvOverrideTemplate deps charts history
      envOverride tx IsAppMetricsEnabled pipelineId).2 ∧
    history <+: (CreateDeploymentTemplateHistoryForDeploymentTrigger deps history envLevel
      appLevel pipeline envOverride renderedImageTemplate deployedOn deployedBy).2.2 :=
  ⟨FromGlobalTemplate_extends deps history chart IsAppMetricsEnabled,
   FromEnvOverrideTemplate_extends deps charts history envOverride tx IsAppMetricsEnabled pipelineId,
   ForDeploymentTrigger_extends deps history envLevel appLevel pipeline envOverride
     renderedImageTemplate deployedOn deployedBy⟩

/-! ## Build failure (C24) -/

/-- C24. For every request that carries a `WorkflowId`, `HandleCiStepFailedEvent`
hands back the store as it got it (artifacts and workflow records unchanged),
returns the lookup error when the workflow cannot be loaded, returns the
lookup error when the workflow is loaded and the pipeline cannot be, and
returns `nil` when both are loaded, whatever the delivery of the failure
notification gives. -/
theorem HandleCiStepFailedEvent_touches_nothing (deps : WebhookDeps) (db : Db)
    (ciPipelineId : Int) (request : CiArtifactWebhookRequest) (w : Int)
    (hw : request.WorkflowId = some w) :
    (HandleCiStepFailedEvent deps db ciPipelineId request).db = db ∧
    (∀ e, (CiWorkflowRepository.FindById db w).2 = some e →
      (HandleCiStepFailedEvent deps db ciPipelineId request).err = some e ∧
      (HandleCiStepFailedEvent deps db ciPipelineId request).notification = none) ∧
    (∀ e, (CiWorkflowRepository.FindById db w).2 = none →
      (CiPipelineRepository.FindByCiAndAppDetailsById db ciPipelineId).2 = some e →
      (HandleCiStepFailedEvent deps db ciPipelineId request).err = some e ∧
      (HandleCiStepFailedEvent deps db ciPipelineId request).notification = none) ∧
    ((CiWorkflowRepository.FindById db w).2 = none →
      (CiPipelineRepository.FindByCiAndAppDetailsById db ciPipelineId).2 = none →
      (HandleCiStepFailedEvent deps db ciPipelineId request).err = none ∧
      (HandleCiStepFailedEvent deps db ciPipelineId request).notification ≠ none) := by
  unfold HandleCiStepFailedEvent
  rw [hw]
  simp only []
  rcases CiWorkflowRepository.FindById db w with ⟨wf, e1⟩
  cases e1 with
  | some e1 =>
    refine ⟨rfl, ?_, ?_, ?_⟩
    · intro e he; cases he; exact ⟨rfl, rfl⟩
    · intro e he; cases he
    · intro he; cases he
  | none =>
    simp only []
    rcases CiPipelineRepository.FindByCiAndAppDetailsById db ciPipelineId with ⟨pl, e2⟩
    cases e2 with
    | some e2 =>
      refine ⟨rfl, ?_, ?_, ?_⟩
      · intro e he; cases he
      · intro e _ he; cases he; exact ⟨rfl, rfl⟩
      · intro _ he; cases he
    | none =>
      refine ⟨rfl, ?_, ?_, ?_⟩
      · intro e he; cases he
      · intro e _ he; cases he
      · intro _ _; exact ⟨rfl, by simp⟩

/-- Witness for C24: workflow 5 and pipeline 1 are stored and the notification
cannot be delivered; the call returns `nil` and the store is untouched. -/
theorem HandleCiStepFailedEvent_touches_nothing_witness :
    (HandleCiStepFailedEvent deliveryFails runningWorkflowDb 1
        { WorkflowId := some 5, FailureReason := "step failed" }).db = runningWorkflowDb ∧
    (HandleCiStepFailedEvent deliveryFails runningWorkflowDb 1
        { WorkflowId := some 5, FailureReason := "step failed" }).err = none ∧
    (HandleCiStepFailedEvent deliveryFails runningWorkflowDb 1
        { WorkflowId := some 5, FailureReason := "step failed" }).notification
      = some ({ PipelineId := 1, CiWorkflowRunnerId := 5, FailureReason := "step failed" },
          some (GoError.other "event client unreachable")) :=
  have h := HandleCiStepFailedEvent_touches_nothing deliveryFails runningWorkflowDb 1
    { WorkflowId := some 5, FailureReason := "step failed" } 5 rfl
  ⟨h.1, (h.2.2.2 (by decide) (by decide)).1, by decide⟩

/-! ## Successful `UpdateAppOverride` (C22, C28) -/

theorem writeAsLatest_success (deps : ChartDeps) (db1 : ChartDb)
    (templateRequest : TemplateRequest) (template : Chart)
    (hok : (writeAsLatest deps db1 templateRequest template).err = none) :
    ∃ values, deps.JsonPatch template.Values templateRequest.ValuesOverride = Except.ok values ∧
      (writeAsLatest deps db1 templateRequest template).db.charts =
        db1.charts.map (fun r => if r.Id = template.Id
          then overriddenChart deps templateRequest template values else r) := by
  unfold writeAsLatest at hok ⊢
  cases hj : deps.JsonPatch template.Values templateRequest.ValuesOverride with
  | error e => rw [hj] at hok; simp at hok
  | ok values =>
    rw [hj] at hok
    simp only [] at hok ⊢
    refine ⟨values, rfl, ?_⟩
    rcases Update_cases deps db1.charts (overriddenChart deps templateRequest template values)
      with ⟨e, hu⟩ | hu
    · have hu2 : ChartRepository.Update deps db1.charts
          { template with
            Values := values,
            Audit := { template.Audit with UpdatedOn := deps.now,
                                           UpdatedBy := templateRequest.UserId },
            GlobalOverride := templateRequest.ValuesOverride,
            Latest := true, Previous := false,
            IsBasicViewLocked := templateRequest.IsBasicViewLocked,
            CurrentViewEditor := templateRequest.CurrentViewEditor } = (some e, db1.charts) := hu
      rw [hu2] at hok
      simp at hok
    · have hu2 : ChartRepository.Update deps db1.charts
          { template with
            Values := values,
            Audit := { template.Audit with UpdatedOn := deps.now,
                                           UpdatedBy := templateRequest.UserId },
            GlobalOverride := templateRequest.ValuesOverride,
            Latest := true, Previous := false,
            IsBasicViewLocked := templateRequest.IsBasicViewLocked,
            CurrentViewEditor := templateRequest.CurrentViewEditor } =
          (none, db1.charts.map (fun r =>
            if r.Id = (overriddenChart deps templateRequest template values).Id
            then overriddenChart deps templateRequest template values else r)) := hu
      rw [hu2]
      simp only []
      rw [finishUpdate_charts]
      rfl

/-- The chart table after an `UpdateAppOverride` that returns no error: either
the chart named by the request is the current latest chart and the call
changed nothing or only wrote that chart, or the current latest chart was
retired first. -/
theorem UpdateAppOverride_success (deps : ChartDeps) (db : ChartDb)
    (templateRequest : TemplateRequest)
    (hok : (UpdateAppOverride deps db templateRequest).err = none) :
    ∃ c template : Chart,
      ChartRepository.FindById db.charts templateRequest.Id = (template, none) ∧
      ChartRepository.FindLatestChartForAppByAppId db.charts templateRequest.AppId = (c, none) ∧
      ((c.Id = templateRequest.Id ∧ (UpdateAppOverride deps db templateRequest).chart = none ∧
          (UpdateAppOverride deps db templateRequest).db = db) ∨
        ∃ (values : String) (rows1 : List Chart),
          deps.JsonPatch template.Values templateRequest.ValuesOverride = Except.ok values ∧
          ((c.Id = templateRequest.Id ∧ rows1 = db.charts) ∨
            (c.Id ≠ templateRequest.Id ∧
              retireCurrentLatest deps db.charts templateRequest.AppId templateRequest.Id c
                = (none, rows1))) ∧
          (UpdateAppOverride deps db templateRequest).db.charts =
            rows1.map (fun r => if r.Id = template.Id
              then overriddenChart deps templateRequest template values else r)) := by
  unfold UpdateAppOverride at hok ⊢
  rcases h1 : ChartRepository.FindById db.charts templateRequest.Id with ⟨template, e1⟩
  rw [h1] at hok
  cases e1 with
  | some e => simp at hok
  | none =>
    simp only [] at hok ⊢
    rcases h2 : ChartRepository.FindLatestChartForAppByAppId db.charts templateRequest.AppId
      with ⟨c, e2⟩
    rw [h2] at hok
    cases e2 with
    | some e => simp at hok
    | none =>
      simp only [] at hok ⊢
      refine ⟨c, template, rfl, rfl, ?_⟩
      by_cases hsame : (decide (c.Id > 0) && c.Id == templateRequest.Id) = true
      · rw [if_pos hsame] at hok ⊢
        simp only [] at hok ⊢
        simp only [Bool.and_eq_true, decide_eq_true_eq, beq_iff_eq] at hsame
        obtain ⟨values, hv, hch⟩ := writeAsLatest_success deps _ templateRequest template hok
        exact Or.inr ⟨values, db.charts, hv, Or.inl ⟨hsame.2, rfl⟩, hch⟩
      · rw [if_neg hsame] at hok ⊢
        by_cases hne : c.Id ≠ templateRequest.Id
        · rw [if_pos hne] at hok ⊢
          rcases hret : retireCurrentLatest deps db.charts templateRequest.AppId
            templateRequest.Id c with ⟨e5, rows1⟩
          rw [hret] at hok
          cases e5 with
          | some e => simp at hok
          | none =>
            simp only [] at hok ⊢
            obtain ⟨values, hv, hch⟩ := writeAsLatest_success deps _ templateRequest template hok
            exact Or.inr ⟨values, rows1, hv, Or.inr ⟨hne, rfl⟩, hch⟩
        · rw [if_neg hne]
          exact Or.inl ⟨not_not.mp hne, rfl, rfl⟩

/-- C22. For every `UpdateAppOverride` that returns no error, on the chart with
the request's id, for an application whose current latest chart is `c` (the
only row of the application with `Latest = true`): the keys of the table are
unchanged; when `c` is another chart, afterwards the row with the request's id
has `Latest = true` and `Previous = false`, the row of `c` has `Latest = false`
and `Previous = true`, and every other row of the application has
`Previous = false`; when `c` is the chart with the request's id, every other
row of the table is a row of the table before the call. -/
theorem UpdateAppOverride_reassigns_flags (deps : ChartDeps) (db : ChartDb)
    (templateRequest : TemplateRequest) (c : Chart)
    (hc : c ∈ db.charts) (hcapp : c.AppId = templateRequest.AppId) (hclat : c.Latest = true)
    (huniq : ∀ r ∈ db.charts, r.AppId = templateRequest.AppId → r.Latest = true → r = c)
    (hok : (UpdateAppOverride deps db templateRequest).err = none) :
    (∃ t ∈ db.charts, t.Id = templateRequest.Id) ∧
    (UpdateAppOverride deps db templateRequest).db.charts.map (fun r => r.Id)
      = db.charts.map (fun r => r.Id) ∧
    (c.Id ≠ templateRequest.Id →
      ∀ r ∈ (UpdateAppOverride deps db templateRequest).db.charts,
        (r.Id = templateRequest.Id → r.Latest = true ∧ r.Previous = false) ∧
        (r.Id = c.Id → r.Latest = false ∧ r.Previous = true) ∧
        (r.AppId = templateRequest.AppId → r.Id ≠ templateRequest.Id → r.Id ≠ c.Id →
          r.Previous = false)) ∧
    (c.Id = templateRequest.Id →
      ∀ r ∈ (UpdateAppOverride deps db templateRequest).db.charts,
        r.Id ≠ templateRequest.Id → r ∈ db.charts) := by
  have hfind := FindLatest_unique db.charts templateRequest.AppId c hc hcapp hclat huniq
  obtain ⟨c1, template, hfi, hfl, hrest⟩ := UpdateAppOverride_success deps db templateRequest hok
  rw [hfind] at hfl
  simp only [Prod.mk.injEq, and_true] at hfl
  subst hfl
  obtain ⟨htm, htid⟩ := FindById_some db.charts templateRequest.Id template hfi
  refine ⟨⟨template, htm, htid⟩, ?_⟩
  rcases hrest with ⟨hsame, _, hdb⟩ | ⟨values, rows1, _, hrows, hch⟩
  · rw [hdb]
    refine ⟨rfl, fun hne => absurd hsame hne, fun _ r hr _ => hr⟩
  · have hmapid : ∀ rows : List Chart,
        (rows.map (fun r => if r.Id = template.Id
          then overriddenChart deps templateRequest template values else r)).map (fun r => r.Id)
        = rows.map (fun r => r.Id) := by
      intro rows
      rw [List.map_map]
      apply List.map_congr_left
      intro r _
      simp only [Function.comp]
      split
      · rename_i h; rw [h]; rfl
      · rfl
    rw [hch]
    rcases hrows with ⟨hsame, hrows⟩ | ⟨hne, hret⟩
    · subst hrows
      refine ⟨hmapid _, fun h => absurd hsame h, ?_⟩
      intro _ r hr hrid
      obtain ⟨r0, hr0, hr0eq⟩ := List.mem_map.mp hr
      by_cases h0 : r0.Id = template.Id
      · rw [if_pos h0] at hr0eq
        rw [← hr0eq] at hrid
        exact absurd htid hrid
      · rw [if_neg h0] at hr0eq
        rw [← hr0eq]
        exact hr0
    · have hids := retireCurrentLatest_ids deps db.charts templateRequest.AppId
        templateRequest.Id c
      rw [hret] at hids
      have hU : ∀ r ∈ db.charts, r.AppId = templateRequest.AppId → r.Latest = true →
          r.Id = c.Id := fun r hr h1 h2 => by rw [huniq r hr h1 h2]
      obtain ⟨s1, s2, _⟩ := retireCurrentLatest_success deps db.charts rows1
        templateRequest.AppId templateRequest.Id c hU hret
      refine ⟨(hmapid rows1).trans hids, ?_, fun h => absurd h hne⟩
      intro _ r hr
      obtain ⟨r0, hr0, hr0eq⟩ := List.mem_map.mp hr
      by_cases h0 : r0.Id = template.Id
      · rw [if_pos h0] at hr0eq
        subst hr0eq
        refine ⟨fun _ => ⟨rfl, rfl⟩, ?_, ?_⟩
        · intro h
          exact absurd (h.symm.trans htid) hne
        · intro _ h _
          exact absurd htid h
      · rw [if_neg h0] at hr0eq
        subst hr0eq
        refine ⟨?_, ?_, ?_⟩
        · intro h
          exact absurd (h.trans htid.symm) h0
        · intro h
          exact s1 r0 hr0 h
        · intro happ hnt hnc
          exact (s2 r0 hr0 happ hnc hnt).2

/-- Witness for C22: in `twoVersions` chart 2 is the latest chart of application
7; an override update of chart 1 makes chart 1 the latest and chart 2 the
previous one. -/
theorem UpdateAppOverride_reassigns_flags_witness :
    (UpdateAppOverride {} twoVersions { Id := 1, AppId := 7 }).err = none ∧
    (UpdateAppOverride {} twoVersions { Id := 1, AppId := 7 }).db.charts.map
      (fun r => (r.Id, r.Latest, r.Previous)) = [(1, true, false), (2, false, true)] ∧
    ((2 : Int) ≠ 1 →
      ∀ r ∈ (UpdateAppOverride {} twoVersions { Id := 1, AppId := 7 }).db.charts,
        (r.Id = 1 → r.Latest = true ∧ r.Previous = false) ∧
        (r.Id = 2 → r.Latest = false ∧ r.Previous = true) ∧
        (r.AppId = 7 → r.Id ≠ 1 → r.Id ≠ 2 → r.Previous = false)) :=
  ⟨by decide, by decide,
   (UpdateAppOverride_reassigns_flags {} twoVersions { Id := 1, AppId := 7 }
      { Id := 2, AppId := 7, ChartRefId := 11, ChartName := "app", ChartRepo := "repo",
        ChartVersion := "1.2.2", Latest := true }
      (by decide) (by decide) (by decide) (by decide) (by decide)).2.2.1⟩

/-- C28, counterexample. The stored chart has the object with member `a` as
`Values` and as `GlobalOverride`, and the delta is the object with member `b`.
The merge patch of either with the delta is the object with both members;
after the update `Values` is that object, and `GlobalOverride` is the delta
itself. -/
theorem UpdateAppOverride_global_override_not_merged :
    mergingPatch.JsonPatch "\x7b\"a\":1\x7d" "\x7b\"b\":2\x7d"
      = Except.ok "\x7b\"a\":1,\"b\":2\x7d" ∧
    (UpdateAppOverride mergingPatch objectA
        { Id := 1, AppId := 7, ValuesOverride := "\x7b\"b\":2\x7d" }).err = none ∧
    (UpdateAppOverride mergingPatch objectA
        { Id := 1, AppId := 7, ValuesOverride := "\x7b\"b\":2\x7d" }).db.charts.map
      (fun r => (r.Id, r.Values, r.GlobalOverride))
      = [(1, "\x7b\"a\":1,\"b\":2\x7d", "\x7b\"b\":2\x7d")] := by
  decide

/-- C28, amended. After an `UpdateAppOverride` with delta `d` that returns the
request without error, on a chart whose stored `Values` is `v`: `JsonPatch`
applied to `v` and `d` succeeded, and every row with the chart's id has as
`Values` the result of that patch and as `GlobalOverride` the delta `d`
itself. -/
theorem UpdateAppOverride_merges_values (deps : ChartDeps) (db : ChartDb)
    (templateRequest : TemplateRequest) (template : Chart)
    (hfind : ChartRepository.FindById db.charts templateRequest.Id = (template, none))
    (hok : (UpdateAppOverride deps db templateRequest).err = none)
    (hret : (UpdateAppOverride deps db templateRequest).chart ≠ none) :
    ∃ values, deps.JsonPatch template.Values templateRequest.ValuesOverride = Except.ok values ∧
      (∃ r ∈ (UpdateAppOverride deps db templateRequest).db.charts, r.Id = template.Id) ∧
      ∀ r ∈ (UpdateAppOverride deps db templateRequest).db.charts, r.Id = template.Id →
        r.Values = values ∧ r.GlobalOverride = templateRequest.ValuesOverride := by
  obtain ⟨c, template1, hfi, _, hrest⟩ := UpdateAppOverride_success deps db templateRequest hok
  rw [hfind] at hfi
  simp only [Prod.mk.injEq, and_true] at hfi
  subst hfi
  obtain ⟨htm, htid⟩ := FindById_some db.charts templateRequest.Id template hfind
  rcases hrest with ⟨_, hnone, _⟩ | ⟨values, rows1, hv, hrows, hch⟩
  · exact absurd hnone hret
  · refine ⟨values, hv, ?_, ?_⟩
    · have hmem : ∃ r0 ∈ rows1, r0.Id = template.Id := by
        rcases hrows with ⟨_, hrows⟩ | ⟨_, hretire⟩
        · rw [hrows]; exact ⟨template, htm, rfl⟩
        · have hids := retireCurrentLatest_ids deps db.charts templateRequest.AppId
            templateRequest.Id c
          rw [hretire] at hids
          have h1 : template.Id ∈ db.charts.map (fun r => r.Id) :=
            List.mem_map_of_mem _ htm
          rw [← hids] at h1
          obtain ⟨r0, hr0, hr0id⟩ := List.mem_map.mp h1
          exact ⟨r0, hr0, hr0id⟩
      obtain ⟨r0, hr0, hr0id⟩ := hmem
      refine ⟨overriddenChart deps templateRequest template values, ?_, rfl⟩
      rw [hch]
      exact List.mem_map.mpr ⟨r0, hr0, by rw [if_pos hr0id]⟩
    · intro r hr hrid
      rw [hch] at hr
      obtain ⟨r0, hr0, hr0eq⟩ := List.mem_map.mp hr
      by_cases h0 : r0.Id = template.Id
      · rw [if_pos h0] at hr0eq
        subst hr0eq
        exact ⟨rfl, rfl⟩
      · rw [if_neg h0] at hr0eq
        subst hr0eq
        exact absurd hrid h0

/-- Witness for the amended C28: the update of the counterexample. -/
theorem UpdateAppOverride_merges_values_witness :
    ∃ values, mergingPatch.JsonPatch "\x7b\"a\":1\x7d" "\x7b\"b\":2\x7d" = Except.ok values ∧
      (∃ r ∈ (UpdateAppOverride mergingPatch objectA
          { Id := 1, AppId := 7, ValuesOverride := "\x7b\"b\":2\x7d" }).db.charts, r.Id = 1) ∧
      ∀ r ∈ (UpdateAppOverride mergingPatch objectA
          { Id := 1, AppId := 7, ValuesOverride := "\x7b\"b\":2\x7d" }).db.charts, r.Id = 1 →
        r.Values = values ∧ r.GlobalOverride = "\x7b\"b\":2\x7d" :=
  UpdateAppOverride_merges_values mergingPatch objectA
    { Id := 1, AppId := 7, ValuesOverride := "\x7b\"b\":2\x7d" }
    { Id := 1, AppId := 7, ChartRefId := 10, ChartVersion := "1.2.1",
      Values := "\x7b\"a\":1\x7d", GlobalOverride := "\x7b\"a\":1\x7d", Latest := true }
    (by decide) (by decide) (by decide)

/-! ## Listing deployed history with run status (C25) -/

theorem indexByStartedOn_spec (full : List CdWorkflowRunner) :
    ∀ (l pre : List CdWorkflowRunner) (m : List (Time × Nat)), full = pre ++ l →
      (∀ p ∈ m, ∃ w, full[p.2]? = some w ∧ w.StartedOn = p.1) →
      (∀ w ∈ pre, ∃ v, (w.StartedOn, v) ∈ m) →
      (∀ p ∈ indexByStartedOn l pre.length m, ∃ w, full[p.2]? = some w ∧ w.StartedOn = p.1) ∧
      (∀ w ∈ full, ∃ v, (w.StartedOn, v) ∈ indexByStartedOn l pre.length m) := by
  intro l
  induction l with
  | nil =>
    intro pre m hfull h1 h2
    rw [List.append_nil] at hfull
    subst hfull
    exact ⟨h1, h2⟩
  | cons x rest ih =>
    intro pre m hfull h1 h2
    rw [indexByStartedOn]
    have hlen : (pre ++ [x]).length = pre.length + 1 := by simp
    rw [← hlen]
    apply ih (pre ++ [x]) ((x.StartedOn, pre.length) :: m)
    · rw [hfull]; simp
    · intro p hp
      rcases List.mem_cons.mp hp with hp | hp
      · rw [hp]
        refine ⟨x, ?_, rfl⟩
        rw [hfull, List.getElem?_append_right (le_refl _)]
        simp
      · exact h1 p hp
    · intro w hw
      rcases List.mem_append.mp hw with hw | hw
      · obtain ⟨v, hv⟩ := h2 w hw
        exact ⟨v, List.mem_cons_of_mem _ hv⟩
      · rw [List.mem_singleton.mp hw]
        exact ⟨pre.length, List.mem_cons_self _ _⟩

/-- A key of the map of run records is the `StartedOn` of the record at the
index stored for it, and a time that is no key is the `StartedOn` of no
record. -/
theorem lookupStartedOn_spec (wfrList : List CdWorkflowRunner) (t : Time) :
    (∀ idx, lookupStartedOn (indexByStartedOn wfrList 0 []) t = some idx →
      ∃ w, wfrList[idx]? = some w ∧ w.StartedOn = t) ∧
    (lookupStartedOn (indexByStartedOn wfrList 0 []) t = none →
      ∀ w ∈ wfrList, w.StartedOn ≠ t) := by
  obtain ⟨h1, h2⟩ := indexByStartedOn_spec wfrList wfrList [] [] rfl
    (fun p hp => by cases hp) (fun w hw => by cases hw)
  simp only [List.length_nil] at h1 h2
  unfold lookupStartedOn
  constructor
  · intro idx hidx
    cases hf : (indexByStartedOn wfrList 0 []).find? (fun p => p.1 == t) with
    | none => rw [hf] at hidx; cases hidx
    | some p =>
      rw [hf] at hidx
      simp only [Option.map_some', Option.some.injEq] at hidx
      have hp := List.find?_some hf
      simp only [beq_iff_eq] at hp
      obtain ⟨w, hw1, hw2⟩ := h1 p (List.mem_of_find?_eq_some hf)
      rw [hidx] at hw1
      exact ⟨w, hw1, hw2.trans hp⟩
  · intro hnone w hw heq
    cases hf : (indexByStartedOn wfrList 0 []).find? (fun p => p.1 == t) with
    | some p => rw [hf] at hnone; cases hnone
    | none =>
      obtain ⟨v, hv⟩ := h2 w hw
      have := List.find?_eq_none.mp hf (w.StartedOn, v) hv
      simp only [beq_iff_eq] at this
      exact this heq

theorem historiesToDto_spec (deps : ChartDeps) (wfrList : List CdWorkflowRunner) :
    ∀ (histories : List DeploymentTemplateHistory) (dtos : List DeploymentTemplateHistoryDto),
    historiesToDto deps wfrList (indexByStartedOn wfrList 0 []) histories = Except.ok dtos →
    List.Forall₂
      (fun dto h => dto.Id = h.Id ∧ dto.DeployedOn = h.DeployedOn ∧
        ∃ w ∈ wfrList, w.StartedOn = h.DeployedOn ∧ dto.DeploymentStatus = w.Status ∧
          dto.WfrId = w.Id ∧ dto.WorkflowType = w.WorkflowType)
      dtos
      (histories.filter (fun h => wfrList.any (fun w => w.StartedOn == h.DeployedOn))) := by
  intro histories
  induction histories with
  | nil =>
    intro dtos h
    simp only [historiesToDto, Except.ok.injEq] at h
    subst h
    exact List.Forall₂.nil
  | cons x rest ih =>
    intro dtos h
    rw [historiesToDto] at h
    obtain ⟨hs, hn⟩ := lookupStartedOn_spec wfrList x.DeployedOn
    cases hl : lookupStartedOn (indexByStartedOn wfrList 0 []) x.DeployedOn with
    | none =>
      rw [hl] at h
      simp only [] at h
      have hno := hn hl
      have hfalse : wfrList.any (fun w => w.StartedOn == x.DeployedOn) = false := by
        rw [List.any_eq_false]
        intro w hw
        simp only [beq_iff_eq]
        exact hno w hw
      rw [List.filter_cons]
      simp only [hfalse, Bool.false_eq_true, if_false]
      exact ih dtos h
    | some idx =>
      rw [hl] at h
      simp only [] at h
      obtain ⟨w, hw1, hw2⟩ := hs idx hl
      have hwmem : w ∈ wfrList := List.getElem?_mem hw1
      have htrue : wfrList.any (fun w => w.StartedOn == x.DeployedOn) = true := by
        rw [List.any_eq_true]
        exact ⟨w, hwmem, by simp [hw2]⟩
      rw [List.filter_cons]
      simp only [htrue, if_true]
      cases hu : deps.userGetById x.DeployedBy with
      | error e => rw [hu] at h; simp at h
      | ok emailId =>
        rw [hu, hw1] at h
        simp only [] at h
        cases hr : historiesToDto deps wfrList (indexByStartedOn wfrList 0 []) rest with
        | error e => rw [hr] at h; simp at h
        | ok tail =>
          rw [hr] at h
          simp only [Except.ok.injEq] at h
          subst h
          exact List.Forall₂.cons ⟨rfl, rfl, w, hwmem, hw2, rfl, rfl, rfl⟩ (ih tail hr)

/-- The times of an entry and of a run record are compared as `time.Time` map
keys: an entry whose `DeployedOn` is the instant of the only run record, read
in another location, has no matching run record and is left out. -/
theorem GetDeploymentDetails_other_location :
    GetDeploymentDetailsForDeployedTemplateHistory otherLocation 4 0 10 = Except.ok [] := by
  decide

/-- C25. `GetDeploymentDetailsForDeployedTemplateHistory` never fabricates a
deployment status: when it returns a list, the items correspond, one to one
and in order, to the fetched history entries whose `DeployedOn` equals the
`StartedOn` of some fetched run record (a subsequence of the fetched entries;
the other entries are left out), and each item's `DeploymentStatus`, `WfrId`
and `WorkflowType` are those of a fetched run record whose `StartedOn` equals
the entry's `DeployedOn`. The times are `time.Time` values and are equal as Go's
`==` has them equal: in their clock readings and in their location. -/
theorem GetDeploymentDetails_only_matched_runs (deps : ChartDeps)
    (pipelineId offset limit : Int) (dtos : List DeploymentTemplateHistoryDto)
    (hres : GetDeploymentDetailsForDeployedTemplateHistory deps pipelineId offset limit
      = Except.ok dtos) :
    List.Sublist
      ((deps.fetchDeployedHistories pipelineId offset limit).1.filter (fun h =>
        (deps.FindCdWorkflowMetaByPipelineId pipelineId offset limit).1.any
          (fun w => w.StartedOn == h.DeployedOn)))
      (deps.fetchDeployedHistories pipelineId offset limit).1 ∧
    List.Forall₂
      (fun dto h => dto.Id = h.Id ∧ dto.DeployedOn = h.DeployedOn ∧
        ∃ w ∈ (deps.FindCdWorkflowMetaByPipelineId pipelineId offset limit).1,
          w.StartedOn = h.DeployedOn ∧ dto.DeploymentStatus = w.Status ∧
          dto.WfrId = w.Id ∧ dto.WorkflowType = w.WorkflowType)
      dtos
      ((deps.fetchDeployedHistories pipelineId offset limit).1.filter (fun h =>
        (deps.FindCdWorkflowMetaByPipelineId pipelineId offset limit).1.any
          (fun w => w.StartedOn == h.DeployedOn))) := by
  refine ⟨List.filter_sublist _, ?_⟩
  unfold GetDeploymentDetailsForDeployedTemplateHistory at hres
  rcases hf : deps.fetchDeployedHistories pipelineId offset limit with ⟨histories, e⟩
  rw [hf] at hres
  cases e with
  | some e => simp at hres
  | none =>
    simp only [] at hres
    split at hres
    · simp at hres
    · exact historiesToDto_spec deps _ histories dtos hres

/-- Witness for C25: of three deployed entries the second has no run record;
the list has the first and the third, with the status of their runs. -/
theorem GetDeploymentDetails_only_matched_runs_witness :
    GetDeploymentDetailsForDeployedTemplateHistory threeHistories 4 0 10 =
      Except.ok matchedDtos ∧
    List.Forall₂
      (fun (dto : DeploymentTemplateHistoryDto) (h : DeploymentTemplateHistory) =>
        dto.Id = h.Id ∧ dto.DeployedOn = h.DeployedOn ∧
        ∃ w ∈ (threeHistories.FindCdWorkflowMetaByPipelineId 4 0 10).1,
          w.StartedOn = h.DeployedOn ∧ dto.DeploymentStatus = w.Status ∧
          dto.WfrId = w.Id ∧ dto.WorkflowType = w.WorkflowType)
      matchedDtos
      ((threeHistories.fetchDeployedHistories 4 0 10).1.filter (fun h =>
        (threeHistories.FindCdWorkflowMetaByPipelineId 4 0 10).1.any
          (fun w => w.StartedOn == h.DeployedOn))) :=
  ⟨by decide,
   (GetDeploymentDetails_only_matched_runs threeHistories 4 0 10 matchedDtos (by decide)).2⟩

/-! ## Listing the artifacts of a deployment pipeline (C27) -/

/-- C27, the code at two inputs. (a) One deployment record, for artifact 5: the
artifact is listed as deployed at the record's time, and no listed artifact
has `Latest = true`. (b) Three deployment records, for artifacts 5, 4 and 3,
created at times 30, 20 and 10: all three are listed as deployed, and
`Latest = true` is on artifact 3, whose record is the oldest. -/
theorem GetArtifactsByCDPipeline_latest_is_oldest :
    (GetArtifactsByCDPipeline oneDeployment 9 10 0 CI_WORKFLOW_TYPE).1.map
        (fun a => (a.Id, a.Deployed, a.DeployedTime, a.Latest))
      = [(5, true, 10, false), (4, false, 0, false)] ∧
    (GetArtifactsByCDPipeline threeDeployments 9 10 0 CI_WORKFLOW_TYPE).1.map
        (fun a => (a.Id, a.Deployed, a.DeployedTime, a.Latest))
      = [(5, true, 30, false), (4, true, 20, false), (3, true, 10, true)] := by
  decide

/-! ## Provenance of an artifact (C26) -/

theorem parseMaterials_wellFormed :
    ∀ (ms : List CiMaterialInfo) (scmMap : List (String × String)),
    (∀ m ∈ ms, wellFormedMaterial m) →
    parseMaterials (ms.map some) scmMap =
      Except.ok ((ms.map (fun m => (TrimSpace (materialUrl m), firstRevision m))).reverse
        ++ scmMap) := by
  intro ms
  induction ms with
  | nil => intro scmMap _; rfl
  | cons x rest ih =>
    intro scmMap hall
    obtain ⟨htype, hmods⟩ := hall x (List.mem_cons_self _ _)
    have hrest := ih ((TrimSpace (materialUrl x), firstRevision x) :: scmMap)
      (fun m hm => hall m (List.mem_cons_of_mem _ hm))
    rw [List.map_cons, parseMaterials]
    cases hm : x.Modifications with
    | nil => exact absurd hm hmods
    | cons first more =>
      have hrev : firstRevision x = first.Revision := by
        unfold firstRevision; rw [hm]
      rcases htype with hg | hs
      · have hurl : materialUrl x = x.Material.GitConfiguration.URL := by
          unfold materialUrl; rw [if_pos hg]
        simp only [if_pos hg]
        rw [← hurl, ← hrev, hrest]
        simp
      · by_cases hg : x.Material.Type_ = "git"
        · have hurl : materialUrl x = x.Material.GitConfiguration.URL := by
            unfold materialUrl; rw [if_pos hg]
          simp only [if_pos hg]
          rw [← hurl, ← hrev, hrest]
          simp
        · have hurl : materialUrl x = x.Material.ScmConfiguration.URL := by
            unfold materialUrl; rw [if_neg hg]
          simp only [if_neg hg, if_pos hs]
          rw [← hurl, ← hrev, hrest]
          simp

theorem parseMaterials_unknown_type (bad : CiMaterialInfo) (post : List CiMaterialInfo)
    (hg : bad.Material.Type_ ≠ "git") (hs : bad.Material.Type_ ≠ "scm") :
    ∀ (pre : List CiMaterialInfo) (scmMap : List (String × String)),
    (∀ m ∈ pre, wellFormedMaterial m) →
    parseMaterials ((pre ++ bad :: post).map some) scmMap =
      Except.error (GoError.other ("unknown material type:" ++ bad.Material.Type_ ++ " ")) := by
  intro pre
  induction pre with
  | nil =>
    intro scmMap _
    rw [List.nil_append, List.map_cons, parseMaterials]
    simp only [if_neg hg, if_neg hs]
  | cons x rest ih =>
    intro scmMap hall
    obtain ⟨htype, hmods⟩ := hall x (List.mem_cons_self _ _)
    rw [List.cons_append, List.map_cons, parseMaterials]
    cases hm : x.Modifications with
    | nil => exact absurd hm hmods
    | cons first more =>
      have hrest := fun acc => ih acc (fun m hm => hall m (List.mem_cons_of_mem _ hm))
      by_cases hxg : x.Material.Type_ = "git"
      · simp only [if_pos hxg]
        exact hrest _
      · have hxs : x.Material.Type_ = "scm" := by
          rcases htype with h | h
          · exact absurd h hxg
          · exact h
        simp only [if_neg hxg, if_pos hxs]
        exact hrest _

theorem lookupScm_reverse_map (ms : List CiMaterialInfo) (url : String) :
    lookupScm ((ms.map (fun m => (TrimSpace (materialUrl m), firstRevision m))).reverse) url =
      (ms.reverse.find? (fun m => TrimSpace (materialUrl m) == url)).map firstRevision := by
  unfold lookupScm
  rw [← List.map_reverse, List.find?_map, Option.map_map]
  rfl

/-- C26. `ParseMaterialInfo` returns an error, and no map, for every artifact
whose `DataSource` is not one of `GOCD`, `CI-RUNNER`, `EXTERNAL`. For an artifact
with a supported `DataSource` whose `MaterialInfo` decodes without error to
materials each of type `git` or `scm` and with a first modification, it returns
without error the map in which the value of a key is the revision of the first
modification of the last material whose white-space-trimmed URL (of its git or
scm configuration) is that key, and which has no other key. When the first
material of another type comes after materials of type `git` or `scm` with a
first modification, it returns the error naming that type, and no map. -/
theorem ParseMaterialInfo_spec (Unmarshal : String → List (Option CiMaterialInfo) × error)
    (info : CiArtifact) :
    ((info.DataSource ≠ "GOCD" ∧ info.DataSource ≠ "CI-RUNNER" ∧ info.DataSource ≠ "EXTERNAL") →
      (ParseMaterialInfo Unmarshal info).1 = none ∧
      (ParseMaterialInfo Unmarshal info).2 ≠ none) ∧
    ((info.DataSource = "GOCD" ∨ info.DataSource = "CI-RUNNER" ∨ info.DataSource = "EXTERNAL") →
      ∀ ms : List CiMaterialInfo, Unmarshal info.MaterialInfo = (ms.map some, none) →
        (∀ m ∈ ms, wellFormedMaterial m) →
        ∃ scmMap, ParseMaterialInfo Unmarshal info = (some scmMap, none) ∧
          ∀ url, lookupScm scmMap url =
            (ms.reverse.find? (fun m => TrimSpace (materialUrl m) == url)).map firstRevision) ∧
    ((info.DataSource = "GOCD" ∨ info.DataSource = "CI-RUNNER" ∨ info.DataSource = "EXTERNAL") →
      ∀ (pre : List CiMaterialInfo) (bad : CiMaterialInfo) (post : List CiMaterialInfo)
        (e : error),
        Unmarshal info.MaterialInfo = ((pre ++ bad :: post).map some, e) →
        (∀ m ∈ pre, wellFormedMaterial m) →
        bad.Material.Type_ ≠ "git" → bad.Material.Type_ ≠ "scm" →
        ParseMaterialInfo Unmarshal info =
          (none, some (GoError.other
            ("unknown material type:" ++ bad.Material.Type_ ++ " ")))) := by
  have hsupported : (info.DataSource = "GOCD" ∨ info.DataSource = "CI-RUNNER" ∨
      info.DataSource = "EXTERNAL") →
      ¬ (info.DataSource ≠ "GOCD" ∧ info.DataSource ≠ "CI-RUNNER" ∧
        info.DataSource ≠ "EXTERNAL") := by
    rintro (h | h | h) ⟨h1, h2, h3⟩
    · exact h1 h
    · exact h2 h
    · exact h3 h
  refine ⟨?_, ?_, ?_⟩
  · intro h
    unfold ParseMaterialInfo
    rw [if_pos h]
    exact ⟨rfl, by simp⟩
  · intro h ms hdec hwf
    unfold ParseMaterialInfo
    rw [if_neg (hsupported h)]
    simp only []
    rw [hdec]
    simp only []
    rw [parseMaterials_wellFormed ms [] hwf, List.append_nil]
    exact ⟨_, rfl, lookupScm_reverse_map ms⟩
  · intro h pre bad post e hdec hwf hg hs
    unfold ParseMaterialInfo
    rw [if_neg (hsupported h)]
    simp only []
    rw [hdec]
    simp only []
    rw [parseMaterials_unknown_type bad post hg hs pre [] hwf]

/-- Witness for C26: an `EXTERNAL` artifact with the two materials of
`twoMaterials`; the map has the trimmed git URL with revision `abc` and the scm
URL with revision `def`. -/
theorem ParseMaterialInfo_spec_witness :
    ParseMaterialInfo decodeTwoMaterials { DataSource := "EXTERNAL", MaterialInfo := "materials" }
      = (some [("https://example.com/b", "def"), ("https://example.com/a.git", "abc")], none) ∧
    ∃ scmMap,
      ParseMaterialInfo decodeTwoMaterials
          { DataSource := "EXTERNAL", MaterialInfo := "materials" } = (some scmMap, none) ∧
      ∀ url, lookupScm scmMap url =
        (twoMaterials.reverse.find? (fun m => TrimSpace (materialUrl m) == url)).map
          firstRevision :=
  ⟨by decide,
   (ParseMaterialInfo_spec decodeTwoMaterials
      { DataSource := "EXTERNAL", MaterialInfo := "materials" }).2.1
     (Or.inr (Or.inr rfl)) twoMaterials (by decide)
     (by unfold wellFormedMaterial; decide)⟩

/-! ## Authentication of an external-CI webhook (C29) -/

/-- C29, the code at three inputs. The registration 5 has the access token
`secret`, and `NQ==` is the base64 text of `5`. (a) The key `NQ==.secret` is
accepted with id 5, and the key `NQ==.other` is rejected. (b) No registration
has id 7 (`Nw==` is the base64 text of `7`): the lookup gives a zero record
with `ErrNoRows`, and the key `Nw==.`, whose token part is empty, is accepted
with id 7 and a `nil` error. -/
theorem AuthenticateExternalCiWebhook_accepts_empty_token :
    AuthenticateExternalCiWebhook registrationFive "NQ==.secret" = (5, none) ∧
    AuthenticateExternalCiWebhook registrationFive "NQ==.other"
      = (0, some (GoError.other "invalid key, auth failed")) ∧
    registrationFive.FindExternalCiByCiPipelineId 7 = ({}, some GoError.ErrNoRows) ∧
    AuthenticateExternalCiWebhook registrationFive "Nw==." = (7, none) := by
  decide

/-! ## The flagger canary switch (C30) -/

/-- C30, counterexample. (a) The `flaggerCanary` member is an object without the
`enabled` field: the call returns a non-nil error together with `true`.
(b) The `flaggerCanary` member is `null`, which is no JSON object and which
`json.Unmarshal` decodes without error: the call returns the same error
together with `true`. (c) `values` is `null`: the call returns `false` and a
`nil` error. -/
theorem FlaggerCanaryEnabled_true_with_error :
    FlaggerCanaryEnabled decodeSample "\x7b\"flaggerCanary\":\x7b\x7d\x7d" =
      (true, some (GoError.other
        "flagger canary enabled field must be set and be equal to false")) ∧
    FlaggerCanaryEnabled decodeSample "\x7b\"flaggerCanary\":null\x7d" =
      (true, some (GoError.other
        "flagger canary enabled field must be set and be equal to false")) ∧
    FlaggerCanaryEnabled decodeSample "null" = (false, none) := by
  decide

/-- C30, amended. `Unmarshal` being the decoding of a text into a map of member
names to raw values. `FlaggerCanaryEnabled` returns `false` with the error `e`
when decoding `values` fails with `e`. When `values` decodes to a map: it
returns `(false, nil)` when the map has no `flaggerCanary` key; it returns
`false` with the error `e` when decoding the `flaggerCanary` member fails with
`e`; it returns `true` with a non-nil error when the `flaggerCanary` member
decodes to a map without the `enabled` key; and it returns `(b, nil)`, with `b`
true exactly when the raw value of `enabled` is the literal `true`, when that
key is present. -/
theorem FlaggerCanaryEnabled_spec
    (Unmarshal : String → Except GoError (List (String × String))) (values : String) :
    (∀ e, Unmarshal values = Except.error e →
      FlaggerCanaryEnabled Unmarshal values = (false, some e)) ∧
    (∀ jsonMap, Unmarshal values = Except.ok jsonMap →
      jsonMap.find? (fun p => p.1 == "flaggerCanary") = none →
      FlaggerCanaryEnabled Unmarshal values = (false, none)) ∧
    (∀ jsonMap flaggerCanary, Unmarshal values = Except.ok jsonMap →
      jsonMap.find? (fun p => p.1 == "flaggerCanary") = some flaggerCanary →
      (∀ e, Unmarshal flaggerCanary.2 = Except.error e →
        FlaggerCanaryEnabled Unmarshal values = (false, some e)) ∧
      (∀ members, Unmarshal flaggerCanary.2 = Except.ok members →
        (members.find? (fun p => p.1 == "enabled") = none →
          (FlaggerCanaryEnabled Unmarshal values).1 = true ∧
          (FlaggerCanaryEnabled Unmarshal values).2 ≠ none) ∧
        (∀ enabled, members.find? (fun p => p.1 == "enabled") = some enabled →
          FlaggerCanaryEnabled Unmarshal values = (enabled.2 == "true", none)))) := by
  refine ⟨?_, ?_, ?_⟩
  · intro e he
    unfold FlaggerCanaryEnabled
    rw [he]
  · intro jsonMap hm hf
    unfold FlaggerCanaryEnabled
    rw [hm]
    simp only []
    rw [hf]
  · intro jsonMap flaggerCanary hm hf
    constructor
    · intro e he
      unfold FlaggerCanaryEnabled
      rw [hm]
      simp only []
      rw [hf]
      simp only []
      rw [he]
    · intro members hms
      constructor
      · intro hnone
        unfold FlaggerCanaryEnabled
        rw [hm]
        simp only []
        rw [hf]
        simp only []
        rw [hms]
        simp only []
        rw [hnone]
        exact ⟨rfl, by simp⟩
      · intro enabled hen
        unfold FlaggerCanaryEnabled
        rw [hm]
        simp only []
        rw [hf]
        simp only []
        rw [hms]
        simp only []
        rw [hen]

/-- Witness for the amended C30: `flaggerCanary.enabled` is the literal `true`. -/
theorem FlaggerCanaryEnabled_spec_witness :
    FlaggerCanaryEnabled decodeSample "\x7b\"flaggerCanary\":\x7b\"enabled\":true\x7d\x7d"
      = (true, none) ∧
    FlaggerCanaryEnabled decodeSample "\x7b\x7d" = (false, none) ∧
    FlaggerCanaryEnabled decodeSample "not json"
      = (false, some (GoError.other "invalid character")) :=
  ⟨((FlaggerCanaryEnabled_spec decodeSample
        "\x7b\"flaggerCanary\":\x7b\"enabled\":true\x7d\x7d").2.2
      [("flaggerCanary", "\x7b\"enabled\":true\x7d")]
      ("flaggerCanary", "\x7b\"enabled\":true\x7d") (by decide) (by decide)).2
      [("enabled", "true")] (by decide) |>.2 ("enabled", "true") (by decide),
   (FlaggerCanaryEnabled_spec decodeSample "\x7b\x7d").2.1 [] (by decide) (by decide),
   (FlaggerCanaryEnabled_spec decodeSample "not json").1 (GoError.other "invalid character")
     (by decide)⟩

/-! ## Upgrading an application to a new chart (C23) -/

theorem finishCreate_envOverrides (deps : ChartDeps) (db : ChartDb)
    (templateRequest : TemplateRequest) (chart : Chart) :
    (finishCreate deps db templateRequest chart).db.envOverrides = db.envOverrides := by
  unfold finishCreate
  split
  · rfl
  · simp only []
    split
    · rfl
    · split <;> rfl

theorem saveNewLatest_envOverrides (deps : ChartDeps) (db1 : ChartDb)
    (templateRequest : TemplateRequest) (chartName : String) (chartRepo : ChartRepo)
    (refChart templateName pipelineStrategyPath gitRepoUrl : String) :
    (saveNewLatest deps db1 templateRequest chartName chartRepo refChart templateName
      pipelineStrategyPath gitRepoUrl).db.envOverrides = db1.envOverrides := by
  unfold saveNewLatest
  split
  · rfl
  · split
    · rfl
    · rw [finishCreate_envOverrides]

theorem Create_envOverrides (deps : ChartDeps) (db : ChartDb)
    (templateRequest : TemplateRequest) :
    (Create deps db templateRequest).db.envOverrides = db.envOverrides := by
  unfold Create
  split
  · rfl
  · split
    · rfl
    · split
      · rfl
      · split
        · rfl
        · simp only []
          split
          · rfl
          · split
            · rfl
            · split
              · rfl
              · rw [saveNewLatest_envOverrides]

theorem chartAdaptor_id (chart : Chart) (appLevelMetrics : Option AppLevelMetrics)
    (h : (chartAdaptor chart appLevelMetrics).2 = none) :
    (chartAdaptor chart appLevelMetrics).1.Id = chart.Id := by
  unfold chartAdaptor at h ⊢
  by_cases hz : chart.Id = 0
  · rw [if_pos hz] at h; simp at h
  · rw [if_neg hz] at h ⊢
    simp only [] at h ⊢
    cases hp : getParentChartVersion chart.ChartVersion with
    | error e => rw [hp] at h; simp at h
    | ok v => rfl

theorem finishCreate_chart_id (deps : ChartDeps) (db : ChartDb)
    (templateRequest : TemplateRequest) (chart : Chart) (req : TemplateRequest) :
    (finishCreate deps db templateRequest chart).chart = some req →
    (finishCreate deps db templateRequest chart).err = none →
    req.Id = chart.Id := by
  unfold finishCreate
  split
  · intro h; cases h
  · simp only []
    split
    · intro h; cases h
    · split
      · intro h; cases h
      · intro h he
        simp only [Option.some.injEq] at h he
        rw [← h]
        exact chartAdaptor_id _ _ he

theorem saveNewLatest_new_chart (deps : ChartDeps) (db1 : ChartDb)
    (templateRequest : TemplateRequest) (chartName : String) (chartRepo : ChartRepo)
    (refChart templateName pipelineStrategyPath gitRepoUrl : String) (req : TemplateRequest)
    (hc : (saveNewLatest deps db1 templateRequest chartName chartRepo refChart templateName
      pipelineStrategyPath gitRepoUrl).chart = some req)
    (he : (saveNewLatest deps db1 templateRequest chartName chartRepo refChart templateName
      pipelineStrategyPath gitRepoUrl).err = none) :
    ∃ chart0 : Chart, chart0.AppId = templateRequest.AppId ∧ chart0.Latest = true ∧
      chart0.ChartRefId = templateRequest.ChartRefId ∧
      (saveNewLatest deps db1 templateRequest chartName chartRepo refChart templateName
        pipelineStrategyPath gitRepoUrl).db.charts
        = db1.charts ++ [{ chart0 with Id := nextChartId db1.charts }] ∧
      req.Id = nextChartId db1.charts := by
  unfold saveNewLatest at hc he ⊢
  cases hb : buildChart deps db1.charts templateRequest chartName chartRepo refChart templateName
      pipelineStrategyPath gitRepoUrl true with
  | error e => rw [hb] at hc; cases hc
  | ok chart0 =>
    rw [hb] at hc he
    simp only [] at hc he ⊢
    obtain ⟨f1, f2, f3, _, f5⟩ := buildChart_fields _ _ _ _ _ _ _ _ _ _ _ hb
    rcases Save_cases deps db1.charts chart0 f1 with ⟨e, hs⟩ | hs
    · rw [hs] at hc; cases hc
    · rw [hs] at hc he ⊢
      simp only [] at hc he ⊢
      refine ⟨chart0, f2, f3, f5, by rw [finishCreate_charts], ?_⟩
      exact finishCreate_chart_id deps _ templateRequest _ req hc he

theorem Create_new_chart (deps : ChartDeps) (db : ChartDb) (templateRequest : TemplateRequest)
    (req : TemplateRequest) :
    (Create deps db templateRequest).chart = some req →
    (Create deps db templateRequest).err = none →
    ∃ (rows1 : List Chart) (chart0 : Chart),
      rows1.map (fun r => r.Id) = db.charts.map (fun r => r.Id) ∧
      chart0.AppId = templateRequest.AppId ∧ chart0.Latest = true ∧
      chart0.ChartRefId = templateRequest.ChartRefId ∧
      (Create deps db templateRequest).db.charts
        = rows1 ++ [{ chart0 with Id := nextChartId rows1 }] ∧
      req.Id = nextChartId rows1 := by
  unfold Create
  split
  · intro h; cases h
  · split
    · intro h; cases h
    · split
      · intro h; cases h
      · split
        · intro h; cases h
        · simp only []
          split
          · intro h; cases h
          · split
            · intro h; cases h
            · split
              · intro h; cases h
              · rename_i charts1 gitRepoUrl hret
                intro hc he
                have hids : charts1.map (fun r => r.Id) = db.charts.map (fun r => r.Id) := by
                  split at hret
                  · have hi := retireCurrentLatest_ids deps db.charts templateRequest.AppId
                      templateRequest.Id
                      (ChartRepository.FindLatestChartForAppByAppId db.charts
                        templateRequest.AppId).1
                    split at hret
                    · cases hret
                    · rename_i c1 hr1
                      simp only [Prod.mk.injEq, true_and] at hret
                      rw [hr1] at hi
                      rw [← hret.1]
                      exact hi
                  · simp only [Prod.mk.injEq, true_and] at hret
                    rw [← hret.1]
                obtain ⟨chart0, g1, g2, g3, g4, g5⟩ :=
                  saveNewLatest_new_chart deps _ templateRequest _ _ _ _ _ _ req hc he
                exact ⟨charts1, chart0, hids, g1, g2, g3, g4, g5⟩

theorem upgradeEnvOverrides_success (deps : ChartDeps) (appId userId : Int)
    (updatedChart : Chart) :
    ∀ (olds : List EnvConfigOverride) (db db1 : ChartDb),
    upgradeEnvOverrides deps appId userId updatedChart olds db = (none, db1) →
    db1.charts = db.charts ∧
    ∃ news, db1.envOverrides = db.envOverrides ++ news ∧
      List.Forall₂
        (fun new old => new.ChartId = updatedChart.Id ∧
          new.TargetEnvironment = old.TargetEnvironment ∧
          new.EnvOverrideValues = old.EnvOverrideValues ∧
          new.Latest = true ∧ new.Previous = false)
        news olds := by
  intro olds
  induction olds with
  | nil =>
    intro db db1 h
    simp only [upgradeEnvOverrides, Prod.mk.injEq, true_and] at h
    subst h
    exact ⟨rfl, [], by simp, List.Forall₂.nil⟩
  | cons x rest ih =>
    intro db db1 h
    rw [upgradeEnvOverrides] at h
    cases hen : deps.environmentFindById x.TargetEnvironment with
    | error e => rw [hen] at h; simp at h
    | ok ns =>
      rw [hen] at h
      simp only [] at h
      unfold EnvConfigOverrideRepository.Save at h
      cases hs : deps.envOverrideSaveErr (envOverrideNew deps x updatedChart userId ns) with
      | some e => rw [hs] at h; simp at h
      | none =>
        rw [hs] at h
        simp only [] at h
        split at h
        · simp at h
        · split at h
          · simp at h
          · split at h
            · simp at h
            · obtain ⟨hc, news, hn1, hn2⟩ := ih _ db1 h
              refine ⟨hc,
                { envOverrideNew deps x updatedChart userId ns with
                  Id := (db.envOverrides.map (fun o => o.Id)).foldl max 0 + 1 } :: news,
                ?_, List.Forall₂.cons ⟨rfl, rfl, rfl, rfl, rfl⟩ hn2⟩
              rw [hn1, List.append_assoc]
              rfl

theorem FindLatestChartForAppByAppId_ok (deps : ChartDeps) (db : ChartDb) (appId : Int)
    (current : Option TemplateRequest)
    (h : FindLatestChartForAppByAppId deps db appId = (current, none)) :
    ∃ c, ChartRepository.FindLatestChartForAppByAppId db.charts appId = (c, none) ∧
      (current.getD {}).Id = c.Id := by
  unfold FindLatestChartForAppByAppId at h
  rcases hf : ChartRepository.FindLatestChartForAppByAppId db.charts appId with ⟨c, e⟩
  rw [hf] at h
  cases e with
  | some e => simp at h
  | none =>
    simp only [] at h
    refine ⟨c, rfl, ?_⟩
    split at h
    · rename_i hcond
      simp only [Prod.mk.injEq] at h
      rw [h.2] at hcond
      simp at hcond
    · simp only [Prod.mk.injEq] at h
      obtain ⟨h1, h2⟩ := h
      subst h1
      unfold chartAdaptor at h2 ⊢
      by_cases hz : c.Id = 0
      · rw [if_pos hz] at h2; simp at h2
      · rw [if_neg hz] at h2 ⊢
        simp only [] at h2 ⊢
        cases hp : getParentChartVersion c.ChartVersion with
        | error e => rw [hp] at h2; simp at h2
        | ok v => rfl

/-- C23, counterexample. Application 7 has, for environment 2, one override row
with `Latest = true`. After a successful `UpgradeForApp` the row is unchanged,
a second row with `Latest = true` has been added for the new chart, and the
pair (application 7, environment 2) has two override rows with
`Latest = true`. -/
theorem UpgradeForApp_keeps_old_override_latest :
    latestOverrideCount oneOverride 7 2 = 1 ∧
    (UpgradeForApp {} oneOverride 7 12 (some "values") 3).ok = true ∧
    (UpgradeForApp {} oneOverride 7 12 (some "values") 3).err = none ∧
    (UpgradeForApp {} oneOverride 7 12 (some "values") 3).db.charts.map
      (fun c => (c.Id, c.AppId, c.Latest)) = [(1, 7, false), (2, 7, true)] ∧
    (UpgradeForApp {} oneOverride 7 12 (some "values") 3).db.envOverrides.map
      (fun o => (o.Id, o.ChartId, o.TargetEnvironment, o.Latest))
      = [(1, 1, 2, true), (2, 2, 2, true)] ∧
    latestOverrideCount (UpgradeForApp {} oneOverride 7 12 (some "values") 3).db 7 2 = 2 := by
  decide

theorem new_chart_found (rows rows1 charts : List Chart) (chart0 updatedChart : Chart) (id : Int)
    (hids : rows1.map (fun r => r.Id) = rows.map (fun r => r.Id))
    (hch : charts = rows1 ++ [{ chart0 with Id := nextChartId rows1 }])
    (hid : id = nextChartId rows1)
    (hf : ChartRepository.FindById charts id = (updatedChart, none)) :
    updatedChart = { chart0 with Id := nextChartId rows1 } ∧
    ∀ r ∈ rows, r.Id ≠ updatedChart.Id := by
  obtain ⟨hm, hi⟩ := FindById_some charts id updatedChart hf
  have hfresh := (nextChartId_fresh rows1).2
  have hu : updatedChart = { chart0 with Id := nextChartId rows1 } := by
    rw [hch] at hm
    rcases List.mem_append.mp hm with h1 | h1
    · have := hfresh updatedChart h1
      omega
    · exact List.mem_singleton.mp h1
  refine ⟨hu, ?_⟩
  intro r hr
  have h1 : r.Id ∈ rows.map (fun r => r.Id) := List.mem_map_of_mem _ hr
  rw [← hids] at h1
  obtain ⟨r1, hr1, hr1id⟩ := List.mem_map.mp h1
  have := hfresh r1 hr1
  have hid2 : updatedChart.Id = nextChartId rows1 := by rw [hi, hid]
  omega

/-- C23, amended. After a successful `UpgradeForApp`, `c` being the chart that
was the latest of the application before the call: the chart table holds a new
chart (its key is the key of no chart before the call) of the application,
with the requested chart reference and `Latest = true`; the override rows that
existed before the call are unchanged and keep their place, and they are
followed by one new row for every override row of `c`, in order; every new
row belongs to the new chart, has the `TargetEnvironment` and the
`EnvOverrideValues` of the row of `c` it was made from, and has `Latest = true`
and `Previous = false`. -/
theorem UpgradeForApp_appends_latest_overrides (deps : ChartDeps) (db : ChartDb)
    (appId chartRefId : Int) (defaultAppOverride : Option String) (userId : Int)
    (hok : (UpgradeForApp deps db appId chartRefId defaultAppOverride userId).err = none) :
    ∃ (c newChart : Chart) (news : List EnvConfigOverride),
      ChartRepository.FindLatestChartForAppByAppId db.charts appId = (c, none) ∧
      (UpgradeForApp deps db appId chartRefId defaultAppOverride userId).ok = true ∧
      newChart ∈ (UpgradeForApp deps db appId chartRefId defaultAppOverride userId).db.charts ∧
      (∀ r ∈ db.charts, r.Id ≠ newChart.Id) ∧
      newChart.AppId = appId ∧ newChart.ChartRefId = chartRefId ∧ newChart.Latest = true ∧
      (UpgradeForApp deps db appId chartRefId defaultAppOverride userId).db.envOverrides
        = db.envOverrides ++ news ∧
      List.Forall₂
        (fun new old => new.ChartId = newChart.Id ∧
          new.TargetEnvironment = old.TargetEnvironment ∧
          new.EnvOverrideValues = old.EnvOverrideValues ∧
          new.Latest = true ∧ new.Previous = false)
        news
        (EnvConfigOverrideRepository.GetEnvConfigByChartId deps db.envOverrides c.Id).1 := by
  unfold UpgradeForApp at hok ⊢
  rcases hf : FindLatestChartForAppByAppId deps db appId with ⟨current, e⟩
  rw [hf] at hok
  cases e with
  | some e =>
    simp only [] at hok
    split at hok <;> simp at hok
  | none =>
    obtain ⟨c, hc, hcid⟩ := FindLatestChartForAppByAppId_ok deps db appId current hf
    simp only [] at hok ⊢
    cases defaultAppOverride with
    | none => simp at hok
    | some dao =>
      simp only [] at hok ⊢
      have henv := Create_envOverrides deps db
        { ChartRefId := chartRefId, AppId := appId,
          ChartRepositoryId := (current.getD {}).ChartRepositoryId,
          DefaultAppOverride := dao,
          ValuesOverride := (current.getD {}).DefaultAppOverride, UserId := userId,
          IsBasicViewLocked := (current.getD {}).IsBasicViewLocked,
          CurrentViewEditor := (current.getD {}).CurrentViewEditor }
      have hnew := fun req => Create_new_chart deps db
        { ChartRefId := chartRefId, AppId := appId,
          ChartRepositoryId := (current.getD {}).ChartRepositoryId,
          DefaultAppOverride := dao,
          ValuesOverride := (current.getD {}).DefaultAppOverride, UserId := userId,
          IsBasicViewLocked := (current.getD {}).IsBasicViewLocked,
          CurrentViewEditor := (current.getD {}).CurrentViewEditor } req
      rcases hcr : Create deps db
        { ChartRefId := chartRefId, AppId := appId,
          ChartRepositoryId := (current.getD {}).ChartRepositoryId,
          DefaultAppOverride := dao,
          ValuesOverride := (current.getD {}).DefaultAppOverride, UserId := userId,
          IsBasicViewLocked := (current.getD {}).IsBasicViewLocked,
          CurrentViewEditor := (current.getD {}).CurrentViewEditor } with ⟨chart, cerr, cdb⟩
      rw [hcr] at hok henv hnew
      simp only [] at hok henv hnew ⊢
      cases cerr with
      | some e => simp at hok
      | none =>
        simp only [] at hok ⊢
        cases chart with
        | none => simp at hok
        | some upgradedChartReq =>
          simp only [] at hok ⊢
          obtain ⟨rows1, chart0, hids, g1, g2, g3, g4, g5⟩ := hnew upgradedChartReq rfl rfl
          by_cases hz : upgradedChartReq.Id = 0
          · rw [if_pos hz] at hok; simp at hok
          · rw [if_neg hz] at hok ⊢
            unfold upgradeEnvironments at hok ⊢
            rcases hfi : ChartRepository.FindById cdb.charts upgradedChartReq.Id
              with ⟨updatedChart, e2⟩
            rw [hfi] at hok
            cases e2 with
            | some e => simp at hok
            | none =>
              obtain ⟨hu, hfr⟩ := new_chart_found db.charts rows1 cdb.charts chart0 updatedChart
                upgradedChartReq.Id hids g4 g5 hfi
              obtain ⟨hum, _⟩ := FindById_some cdb.charts upgradedChartReq.Id updatedChart hfi
              simp only [] at hok ⊢
              rw [henv, hcid] at hok ⊢
              split at hok
              · rename_i hcond
                have hok2 : (EnvConfigOverrideRepository.GetEnvConfigByChartId deps
                    db.envOverrides c.Id).2 = none := hok
                rw [hok2] at hcond
                simp at hcond
              · rename_i hcond
                rw [if_neg hcond]
                rcases hup : upgradeEnvOverrides deps appId userId updatedChart
                    (EnvConfigOverrideRepository.GetEnvConfigByChartId deps db.envOverrides
                      c.Id).1 cdb with ⟨e3, db1⟩
                rw [hup] at hok
                cases e3 with
                | some e => simp at hok
                | none =>
                  obtain ⟨hch, news, hn1, hn2⟩ := upgradeEnvOverrides_success deps appId userId
                    updatedChart _ cdb db1 hup
                  rw [henv] at hn1
                  refine ⟨c, updatedChart, news, hc, rfl, ?_, hfr, ?_, ?_, ?_, hn1, hn2⟩
                  · simp only []
                    rw [hch]
                    exact hum
                  · rw [hu]; exact g1
                  · rw [hu]; exact g3
                  · rw [hu]; exact g2

/-- Witness for the amended C23: the upgrade of the counterexample. -/
theorem UpgradeForApp_appends_latest_overrides_witness :
    ∃ (c newChart : Chart) (news : List EnvConfigOverride),
      ChartRepository.FindLatestChartForAppByAppId oneOverride.charts 7 = (c, none) ∧
      (UpgradeForApp {} oneOverride 7 12 (some "values") 3).ok = true ∧
      newChart ∈ (UpgradeForApp {} oneOverride 7 12 (some "values") 3).db.charts ∧
      (∀ r ∈ oneOverride.charts, r.Id ≠ newChart.Id) ∧
      newChart.AppId = 7 ∧ newChart.ChartRefId = 12 ∧ newChart.Latest = true ∧
      (UpgradeForApp {} oneOverride 7 12 (some "values") 3).db.envOverrides
        = oneOverride.envOverrides ++ news ∧
      List.Forall₂
        (fun new old => new.ChartId = newChart.Id ∧
          new.TargetEnvironment = old.TargetEnvironment ∧
          new.EnvOverrideValues = old.EnvOverrideValues ∧
          new.Latest = true ∧ new.Previous = false)
        news
        (EnvConfigOverrideRepository.GetEnvConfigByChartId {} oneOverride.envOverrides c.Id).1 :=
  UpgradeForApp_appends_latest_overrides {} oneOverride 7 12 (some "values") 3 (by decide)

end Devtron
